import Mathlib

/-!
# Cantina service: the order placement workflow

A shallow embedding of `handleCreateOrder` (`order_handlers.go`) over an explicit
model of the relational store, and the properties of the placement workflow; then of
the handlers around it: `handleUpdateOrderStatus`, `handleGetOrderByID`,
`handleAdminGetOrders`, `handleGetMyOrders`, `fetchOrderItemsByOrderID`,
`ordersRouterHandler` (`order_handlers.go`), `fetchUserProfile`
(`profile_handlers.go`), `handleCreateMenuItem` and `handleUpdateMenuItem`
(`menu_handlers.go`), `authMiddleware` (`auth_middleware.go`),
`studentRouterHandler` (`student_handlers.go`) and the order routes of `main`
(`main.go`).

Conventions of the embedding.

* The relational store is a record of tables, each a list of rows in insertion
  order.  A single-row query (`QueryRow`) yields the first row that satisfies its
  `WHERE` clause, and `sql.ErrNoRows` when there is none.  Columns keep the values
  they are given.
* Everything the handler cannot determine by itself is read from an environment
  `Env`: whether a given statement fails at the level of the store (lost
  connection, malformed identifier, violated constraint, ...), and the identifiers
  and timestamps the store generates.  Theorems quantify over every environment.
* `float64` amounts are values of a carrier `α` with the operations of the class
  `Amount`; no algebraic law is assumed beyond irreflexivity of `<`.  `Float64` is
  the binary64 instance (round to nearest, ties to even), on which the scenarios are
  evaluated.  The subtraction of `SET credits = credits - $1`, which the store
  performs, is the subtraction of the class.
* `time.Time` values are kept abstract as natural numbers.
* A statement that fails in the store changes nothing.  An `UPDATE` rewrites the rows
  that satisfy its `WHERE` clause in place, and a query without `ORDER BY` yields its
  rows in table order.
* The user id that `authMiddleware` puts in the request context is a parameter of the
  handler, and so is the outcome of decoding the request body.
* `authMiddleware` is a function of the `Authorization` header and of the wrapped
  handler; the library function `jwt.Parse` and the case tables of Unicode outside
  ASCII are parameters.  A handler that panics writes no response.
* `ServeMux` selects the longest registered pattern that matches the path; a pattern
  without trailing slash matches the equal path only.
-/

namespace Cantina

/-! ## Amounts -/

/-- Operations on `float64` amounts used by the handlers: the constant `0.0`, `+`, `-`,
`*`, the conversion `float64(n)` of an integer and the comparisons `<` and `<=`. -/
class Amount (α : Type) where
  zero : α
  add : α → α → α
  sub : α → α → α
  mul : α → α → α
  ofInt : Int → α
  lt : α → α → Bool
  le : α → α → Bool
  lt_irrefl : ∀ a, lt a a = false

/-- Number of binary digits of `n`, counted over at most `fuel` digits. -/
def bitLengthAux : Nat → Nat → Nat
  | 0, _ => 0
  | fuel + 1, n => if n = 0 then 0 else bitLengthAux fuel (n / 2) + 1

/-- Number of binary digits of a natural number (`0` for `0`). -/
def bitLength (n : Nat) : Nat := bitLengthAux n n

/-- Number of trailing zero bits of `n`, searched over at most `fuel` bits. -/
def trailingZeros : Nat → Nat → Nat
  | 0, _ => 0
  | fuel + 1, n => if n ≠ 0 ∧ n % 2 = 0 then trailingZeros fuel (n / 2) + 1 else 0

/-- Values of an IEEE 754 binary64 (`float64`).  A finite value is the dyadic rational
`man * 2 ^ exp`, kept with `man` odd (zero is `finite 0 0`); the sign of zero is not
represented. -/
inductive Float64 where
  | finite (man : Int) (exp : Int)
  | inf (negative : Bool)
  | nan
  deriving DecidableEq, Repr

namespace Float64

/-- Canonical representative of `m * 2 ^ e`. -/
def normalize (m e : Int) : Float64 :=
  if m = 0 then finite 0 0
  else
    let tz := trailingZeros (bitLength m.natAbs) m.natAbs
    finite (m / (2 : Int) ^ tz) (e + tz)

/-- The binary64 nearest to the exact value `m * 2 ^ e`: 53 significant bits, least
exponent `-1074`, ties to even, overflow to infinity. -/
def round (m e : Int) : Float64 :=
  if m = 0 then finite 0 0
  else
    let n := m.natAbs
    let top := e + (bitLength n : Int) - 1
    let q := max (top - 52) (-1074)
    let k := (q - e).toNat
    let lower := n / 2 ^ k
    let rest := n % 2 ^ k
    let up : Bool := decide (2 ^ k < 2 * rest) || (decide (2 * rest = 2 ^ k) && decide (lower % 2 = 1))
    let n1 := if q ≤ e then n else if up then lower + 1 else lower
    let e1 := if q ≤ e then e else q
    if 1024 < e1 + (bitLength n1 : Int) then inf (decide (m < 0))
    else normalize (if m < 0 then -(n1 : Int) else (n1 : Int)) e1

/-- Exact sum of two dyadic rationals, as mantissa and exponent. -/
def alignAdd (m1 e1 m2 e2 : Int) : Int × Int :=
  let e := min e1 e2
  (m1 * (2 : Int) ^ (e1 - e).toNat + m2 * (2 : Int) ^ (e2 - e).toNat, e)

/-- Negation. -/
def neg : Float64 → Float64
  | finite m e => finite (-m) e
  | inf s => inf (!s)
  | nan => nan

/-- Addition `x + y`. -/
def add : Float64 → Float64 → Float64
  | finite m1 e1, finite m2 e2 => round (alignAdd m1 e1 m2 e2).1 (alignAdd m1 e1 m2 e2).2
  | finite _ _, inf s => inf s
  | inf s, finite _ _ => inf s
  | inf s, inf t => if s = t then inf s else nan
  | _, _ => nan

/-- Subtraction `x - y`. -/
def sub (x y : Float64) : Float64 := add x (neg y)

/-- Multiplication `x * y`. -/
def mul : Float64 → Float64 → Float64
  | finite m1 e1, finite m2 e2 => round (m1 * m2) (e1 + e2)
  | finite m _, inf s => if m = 0 then nan else inf (decide (m < 0) != s)
  | inf s, finite m _ => if m = 0 then nan else inf (s != decide (m < 0))
  | inf s, inf t => inf (s != t)
  | _, _ => nan

/-- Conversion `float64(n)` of an integer. -/
def ofInt (n : Int) : Float64 := round n 0

/-- Comparison `x < y` (false as soon as one side is NaN). -/
def lt : Float64 → Float64 → Bool
  | finite m1 e1, finite m2 e2 =>
      decide (m1 * (2 : Int) ^ (e1 - min e1 e2).toNat < m2 * (2 : Int) ^ (e2 - min e1 e2).toNat)
  | finite _ _, inf s => !s
  | inf s, finite _ _ => s
  | inf s, inf t => s && !t
  | _, _ => false

/-- Comparison `x <= y` (false as soon as one side is NaN). -/
def le : Float64 → Float64 → Bool
  | finite m1 e1, finite m2 e2 =>
      decide (m1 * (2 : Int) ^ (e1 - min e1 e2).toNat ≤ m2 * (2 : Int) ^ (e2 - min e1 e2).toNat)
  | finite _ _, inf s => !s
  | inf s, finite _ _ => s
  | inf s, inf t => s || !t
  | _, _ => false

end Float64

namespace Float64

/-- The amount of `k` quarters of the currency unit, `k * 0.25`. -/
def quarters (k : Int) : Float64 := normalize k (-2)

/-- The amount of `k` units of `2 ^ (-s)`, the dyadic value `k * 2 ^ (-s)`. -/
def ofScaled (s : Nat) (k : Int) : Float64 := normalize k (-(s : Int))

/-- A finite value that is not negative. -/
def isNonNeg : Float64 → Bool
  | finite m _ => decide (0 ≤ m)
  | _ => false

/-- A finite value that a binary64 holds: at most 53 significant bits, the last one of
weight at least `2 ^ (-1074)`, and a magnitude below `2 ^ 1024`. -/
def isBinary64 : Float64 → Bool
  | finite m e =>
      decide (bitLength m.natAbs ≤ 53) && decide (-1074 ≤ e) &&
        decide (e + (bitLength m.natAbs : Int) ≤ 1024)
  | _ => false

end Float64

/-! ## Data model -/

/-- Abstract `time.Time`. -/
abbrev Time := Nat

/-- Row of `public.users`. -/
structure UserRow (α : Type) where
  id : String
  fullName : Option String
  email : Option String
  credits : Option α
  role : String
  createdAt : Time
  updatedAt : Time
  deriving DecidableEq, Repr

/-- Row of `public.students`. -/
structure StudentRow where
  id : String
  name : String
  classID : Option String
  parentUserID : String
  createdAt : Time
  updatedAt : Time
  deriving DecidableEq, Repr

/-- Row of `public.menu_items`. -/
structure MenuItemRow (α : Type) where
  id : String
  name : String
  description : Option String
  price : α
  category : Option String
  imageURL : Option String
  isAvailable : Bool
  createdAt : Time
  updatedAt : Time
  deriving DecidableEq, Repr

/-- Row of `public.orders`. -/
structure OrderRow (α : Type) where
  id : String
  userID : String
  studentID : Option String
  orderDate : Time
  totalAmount : α
  status : String
  createdAt : Time
  updatedAt : Time
  deriving DecidableEq, Repr

/-- Row of `public.order_items`. -/
structure OrderItemRow (α : Type) where
  id : String
  orderID : String
  menuItemID : String
  quantity : Int
  priceAtPurchase : α
  createdAt : Time
  deriving DecidableEq, Repr

/-- The relational store: one list of rows per table. -/
structure Store (α : Type) where
  users : List (UserRow α)
  students : List StudentRow
  menuItems : List (MenuItemRow α)
  orders : List (OrderRow α)
  orderItems : List (OrderItemRow α)
  deriving DecidableEq, Repr

/-- Go struct `OrderItemRequest`.  `Quantity` is a Go `int`; only its sign and its
conversion to `float64` are used, so it is kept as an integer without a bound. -/
structure OrderItemRequest where
  menuItemID : String
  quantity : Int
  deriving DecidableEq, Repr

/-- Go struct `CreateOrderRequest`. -/
structure CreateOrderRequest where
  items : List OrderItemRequest
  studentID : String
  deriving DecidableEq, Repr

/-- Go struct `OrderItem`. -/
structure OrderItem (α : Type) where
  id : String
  orderID : String
  menuItemID : String
  menuItemName : String
  quantity : Int
  priceAtPurchase : α
  createdAt : Time
  deriving DecidableEq, Repr

/-- Go struct `Order`. -/
structure Order (α : Type) where
  id : String
  userID : String
  studentID : Option String
  orderDate : Time
  totalAmount : α
  status : String
  createdAt : Time
  updatedAt : Time
  items : List (OrderItem α)
  deriving DecidableEq, Repr

/-- What a handler writes as response body: the text given to `http.Error`, or the value
handed to `json.NewEncoder(w).Encode` (an order, a list of orders, or a menu item, whose
Go struct `MenuItem` has exactly the columns of the table). -/
inductive Body (α : Type) where
  | text (msg : String)
  | order (o : Order α)
  | orders (os : List (Order α))
  | menuItem (item : MenuItemRow α)
  deriving DecidableEq, Repr

/-- HTTP response: status code and body. -/
structure Response (α : Type) where
  status : Nat
  body : Body α
  deriving DecidableEq, Repr

/-- The call `http.Error(w, msg, code)`. -/
def httpError {α : Type} (msg : String) (code : Nat) : Response α :=
  { status := code, body := Body.text msg }

/-- What the store decides during one call of `handleCreateOrder`: which statements fail
at store level, and the generated identifiers and timestamps.  Lines are numbered from
`0` in request order. -/
structure Env where
  beginErr : Bool
  studentQueryErr : Bool
  menuQueryErr : Nat → Bool
  creditsQueryErr : Bool
  orderInsertErr : Bool
  itemInsertErr : Nat → Bool
  debitErr : Bool
  commitErr : Bool
  orderID : String
  orderDate : Time
  createdAt : Time
  updatedAt : Time
  itemID : Nat → String
  itemCreatedAt : Nat → Time

/-- An open transaction `tx`: the state its statements read and write, and whether
`Commit` has succeeded. -/
structure Tx (α : Type) where
  work : Store α
  committed : Bool

/-- The binary64 arithmetic of Go on `Float64`. -/
instance : Amount Float64 where
  zero := Float64.finite 0 0
  add := Float64.add
  sub := Float64.sub
  mul := Float64.mul
  ofInt := Float64.ofInt
  lt := Float64.lt
  le := Float64.le
  lt_irrefl := by
    intro a
    cases a <;> simp [Float64.lt]

/-! ## The placement workflow (`handleCreateOrder`) -/

section Placement

variable {α : Type} [Amount α]

/-- The validation loop over the requested items (lines 185-190): true when some item has
an empty `menu_item_id` or a quantity `<= 0`. -/
def hasInvalidItem : List OrderItemRequest → Bool
  | [] => false
  | itemReq :: rest =>
      if itemReq.menuItemID == "" || decide (itemReq.quantity ≤ 0) then true
      else hasInvalidItem rest

/-- The query `SELECT id FROM public.students WHERE id = $1 AND parent_user_id = $2`
run in the transaction. -/
def queryStudent (tx : Tx α) (studentID userID : String) : Option StudentRow :=
  tx.work.students.find? (fun st => st.id == studentID && st.parentUserID == userID)

/-- The query `SELECT name, price, is_available FROM public.menu_items WHERE id = $1` of
line `i`, run in the transaction; `none` stands for any error of `Scan`. -/
def queryMenuItem (env : Env) (tx : Tx α) (i : Nat) (menuItemID : String) :
    Option (MenuItemRow α) :=
  if env.menuQueryErr i then none
  else tx.work.menuItems.find? (fun mi => mi.id == menuItemID)

/-- The query `SELECT credits FROM public.users WHERE id = $1` scanned into a `float64`;
`none` stands for any error of `Scan` (store failure, no row, `NULL` credits). -/
def queryCredits (env : Env) (tx : Tx α) (userID : String) : Option α :=
  if env.creditsQueryErr then none
  else (tx.work.users.find? (fun u => u.id == userID)).bind (fun u => u.credits)

/-- How the line-resolution loop (lines 223-246) ends. -/
inductive Resolution (α : Type) where
  | notFound
  | unavailable
  | resolved (total : α) (items : List (OrderItem α))
  deriving DecidableEq, Repr

/-- The line-resolution loop (lines 223-246), from line number `i` on, with the running
`calculatedTotalAmount` and `itemsForOrder`.  The product and the sum of
`calculatedTotalAmount += itemPrice * float64(itemReq.Quantity)` are two operations,
each rounded on its own. -/
def resolveLines (env : Env) (tx : Tx α) :
    Nat → List OrderItemRequest → α → List (OrderItem α) → Resolution α
  | _, [], total, itemsForOrder => Resolution.resolved total itemsForOrder
  | i, itemReq :: rest, total, itemsForOrder =>
      match queryMenuItem env tx i itemReq.menuItemID with
      | none => Resolution.notFound
      | some mi =>
          if !mi.isAvailable then Resolution.unavailable
          else
            resolveLines env tx (i + 1) rest
              (Amount.add total (Amount.mul mi.price (Amount.ofInt itemReq.quantity)))
              (itemsForOrder ++ [{ id := "", orderID := "", menuItemID := itemReq.menuItemID,
                                   menuItemName := mi.name, quantity := itemReq.quantity,
                                   priceAtPurchase := mi.price, createdAt := 0 }])

/-- The row written by `INSERT INTO public.order_items` for line `i`. -/
def orderItemRow (env : Env) (i : Nat) (item : OrderItem α) : OrderItemRow α :=
  { id := env.itemID i, orderID := item.orderID, menuItemID := item.menuItemID,
    quantity := item.quantity, priceAtPurchase := item.priceAtPurchase,
    createdAt := env.itemCreatedAt i }

/-- The insertion loop over `itemsForOrder` (lines 298-311), from index `i` on: the
transaction after the loop and, unless an insert failed, the completed items. -/
def insertLines (env : Env) (orderID : String) :
    Nat → List (OrderItem α) → Tx α → List (OrderItem α) → Tx α × Option (List (OrderItem α))
  | _, [], tx, done => (tx, some done)
  | i, item :: rest, tx, done =>
      if env.itemInsertErr i then (tx, none)
      else
        let row := orderItemRow env i { item with orderID := orderID }
        insertLines env orderID (i + 1) rest
          { tx with work := { tx.work with orderItems := tx.work.orderItems ++ [row] } }
          (done ++ [{ item with orderID := orderID, id := row.id, createdAt := row.createdAt }])

/-- The statement `UPDATE public.users SET credits = credits - $1 WHERE id = $2`. -/
def debitCredits (users : List (UserRow α)) (amount : α) (userID : String) :
    List (UserRow α) :=
  users.map (fun u =>
    if u.id == userID then { u with credits := u.credits.map (fun c => Amount.sub c amount) }
    else u)

/-- The row written by `INSERT INTO public.orders (user_id, student_id, total_amount,
status)`; identifier and timestamps are generated by the store. -/
def orderRow (env : Env) (userID studentID : String) (total : α) (status : String) :
    OrderRow α :=
  { id := env.orderID, userID := userID, studentID := some studentID,
    orderDate := env.orderDate, totalAmount := total, status := status,
    createdAt := env.createdAt, updatedAt := env.updatedAt }

/-- The body of `handleCreateOrder` between `Begin` and the final return (lines 203-331):
the response written and the transaction as the body leaves it. -/
def createOrderInTx (env : Env) (tx : Tx α) (userID : String) (req : CreateOrderRequest) :
    Response α × Tx α :=
  if env.studentQueryErr then (httpError "Erro ao validar dados do pedido." 500, tx)
  else
    match queryStudent tx req.studentID userID with
    | none =>
        (httpError "Aluno especificado inválido ou não pertence a este responsável." 403, tx)
    | some _ =>
        match resolveLines env tx 0 req.items Amount.zero [] with
        | Resolution.notFound => (httpError "Item menu não encontrado" 400, tx)
        | Resolution.unavailable => (httpError "Item indisponível" 400, tx)
        | Resolution.resolved calculatedTotalAmount itemsForOrder =>
            match queryCredits env tx userID with
            | none => (httpError "Erro créditos" 500, tx)
            | some userCredits =>
                if Amount.lt userCredits calculatedTotalAmount then
                  (httpError "Créditos insuficientes" 402, tx)
                else if env.orderInsertErr then
                  (httpError "Erro ao registrar o pedido." 500, tx)
                else
                  let row := orderRow env userID req.studentID calculatedTotalAmount "PENDING"
                  let tx1 : Tx α :=
                    { tx with work := { tx.work with orders := tx.work.orders ++ [row] } }
                  let newOrder : Order α :=
                    { id := row.id, userID := userID,
                      studentID := if row.studentID.isSome then row.studentID
                                   else some req.studentID,
                      orderDate := row.orderDate, totalAmount := calculatedTotalAmount,
                      status := "PENDING", createdAt := row.createdAt,
                      updatedAt := row.updatedAt, items := [] }
                  match insertLines env newOrder.id 0 itemsForOrder tx1 [] with
                  | (tx2, none) => (httpError "Erro itens pedido" 500, tx2)
                  | (tx2, some inserted) =>
                      if env.debitErr then (httpError "Erro atualizar créditos" 500, tx2)
                      else
                        let tx3 : Tx α :=
                          { tx2 with work :=
                              { tx2.work with
                                users := debitCredits tx2.work.users newOrder.totalAmount userID } }
                        if env.commitErr then (httpError "Erro commit" 500, tx3)
                        else
                          ({ status := 201, body := Body.order { newOrder with items := inserted } },
                           { tx3 with committed := true })

/-- The handler `handleCreateOrder` for the authenticated user `userID`: the response and
the store after the call.  `payload` is the outcome of decoding the request body.  By
`defer tx.Rollback()` the store stays as it was unless `Commit` succeeded. -/
def handleCreateOrder (env : Env) (db : Store α) (userID : String)
    (payload : Except String CreateOrderRequest) : Response α × Store α :=
  match payload with
  | Except.error e => (httpError ("Corpo da requisição inválido: " ++ e) 400, db)
  | Except.ok reqPayload =>
      if reqPayload.items.length = 0 then
        (httpError "O pedido deve conter pelo menos um item." 400, db)
      else if reqPayload.studentID = "" then
        (httpError "O ID do aluno (student_id) é obrigatório." 400, db)
      else if hasInvalidItem reqPayload.items then
        (httpError "Cada item do pedido deve ter 'menu_item_id' e 'quantity' (>0) válida." 400, db)
      else if env.beginErr then (httpError "Erro servidor" 500, db)
      else
        let out := createOrderInTx env { work := db, committed := false } userID reqPayload
        (out.1, if out.2.committed then out.2.work else db)

/-! ## Vocabulary of the statements -/

/-- The sum of `price * quantity` over `lines`, accumulated from `start` in list order with
the operations of the amounts, as the code accumulates it. -/
def lineTotal (start : α) (lines : List (α × Int)) : α :=
  lines.foldl (fun t l => Amount.add t (Amount.mul l.1 (Amount.ofInt l.2))) start

/-- The `order_items` columns held by an `OrderItem`. -/
def OrderItem.toRow (item : OrderItem α) : OrderItemRow α :=
  { id := item.id, orderID := item.orderID, menuItemID := item.menuItemID,
    quantity := item.quantity, priceAtPurchase := item.priceAtPurchase,
    createdAt := item.createdAt }

/-- The `orders` columns held by an `Order`. -/
def Order.toRow (o : Order α) : OrderRow α :=
  { id := o.id, userID := o.userID, studentID := o.studentID, orderDate := o.orderDate,
    totalAmount := o.totalAmount, status := o.status, createdAt := o.createdAt,
    updatedAt := o.updatedAt }

/-- The first row of `menu_items` with the given id. -/
def Store.menuItem? (db : Store α) (menuItemID : String) : Option (MenuItemRow α) :=
  db.menuItems.find? (fun mi => mi.id == menuItemID)

/-- The balance (`credits`) of the first row of `users` with the given id. -/
def Store.balance? (db : Store α) (userID : String) : Option α :=
  (db.users.find? (fun u => u.id == userID)).bind (fun u => u.credits)

/-- Some student row has the given id and the given guardian (`parent_user_id`). -/
def Store.owns (db : Store α) (userID studentID : String) : Prop :=
  ∃ st ∈ db.students, st.id = studentID ∧ st.parentUserID = userID

/-- The item `item` is the snapshot of the requested line `itemReq` against `menu`: the
requested id and quantity, with name and price of the first menu row of that id, which
is available. -/
def Snapshot (menu : List (MenuItemRow α)) (itemReq : OrderItemRequest)
    (item : OrderItem α) : Prop :=
  ∃ mi, menu.find? (fun m => m.id == itemReq.menuItemID) = some mi ∧ mi.isAvailable = true ∧
    item = { id := "", orderID := "", menuItemID := itemReq.menuItemID,
             menuItemName := mi.name, quantity := itemReq.quantity,
             priceAtPurchase := mi.price, createdAt := 0 }

/-- The item `out` is `item` completed by its insertion under order `orderID`. -/
def Completed (orderID : String) (item out : OrderItem α) : Prop :=
  out.orderID = orderID ∧ out.menuItemID = item.menuItemID ∧
    out.menuItemName = item.menuItemName ∧ out.quantity = item.quantity ∧
    out.priceAtPurchase = item.priceAtPurchase

/-- The role is one of `staff`, `admin`, `super_admin`, as `handleUpdateOrderStatus` and
`handleAdminGetOrders` spell them. -/
def privilegedRole (role : String) : Prop :=
  role = "staff" ∨ role = "admin" ∨ role = "super_admin"

/-- A request that passes the validation of lines 176-190. -/
def ValidRequest (req : CreateOrderRequest) : Prop :=
  req.items ≠ [] ∧ req.studentID ≠ "" ∧
    ∀ itemReq ∈ req.items, itemReq.menuItemID ≠ "" ∧ 0 < itemReq.quantity

/-- The order encoded in the response of a successful placement. -/
def createdOrder (env : Env) (userID studentID : String) (total : α)
    (inserted : List (OrderItem α)) : Order α :=
  { id := env.orderID, userID := userID, studentID := some studentID,
    orderDate := env.orderDate, totalAmount := total, status := "PENDING",
    createdAt := env.createdAt, updatedAt := env.updatedAt, items := inserted }

end Placement

instance {α : Type} (db : Store α) (userID studentID : String) :
    Decidable (db.owns userID studentID) := by
  unfold Store.owns
  infer_instance

instance (role : String) : Decidable (privilegedRole role) := by
  unfold privilegedRole
  infer_instance

instance (req : CreateOrderRequest) : Decidable (ValidRequest req) := by
  unfold ValidRequest
  infer_instance

/-! ## Strings (`strings.TrimSpace`, `strings.ToUpper`) -/

/-- The predicate `unicode.IsSpace`: tab, line feed, vertical tab, form feed, carriage
return, space, U+0085, U+00A0, and the characters of category Z. -/
def isSpace (c : Char) : Bool :=
  c.toNat == 9 || c.toNat == 10 || c.toNat == 11 || c.toNat == 12 || c.toNat == 13 ||
    c.toNat == 32 || c.toNat == 0x85 || c.toNat == 0xA0 || c.toNat == 0x1680 ||
    (decide (0x2000 ≤ c.toNat) && decide (c.toNat ≤ 0x200A)) || c.toNat == 0x2028 ||
    c.toNat == 0x2029 || c.toNat == 0x202F || c.toNat == 0x205F || c.toNat == 0x3000

/-- The function `strings.TrimSpace`: the string without its leading and trailing white
space. -/
def trimSpace (s : String) : String :=
  String.mk ((s.data.dropWhile isSpace).reverse.dropWhile isSpace).reverse

/-- The function `unicode.ToUpper` on one character: the letters `a` to `z` are mapped to
`A` to `Z` and the other ASCII characters are left as they are; a character outside
ASCII is mapped by the case tables of Unicode, given as `upperTable`. -/
def toUpperRune (upperTable : Char → Char) (c : Char) : Char :=
  if c.toNat < 128 then
    (if 97 ≤ c.toNat ∧ c.toNat ≤ 122 then Char.ofNat (c.toNat - 32) else c)
  else upperTable c

/-- The function `strings.ToUpper`. -/
def toUpper (upperTable : Char → Char) (s : String) : String :=
  String.mk (s.data.map (toUpperRune upperTable))

/-! ## Profiles and order lines read by the other handlers -/

section Reads

variable {α : Type}

/-- Error of a query: `sql.ErrNoRows`, or any other error. -/
inductive QueryError where
  | noRows
  | other
  deriving DecidableEq, Repr

/-- Go struct `UserProfile`. -/
structure UserProfile (α : Type) where
  id : String
  fullName : Option String
  email : Option String
  credits : Option α
  role : String
  createdAt : Time
  updatedAt : Time
  deriving DecidableEq, Repr

/-- The function `fetchUserProfile` (`profile_handlers.go`): the first row of `users` with
the given id; `queryErr` tells whether the query fails in the store. -/
def fetchUserProfile (queryErr : Bool) (db : Store α) (userID : String) :
    Except QueryError (UserProfile α) :=
  if queryErr then Except.error QueryError.other
  else
    match db.users.find? (fun u => u.id == userID) with
    | none => Except.error QueryError.noRows
    | some u =>
        Except.ok { id := u.id, fullName := u.fullName, email := u.email, credits := u.credits,
                    role := u.role, createdAt := u.createdAt, updatedAt := u.updatedAt }

/-- What the store decides during one call of `fetchOrderItemsByOrderID`: whether the query
fails, whether the scan of the row number `k` fails, whether the iteration ends in an
error. -/
structure FetchEnv where
  queryErr : Bool
  scanErr : Nat → Bool
  rowsErr : Bool

/-- The rows of the query of `fetchOrderItemsByOrderID`: the lines of the order joined with
the menu rows of their item (`JOIN public.menu_items mi ON oi.menu_item_id = mi.id`),
in table order. -/
def orderItemsJoin (db : Store α) (orderID : String) : List (OrderItem α) :=
  (db.orderItems.filter (fun oi => oi.orderID == orderID)).flatMap (fun oi =>
    (db.menuItems.filter (fun mi => oi.menuItemID == mi.id)).map (fun mi =>
      { id := oi.id, orderID := oi.orderID, menuItemID := oi.menuItemID,
        menuItemName := mi.name, quantity := oi.quantity,
        priceAtPurchase := oi.priceAtPurchase, createdAt := oi.createdAt }))

/-- The loop `for itemRows.Next()` of `fetchOrderItemsByOrderID`, from row number `k` on;
`none` when a scan fails. -/
def scanOrderItems (env : FetchEnv) :
    Nat → List (OrderItem α) → List (OrderItem α) → Option (List (OrderItem α))
  | _, [], orderItems => some orderItems
  | k, item :: rest, orderItems =>
      if env.scanErr k then none
      else scanOrderItems env (k + 1) rest (orderItems ++ [item])

/-- The function `fetchOrderItemsByOrderID`; `none` stands for a returned error. -/
def fetchOrderItemsByOrderID (env : FetchEnv) (db : Store α) (orderID : String) :
    Option (List (OrderItem α)) :=
  if env.queryErr then none
  else
    match scanOrderItems env 0 (orderItemsJoin db orderID) [] with
    | none => none
    | some orderItems => if env.rowsErr then none else some orderItems

/-- The items a handler puts in an order after calling `fetchOrderItemsByOrderID`: the
fetched items, or the empty list when the call returned an error. -/
def itemsOrEmpty (env : FetchEnv) (db : Store α) (orderID : String) : List (OrderItem α) :=
  match fetchOrderItemsByOrderID env db orderID with
  | none => []
  | some orderItems => orderItems

/-- The `Order` scanned from the columns `id, user_id, order_date, total_amount, status,
created_at, updated_at` of a row of `orders`; `StudentID` stays `nil`. -/
def scanOrder (row : OrderRow α) (items : List (OrderItem α)) : Order α :=
  { id := row.id, userID := row.userID, studentID := none, orderDate := row.orderDate,
    totalAmount := row.totalAmount, status := row.status, createdAt := row.createdAt,
    updatedAt := row.updatedAt, items := items }

/-- The ids of the orders listed in a response, in order (empty when the body is not a list
of orders). -/
def listedIDs (r : Response α) : List String :=
  match r.body with
  | Body.orders os => os.map (fun o => o.id)
  | _ => []

end Reads

/-! ## Status transitions (`handleUpdateOrderStatus`) -/

section StatusUpdate

variable {α : Type}

/-- Go struct `UpdateOrderStatusPayload`. -/
structure UpdateOrderStatusPayload where
  status : String
  deriving DecidableEq, Repr

/-- What the handler `handleUpdateOrderStatus` does not determine by itself: whether the
profile query and the update fail in the store, the value of `NOW()`, the environment of
the call of `fetchOrderItemsByOrderID`, and the case tables of Unicode outside ASCII. -/
structure StatusEnv where
  profileQueryErr : Bool
  updateErr : Bool
  now : Time
  items : FetchEnv
  upperTable : Char → Char

/-- The keys of the map `validStatuses`. -/
def validStatuses : List String :=
  ["PENDING", "PREPARING", "READY", "COMPLETED", "CANCELED"]

/-- The statement `UPDATE public.orders SET status = $1, updated_at = NOW() WHERE id = $2`
on the table. -/
def updateStatusRows (orders : List (OrderRow α)) (status : String) (now : Time)
    (orderID : String) : List (OrderRow α) :=
  orders.map (fun o =>
    if o.id == orderID then { o with status := status, updatedAt := now } else o)

/-- The handler `handleUpdateOrderStatus`: the response and the store after the call.
`userID` is the value of the request context under `userContextKey` and `payload` the
outcome of decoding the request body.  A statement that fails in the store changes
nothing. -/
def handleUpdateOrderStatus (env : StatusEnv) (db : Store α) (userID : Option String)
    (orderID : String) (payload : Except String UpdateOrderStatusPayload) :
    Response α × Store α :=
  match userID with
  | none => (httpError "Usuário não autenticado" 401, db)
  | some requestingUserID =>
      match fetchUserProfile env.profileQueryErr db requestingUserID with
      | Except.error QueryError.noRows =>
          (httpError "Perfil de usuário solicitante não encontrado." 401, db)
      | Except.error QueryError.other =>
          (httpError "Erro no servidor ao verificar permissões." 500, db)
      | Except.ok requestingUserProfile =>
          if requestingUserProfile.role ≠ "staff" ∧ requestingUserProfile.role ≠ "admin" ∧
              requestingUserProfile.role ≠ "super_admin" then
            (httpError "Acesso não autorizado para esta ação." 403, db)
          else
            match payload with
            | Except.error e => (httpError ("Corpo da requisição inválido: " ++ e) 400, db)
            | Except.ok payload =>
                let newStatus := trimSpace payload.status
                if newStatus = "" then (httpError "Novo status não pode ser vazio." 400, db)
                else if ¬ (toUpper env.upperTable newStatus ∈ validStatuses) then
                  (httpError ("Status '" ++ newStatus ++ "' inválido.") 400, db)
                else if env.updateErr then
                  (httpError "Erro no servidor ao atualizar status do pedido." 500, db)
                else
                  match db.orders.find? (fun o => o.id == orderID) with
                  | none =>
                      (httpError "Pedido não encontrado para atualização de status." 404, db)
                  | some row =>
                      let status := toUpper env.upperTable newStatus
                      let db1 : Store α :=
                        { db with orders := updateStatusRows db.orders status env.now orderID }
                      let updatedRow : OrderRow α :=
                        { row with status := status, updatedAt := env.now }
                      ({ status := 200,
                         body := Body.order
                           (scanOrder updatedRow (itemsOrEmpty env.items db1 updatedRow.id)) },
                       db1)

end StatusUpdate

/-! ## Menu item update (`handleUpdateMenuItem`) -/

section MenuUpdate

variable {α : Type}

/-- Go struct `CreateMenuItemPayload`. -/
structure CreateMenuItemPayload (α : Type) where
  name : String
  description : Option String
  price : α
  category : Option String
  imageURL : Option String
  isAvailable : Option Bool
  deriving DecidableEq, Repr

/-- What the store decides during one call of `handleUpdateMenuItem`: whether the update
fails, and the value of `NOW()`. -/
structure MenuEnv where
  updateErr : Bool
  now : Time

/-- The columns set by the `UPDATE public.menu_items` of `handleUpdateMenuItem` on one
row. -/
def updatedMenuItem (payload : CreateMenuItemPayload α) (isAvailable : Bool) (now : Time)
    (mi : MenuItemRow α) : MenuItemRow α :=
  { id := mi.id, name := payload.name, description := payload.description,
    price := payload.price, category := payload.category, imageURL := payload.imageURL,
    isAvailable := isAvailable, createdAt := mi.createdAt, updatedAt := now }

/-- The handler `handleUpdateMenuItem` (`menu_handlers.go`): the response and the store
after the call.  `payload` is the outcome of decoding the request body. -/
def handleUpdateMenuItem (env : MenuEnv) (db : Store α) (itemID : String)
    (payload : Except String (CreateMenuItemPayload α)) : Response α × Store α :=
  match payload with
  | Except.error e => (httpError ("Payload inválido: " ++ e) 400, db)
  | Except.ok payload =>
      let isAvailable : Bool :=
        match payload.isAvailable with
        | some b => b
        | none => true
      if env.updateErr then (httpError "Erro no servidor ao atualizar" 500, db)
      else
        match db.menuItems.find? (fun mi => mi.id == itemID) with
        | none => (httpError "Item do cardápio não encontrado para atualização" 404, db)
        | some mi =>
            ({ status := 200,
               body := Body.menuItem (updatedMenuItem payload isAvailable env.now mi) },
             { db with menuItems := db.menuItems.map (fun m =>
                 if m.id == itemID then updatedMenuItem payload isAvailable env.now m else m) })

end MenuUpdate

/-! ## Reading orders (`handleGetOrderByID`, `handleAdminGetOrders`) -/

section OrderReads

variable {α : Type}

/-- What the store decides during one call of `handleGetOrderByID`. -/
structure ReadEnv where
  profileQueryErr : Bool
  orderQueryErr : Bool
  items : FetchEnv

/-- The handler `handleGetOrderByID`: the response (the store is only read). -/
def handleGetOrderByID (env : ReadEnv) (db : Store α) (userID : Option String)
    (orderIDFromPath : String) : Response α :=
  match userID with
  | none => httpError "Usuário não autenticado" 401
  | some requestingUserID =>
      match fetchUserProfile env.profileQueryErr db requestingUserID with
      | Except.error QueryError.noRows =>
          httpError "Perfil de usuário solicitante não encontrado." 401
      | Except.error QueryError.other =>
          httpError "Erro no servidor ao verificar permissões." 500
      | Except.ok requestingUserProfile =>
          if env.orderQueryErr then httpError "Erro no servidor ao buscar pedido." 500
          else
            match db.orders.find? (fun o => o.id == orderIDFromPath) with
            | none => httpError "Pedido não encontrado." 404
            | some row =>
                let canViewOrder : Bool :=
                  if requestingUserProfile.role = "ADMIN" ∨
                      requestingUserProfile.role = "SUPER_ADMIN" ∨
                      requestingUserProfile.role = "STAFF" then true
                  else if requestingUserProfile.role = "CLIENTE" ∧
                      row.userID = requestingUserID then true
                  else false
                if !canViewOrder then httpError "Acesso não autorizado a este pedido." 403
                else
                  { status := 200,
                    body := Body.order (scanOrder row (itemsOrEmpty env.items db row.id)) }

/-- What the store decides during one call of `handleAdminGetOrders`: whether the profile
query and the list query fail, whether the scan of the row number `k` fails, and the
environment of the call of `fetchOrderItemsByOrderID` for the row number `k`. -/
structure ListEnv where
  profileQueryErr : Bool
  queryErr : Bool
  scanErr : Nat → Bool
  items : Nat → FetchEnv

/-- The clause `ORDER BY order_date DESC`: a stable sort, newest first. -/
def orderByDateDesc (rows : List (OrderRow α)) : List (OrderRow α) :=
  rows.insertionSort (fun a b => b.orderDate ≤ a.orderDate)

/-- The loop `for orderRows.Next()` of `handleAdminGetOrders`, from row number `k` on: a
row whose scan fails is skipped. -/
def scanOrders (env : ListEnv) (db : Store α) :
    Nat → List (OrderRow α) → List (Order α) → List (Order α)
  | _, [], allOrders => allOrders
  | k, row :: rest, allOrders =>
      if env.scanErr k then scanOrders env db (k + 1) rest allOrders
      else
        scanOrders env db (k + 1) rest
          (allOrders ++ [scanOrder row (itemsOrEmpty (env.items k) db row.id)])

/-- The handler `handleAdminGetOrders`: the response (the store is only read).
`statusFilter` is the query parameter `status`, empty when absent; `conditions` is the
`WHERE` clause built by the handler, `none` when the handler answers the empty list
without a query.  The error of `orderRows.Err()` is only logged. -/
def handleAdminGetOrders (env : ListEnv) (db : Store α) (userID : Option String)
    (statusFilter : String) : Response α :=
  match userID with
  | none => httpError "Usuário não autenticado" 401
  | some requestingUserID =>
      match fetchUserProfile env.profileQueryErr db requestingUserID with
      | Except.error QueryError.noRows =>
          httpError "Usuário solicitante não encontrado ou perfil não configurado." 401
      | Except.error QueryError.other =>
          httpError "Erro no servidor ao verificar permissões." 500
      | Except.ok requestingUserProfile =>
          let isPrivilegedViewer : Bool :=
            decide (requestingUserProfile.role = "admin" ∨
              requestingUserProfile.role = "super_admin")
          let isAllowed : Bool :=
            isPrivilegedViewer || decide (requestingUserProfile.role = "staff")
          if !isAllowed then httpError "Acesso não autorizado para este recurso." 403
          else
            let conditions : Option (OrderRow α → Bool) :=
              if isPrivilegedViewer then
                (if statusFilter ≠ "" then some (fun o => o.status == statusFilter)
                 else some (fun _ => true))
              else if requestingUserProfile.role = "staff" then
                (if statusFilter ≠ "" then
                  (if statusFilter = "PENDING" ∨ statusFilter = "PREPARING" ∨
                      statusFilter = "READY" then some (fun o => o.status == statusFilter)
                   else none)
                 else
                  some (fun o =>
                    o.status == "PENDING" || o.status == "PREPARING" || o.status == "READY"))
              else some (fun _ => true)
            match conditions with
            | none => { status := 200, body := Body.orders [] }
            | some cond =>
                if env.queryErr then httpError "Erro ao buscar lista de pedidos." 500
                else
                  { status := 200,
                    body := Body.orders
                      (scanOrders env db 0 (orderByDateDesc (db.orders.filter cond)) []) }

end OrderReads

/-! ## The orders of the authenticated user (`handleGetMyOrders`) -/

section MyOrders

variable {α : Type}

/-- What the store decides during one call of `handleGetMyOrders`: whether the query fails,
whether the scan of the row number `k` fails, the environment of the call of
`fetchOrderItemsByOrderID` for the row number `k`, and whether the iteration ends in an
error. -/
structure MyOrdersEnv where
  queryErr : Bool
  scanErr : Nat → Bool
  items : Nat → FetchEnv
  rowsErr : Bool

/-- The loop `for rows.Next()` of `handleGetMyOrders`, from row number `k` on; `none` when a
scan fails (the handler then answers 500). -/
def scanMyOrders (env : MyOrdersEnv) (db : Store α) :
    Nat → List (OrderRow α) → List (Order α) → Option (List (Order α))
  | _, [], userOrders => some userOrders
  | k, row :: rest, userOrders =>
      if env.scanErr k then none
      else
        scanMyOrders env db (k + 1) rest
          (userOrders ++ [scanOrder row (itemsOrEmpty (env.items k) db row.id)])

/-- The handler `handleGetMyOrders`: the response (the store is only read).  `userID` is the
value of the request context under `userContextKey`. -/
def handleGetMyOrders (env : MyOrdersEnv) (db : Store α) (userID : Option String) :
    Response α :=
  match userID with
  | none => httpError "Usuário não autenticado" 401
  | some userID =>
      if userID = "" then httpError "ID de usuário inválido no token" 401
      else if env.queryErr then httpError "Erro ao buscar histórico de pedidos." 500
      else
        match scanMyOrders env db 0
            (orderByDateDesc (db.orders.filter (fun o => o.userID == userID))) [] with
        | none => httpError "Erro ao processar histórico de pedidos." 500
        | some userOrders =>
            if env.rowsErr then httpError "Erro ao processar dados dos pedidos." 500
            else { status := 200, body := Body.orders userOrders }

end MyOrders

/-! ## Menu item creation (`handleCreateMenuItem`) -/

section MenuCreate

variable {α : Type} [Amount α]

/-- What the store decides during one call of `handleCreateMenuItem`: whether the insert
fails, the generated id and the value of `NOW()`. -/
structure MenuCreateEnv where
  insertErr : Bool
  itemID : String
  now : Time

/-- The handler `handleCreateMenuItem` (`menu_handlers.go`): the response and the store
after the call.  `payload` is the outcome of decoding the request body. -/
def handleCreateMenuItem (env : MenuCreateEnv) (db : Store α)
    (payload : Except String (CreateMenuItemPayload α)) : Response α × Store α :=
  match payload with
  | Except.error _ => (httpError "Payload inválido" 400, db)
  | Except.ok payload =>
      if payload.name = "" then (httpError "Nome obrigatório" 400, db)
      else if Amount.le payload.price (Amount.zero : α) then (httpError "Preço > 0" 400, db)
      else
        let isAvailable : Bool :=
          match payload.isAvailable with
          | some b => b
          | none => true
        if env.insertErr then (httpError "Erro servidor" 500, db)
        else
          let newItem : MenuItemRow α :=
            { id := env.itemID, name := payload.name, description := payload.description,
              price := payload.price, category := payload.category,
              imageURL := payload.imageURL, isAvailable := isAvailable,
              createdAt := env.now, updatedAt := env.now }
          ({ status := 201, body := Body.menuItem newItem },
           { db with menuItems := db.menuItems ++ [newItem] })

end MenuCreate

/-! ## Authentication (`authMiddleware`) -/

section Auth

/-- The loop of `strings.Split(s, sep)` for a separator of one character: the parts of the
rest of the string, `cur` being the reversed part read so far. -/
def splitAux (sep : Char) : List Char → List Char → List String
  | [], cur => [String.mk cur.reverse]
  | c :: cs, cur =>
      if c = sep then String.mk cur.reverse :: splitAux sep cs []
      else splitAux sep cs (c :: cur)

/-- The call `strings.Split(s, " ")`. -/
def splitOnSpace (s : String) : List String :=
  splitAux (Char.ofNat 32) s.data []

/-- The function `unicode.ToLower` on one character: the letters `A` to `Z` are mapped to
`a` to `z` and the other ASCII characters are left as they are; a character outside
ASCII is mapped by the case tables of Unicode, given as `lowerTable`. -/
def toLowerRune (lowerTable : Char → Char) (c : Char) : Char :=
  if c.toNat < 128 then
    (if 65 ≤ c.toNat ∧ c.toNat ≤ 90 then Char.ofNat (c.toNat + 32) else c)
  else lowerTable c

/-- The function `strings.ToLower`. -/
def toLower (lowerTable : Char → Char) (s : String) : String :=
  String.mk (s.data.map (toLowerRune lowerTable))

/-- What `jwt.Parse` returns for a token: whether it returned an error, whether the claims
are `jwt.MapClaims`, the field `token.Valid`, and the claim `sub` when it is present and a
string. -/
structure ParsedToken where
  parseErr : Bool
  claimsAreMap : Bool
  valid : Bool
  sub : Option String
  deriving DecidableEq, Repr

/-- What `authMiddleware` reads outside the request: the environment variable
`SUPABASE_JWT_SECRET`, the function `jwt.Parse` (of the secret and the token string), and
the case tables of Unicode outside ASCII. -/
structure AuthEnv where
  jwtSecret : String
  parse : String → String → ParsedToken
  lowerTable : Char → Char

/-- The middleware `authMiddleware` on a request with the given `Authorization` header
(empty when absent).  `deny msg code` is the answer `http.Error(w, msg, code)` and
`next ctx` the wrapped handler run on a request whose context holds `ctx` under
`userContextKey`. -/
def authMiddleware {β : Type} (env : AuthEnv) (authHeader : String)
    (deny : String → Nat → β) (next : Option String → β) : β :=
  if env.jwtSecret = "" then deny "Configuração do servidor incompleta" 500
  else if authHeader = "" then deny "Cabeçalho de autorização ausente" 401
  else
    let parts := splitOnSpace authHeader
    if parts.length ≠ 2 ∨ toLower env.lowerTable (parts.getD 0 "") ≠ "bearer" then
      deny "Formato do cabeçalho de autorização inválido (esperado: Bearer <token>)" 401
    else
      let token := env.parse env.jwtSecret (parts.getD 1 "")
      if token.parseErr then deny "Token inválido ou expirado" 401
      else if token.claimsAreMap && token.valid then
        match token.sub with
        | none => deny "Token inválido (sem ID de usuário)" 401
        | some userID =>
            if userID = "" then deny "Token inválido (sem ID de usuário)" 401
            else next (some userID)
      else deny "Token inválido" 401

/-- The header authenticates the user `uid`: it has exactly two parts separated by one
space, the first is `bearer` up to letter case, and the second is a token that verifies
and whose claim `sub` is the non-empty string `uid`. -/
def Authenticates (env : AuthEnv) (authHeader uid : String) : Prop :=
  ∃ scheme tokenString,
    splitOnSpace authHeader = [scheme, tokenString] ∧
    toLower env.lowerTable scheme = "bearer" ∧
    (env.parse env.jwtSecret tokenString).parseErr = false ∧
    (env.parse env.jwtSecret tokenString).claimsAreMap = true ∧
    (env.parse env.jwtSecret tokenString).valid = true ∧
    (env.parse env.jwtSecret tokenString).sub = some uid ∧
    uid ≠ ""

end Auth

/-! ## Routing (`main`, `ordersRouterHandler`, `studentRouterHandler`) -/

section Routing

variable {α : Type} [Amount α]

/-- The function `strings.TrimPrefix`. -/
def trimPrefixStr (s pre : String) : String :=
  if pre.data.isPrefixOf s.data then String.mk (s.data.drop pre.data.length) else s

/-- The call `strings.Trim(s, "/")`: the string without its leading and trailing slashes. -/
def trimSlashes (s : String) : String :=
  String.mk ((s.data.dropWhile (fun c => c == Char.ofNat 47)).reverse.dropWhile
    (fun c => c == Char.ofNat 47)).reverse

/-- An HTTP request as the order routes read it: method, path, `Authorization` header
(empty when absent), query parameter `status` (empty when absent), and the outcome of
decoding the body as `CreateOrderRequest` and as `UpdateOrderStatusPayload`. -/
structure Request where
  method : String
  path : String
  authorization : String
  statusFilter : String
  orderPayload : Except String CreateOrderRequest
  statusPayload : Except String UpdateOrderStatusPayload

/-- The environments of the middleware and of the handlers behind the order routes. -/
structure ServerEnv where
  auth : AuthEnv
  create : Env
  status : StatusEnv
  read : ReadEnv
  list : ListEnv
  mine : MyOrdersEnv

/-- What the server does when a handler panics: nothing is written and the connection is
closed. -/
def panicked : Response α :=
  { status := 0, body := Body.text "" }

/-- The first statements of `handleCreateOrder`: the unchecked assertion
`r.Context().Value(userContextKey).(string)`, which panics on `nil`, then the handler. -/
def handleCreateOrderCtx (env : Env) (db : Store α) (ctx : Option String)
    (payload : Except String CreateOrderRequest) : Response α × Store α :=
  match ctx with
  | none => (panicked, db)
  | some userIDfromContext => handleCreateOrder env db userIDfromContext payload

/-- The handler registered by `main` for the pattern `/orders`. -/
def ordersHandler (env : ServerEnv) (db : Store α) (r : Request) : Response α × Store α :=
  if r.method = "POST" then
    authMiddleware env.auth r.authorization (fun msg code => (httpError msg code, db))
      (fun ctx => handleCreateOrderCtx env.create db ctx r.orderPayload)
  else (httpError "Método não permitido para /orders. Use POST para criar." 405, db)

/-- The handler registered by `main` for the pattern `/me/orders`. -/
def myOrdersHandler (env : ServerEnv) (db : Store α) (r : Request) : Response α × Store α :=
  if r.method = "GET" then
    authMiddleware env.auth r.authorization (fun msg code => (httpError msg code, db))
      (fun ctx => (handleGetMyOrders env.mine db ctx, db))
  else (httpError "Método não permitido para /me/orders. Use GET." 405, db)

/-- The handler `ordersRouterHandler`, registered by `main` for the pattern `/orders/`. -/
def ordersRouterHandler (env : ServerEnv) (db : Store α) (r : Request) :
    Response α × Store α :=
  let orderIDSegment := trimSlashes (trimPrefixStr r.path "/orders/")
  if orderIDSegment = "" then
    if r.method = "GET" then
      authMiddleware env.auth r.authorization (fun msg code => (httpError msg code, db))
        (fun ctx => (handleAdminGetOrders env.list db ctx r.statusFilter, db))
    else if r.method = "POST" then
      authMiddleware env.auth r.authorization (fun msg code => (httpError msg code, db))
        (fun ctx => handleCreateOrderCtx env.create db ctx r.orderPayload)
    else (httpError "Método não permitido para /orders/" 405, db)
  else
    if r.method = "GET" then
      authMiddleware env.auth r.authorization (fun msg code => (httpError msg code, db))
        (fun ctx => (handleGetOrderByID env.read db ctx orderIDSegment, db))
    else if r.method = "PUT" then
      authMiddleware env.auth r.authorization (fun msg code => (httpError msg code, db))
        (fun ctx => handleUpdateOrderStatus env.status db ctx orderIDSegment r.statusPayload)
    else (httpError ("Método não permitido para /orders/" ++ orderIDSegment) 405, db)

/-- The handler `studentRouterHandler`, with the two handlers it wraps as parameters:
`createStudent ctx` and `getMyStudents ctx` are `handleCreateStudent` and
`handleGetMyStudents` run on a request whose context holds `ctx`. -/
def studentRouterHandler {β : Type} (auth : AuthEnv) (method path authHeader : String)
    (deny : String → Nat → β) (createStudent getMyStudents : Option String → β) : β :=
  if "/me/students".data.isPrefixOf path.data then
    if method = "GET" then authMiddleware auth authHeader deny getMyStudents
    else deny "Método não permitido para /me/students" 405
  else
    let idSegment := trimSlashes (trimPrefixStr path "/students/")
    if idSegment = "" then
      if method = "POST" then authMiddleware auth authHeader deny createStudent
      else deny "Método não permitido para /students/" 405
    else
      deny ("Método para /students/" ++ idSegment ++ " não implementado ou não permitido") 405

/-- The patterns registered by `main` on the default `ServeMux`. -/
def muxPatterns : List String :=
  ["/", "/menu-items/", "/me/profile", "/orders", "/me/orders", "/orders/", "/classes/",
   "/students/", "/me/students"]

/-- A pattern ending in a slash matches the paths it is a prefix of; another pattern
matches the equal path only. -/
def patternMatches (pattern path : String) : Bool :=
  if pattern.data.getLast? = some (Char.ofNat 47) then pattern.data.isPrefixOf path.data
  else pattern == path

/-- The pattern that `ServeMux` selects for a path: the longest registered pattern that
matches. -/
def selectPattern (path : String) : String :=
  (muxPatterns.filter (fun pattern => patternMatches pattern path)).foldl
    (fun best pattern => if best.length < pattern.length then pattern else best) ""

/-- Whether a list of characters holds two slashes in a row or a slash followed by a
dot. -/
def hasDotOrEmptySegment : List Char → Bool
  | [] => false
  | [_] => false
  | c :: d :: rest =>
      (c == Char.ofNat 47 && (d == Char.ofNat 47 || d == Char.ofNat 46)) ||
        hasDotOrEmptySegment (d :: rest)

/-- A sufficient condition for a path to be left as it is by the path cleaning of
`ServeMux` (which redirects the other paths): it starts with a slash and has no empty
segment and no segment starting with a dot. -/
def plainPath (path : String) : Bool :=
  path.data.head? == some (Char.ofNat 47) && !hasDotOrEmptySegment path.data

/-- The server of `main` on the order routes: `corsMiddleware`, which answers `OPTIONS`
itself, then the handler of the selected pattern; `none` when the path is not plain or the
selected pattern is not one of `/orders`, `/orders/`, `/me/orders`. -/
def serveHTTP (env : ServerEnv) (db : Store α) (r : Request) :
    Option (Response α × Store α) :=
  if r.method = "OPTIONS" then some ({ status := 200, body := Body.text "" }, db)
  else if !plainPath r.path then none
  else if selectPattern r.path = "/orders" then some (ordersHandler env db r)
  else if selectPattern r.path = "/orders/" then some (ordersRouterHandler env db r)
  else if selectPattern r.path = "/me/orders" then some (myOrdersHandler env db r)
  else none

end Routing

/-! ## Sequences of calls -/

section Calls

variable {α : Type} [Amount α]

/-- A call of one of the two handlers that write the table `orders`. -/
inductive OrderCall where
  | create (env : Env) (userID : String) (payload : Except String CreateOrderRequest)
  | updateStatus (env : StatusEnv) (userID : Option String) (orderID : String)
      (payload : Except String UpdateOrderStatusPayload)

/-- The store after one call. -/
def OrderCall.apply (db : Store α) : OrderCall → Store α
  | OrderCall.create env userID payload => (handleCreateOrder env db userID payload).2
  | OrderCall.updateStatus env userID orderID payload =>
      (handleUpdateOrderStatus env db userID orderID payload).2

/-- The store after a sequence of calls, run from left to right. -/
def runCalls (db : Store α) (calls : List OrderCall) : Store α :=
  calls.foldl OrderCall.apply db

end Calls

/-! ## Scenarios

Concrete stores and requests over `Float64`: guardian `G` (balance 20.00) owns student
`S`, guardian `H` (balance 10.00) owns student `T`; the menu holds `A` at 5.00, `B` at
3.50 and `C` at 6.00. -/

section Scenarios

/-- An environment without store failure. -/
def envOK : Env :=
  { beginErr := false, studentQueryErr := false, menuQueryErr := fun _ => false,
    creditsQueryErr := false, orderInsertErr := false, itemInsertErr := fun _ => false,
    debitErr := false, commitErr := false, orderID := "order-1", orderDate := 100,
    createdAt := 100, updatedAt := 100,
    itemID := fun i => if i = 0 then "line-0" else "line-1", itemCreatedAt := fun _ => 100 }

/-- An environment in which the insertion of the second order line fails. -/
def envLineFault : Env :=
  { envOK with itemInsertErr := fun i => decide (i = 1) }

/-- A user row with the given id and balance. -/
def scenarioUser (id : String) (credits : Float64) : UserRow Float64 :=
  { id := id, fullName := none, email := none, credits := some credits, role := "CLIENTE",
    createdAt := 1, updatedAt := 1 }

/-- A student row with the given id and guardian. -/
def scenarioStudent (id parent : String) : StudentRow :=
  { id := id, name := id, classID := none, parentUserID := parent, createdAt := 1,
    updatedAt := 1 }

/-- A menu row with the given id, price and availability. -/
def scenarioMenuItem (id : String) (price : Float64) (available : Bool) :
    MenuItemRow Float64 :=
  { id := id, name := id, description := none, price := price, category := none,
    imageURL := none, isAvailable := available, createdAt := 1, updatedAt := 1 }

/-- The store of the scenarios; `bAvailable` is the availability of item `B`. -/
def scenarioStore (bAvailable : Bool) : Store Float64 :=
  { users := [scenarioUser "G" (Float64.finite 5 2), scenarioUser "H" (Float64.finite 5 1)],
    students := [scenarioStudent "S" "G", scenarioStudent "T" "H"],
    menuItems := [scenarioMenuItem "A" (Float64.finite 5 0) true,
                  scenarioMenuItem "B" (Float64.finite 7 (-1)) bAvailable,
                  scenarioMenuItem "C" (Float64.finite 3 1) true],
    orders := [], orderItems := [] }

/-- Request `{items: [{A, 2}, {B, 1}], student_id: S}`. -/
def requestAB : CreateOrderRequest :=
  { items := [{ menuItemID := "A", quantity := 2 }, { menuItemID := "B", quantity := 1 }],
    studentID := "S" }

/-- Request for student `T` of two lines of item `C` (6.00 each). -/
def requestCC : CreateOrderRequest :=
  { items := [{ menuItemID := "C", quantity := 1 }, { menuItemID := "C", quantity := 1 }],
    studentID := "T" }

/-- Request for student `S` of item `B` followed by the unknown item `X`. -/
def requestBX : CreateOrderRequest :=
  { items := [{ menuItemID := "B", quantity := 1 }, { menuItemID := "X", quantity := 1 }],
    studentID := "S" }

/-- Request for student `S` of item `A` followed by the unknown item `X`. -/
def requestAX : CreateOrderRequest :=
  { items := [{ menuItemID := "A", quantity := 1 }, { menuItemID := "X", quantity := 1 }],
    studentID := "S" }

/-- A user row with the given id and role, without balance. -/
def officeUser (id role : String) : UserRow Float64 :=
  { id := id, fullName := none, email := none, credits := none, role := role,
    createdAt := 1, updatedAt := 1 }

/-- An order row without student. -/
def officeOrder (id userID : String) (orderDate : Time) (total : Float64)
    (status : String) : OrderRow Float64 :=
  { id := id, userID := userID, studentID := none, orderDate := orderDate,
    totalAmount := total, status := status, createdAt := orderDate, updatedAt := orderDate }

/-- The store of the scenarios after some placements: the guardians `G` and `H`, the
administrator `ADM` (role `admin`), the attendant `STF` (role `staff`); `order-1` of `G`
(`A x2` at 5.00 and `B x1` at 3.50, placed at 100, `PENDING`), `order-2` of `H` (placed at
300, `READY`) and `order-3` of `H` (placed at 200, `PENDING`). -/
def officeStore : Store Float64 :=
  { users := [scenarioUser "G" (Float64.finite 13 (-1)), scenarioUser "H" (Float64.finite 5 1),
              officeUser "ADM" "admin", officeUser "STF" "staff"],
    students := [scenarioStudent "S" "G", scenarioStudent "T" "H"],
    menuItems := [scenarioMenuItem "A" (Float64.finite 5 0) true,
                  scenarioMenuItem "B" (Float64.finite 7 (-1)) true,
                  scenarioMenuItem "C" (Float64.finite 3 1) true],
    orders := [officeOrder "order-1" "G" 100 (Float64.finite 27 (-1)) "PENDING",
               officeOrder "order-2" "H" 300 (Float64.finite 3 1) "READY",
               officeOrder "order-3" "H" 200 (Float64.finite 3 2) "PENDING"],
    orderItems := [{ id := "line-0", orderID := "order-1", menuItemID := "A", quantity := 2,
                     priceAtPurchase := Float64.finite 5 0, createdAt := 100 },
                   { id := "line-1", orderID := "order-1", menuItemID := "B", quantity := 1,
                     priceAtPurchase := Float64.finite 7 (-1), createdAt := 100 }] }

/-- An environment of `fetchOrderItemsByOrderID` without store failure. -/
def fetchOK : FetchEnv :=
  { queryErr := false, scanErr := fun _ => false, rowsErr := false }

/-- An environment of `handleUpdateOrderStatus` without store failure; outside ASCII the
case table is taken as the identity. -/
def statusEnvOK : StatusEnv :=
  { profileQueryErr := false, updateErr := false, now := 400, items := fetchOK,
    upperTable := fun c => c }

/-- An environment of `handleUpdateMenuItem` without store failure. -/
def menuEnvOK : MenuEnv :=
  { updateErr := false, now := 400 }

/-- An environment of `handleGetOrderByID` without store failure. -/
def readEnvOK : ReadEnv :=
  { profileQueryErr := false, orderQueryErr := false, items := fetchOK }

/-- An environment of `handleAdminGetOrders` without store failure. -/
def listEnvOK : ListEnv :=
  { profileQueryErr := false, queryErr := false, scanErr := fun _ => false,
    items := fun _ => fetchOK }

/-- An environment of `handleCreateOrder` in which the menu query of the first line fails
in the store. -/
def envMenuFault : Env :=
  { envOK with menuQueryErr := fun i => decide (i = 0) }

/-- An environment of `handleCreateOrder` in which the ownership query fails in the
store. -/
def envStudentFault : Env :=
  { envOK with studentQueryErr := true }

/-- Payload that sets item `A` to the price 9.00. -/
def payloadA9 : CreateMenuItemPayload Float64 :=
  { name := "A", description := none, price := Float64.finite 9 0, category := none,
    imageURL := none, isAvailable := some true }

/-- Request for student `S` of one unit of item `A`. -/
def requestA1 : CreateOrderRequest :=
  { items := [{ menuItemID := "A", quantity := 1 }], studentID := "S" }

/-- A placement by `G` followed by two status updates by the attendant `STF`. -/
def officeCalls : List OrderCall :=
  [OrderCall.create { envOK with orderID := "order-4" } "G" (Except.ok requestA1),
   OrderCall.updateStatus statusEnvOK (some "STF") "order-4" (Except.ok { status := "preparing" }),
   OrderCall.updateStatus statusEnvOK (some "STF") "order-1" (Except.ok { status := "done" })]

/-- An environment of `handleGetMyOrders` without store failure. -/
def myOrdersEnvOK : MyOrdersEnv :=
  { queryErr := false, scanErr := fun _ => false, items := fun _ => fetchOK,
    rowsErr := false }

/-- An environment of `handleCreateMenuItem` without store failure. -/
def menuCreateEnvOK : MenuCreateEnv :=
  { insertErr := false, itemID := "D", now := 400 }

/-- Payload with an empty name and the price -1.00. -/
def payloadNameless : CreateMenuItemPayload Float64 :=
  { name := "", description := none, price := Float64.finite (-1) 0, category := none,
    imageURL := none, isAvailable := some true }

/-- What the token parser of the scenarios returns for a token that verifies with the
subject `sub`. -/
def verifiedToken (sub : String) : ParsedToken :=
  { parseErr := false, claimsAreMap := true, valid := true, sub := some sub }

/-- An environment of `authMiddleware` with the secret `secret`, in which the token
`token-X` verifies with subject `X` for `X` one of `G`, `H`, `ADM`, `STF`, the token
`token-empty` verifies with an empty subject, and no other token parses. -/
def authEnvOK : AuthEnv :=
  { jwtSecret := "secret",
    parse := fun _ tokenString =>
      if tokenString = "token-G" then verifiedToken "G"
      else if tokenString = "token-H" then verifiedToken "H"
      else if tokenString = "token-ADM" then verifiedToken "ADM"
      else if tokenString = "token-STF" then verifiedToken "STF"
      else if tokenString = "token-empty" then verifiedToken ""
      else { parseErr := true, claimsAreMap := false, valid := false, sub := none },
    lowerTable := fun c => c }

/-- The environments of the server without store failure. -/
def serverEnvOK : ServerEnv :=
  { auth := authEnvOK, create := { envOK with orderID := "order-4" }, status := statusEnvOK,
    read := readEnvOK, list := listEnvOK, mine := myOrdersEnvOK }

/-- A request without query parameter whose body decodes to neither payload. -/
def plainRequest (method path authorization : String) : Request :=
  { method := method, path := path, authorization := authorization, statusFilter := "",
    orderPayload := Except.error "EOF", statusPayload := Except.error "EOF" }

/-- The binary64 nearest to 0.10, `0x3FB999999999999A`. -/
def tenCents : Float64 := Float64.finite 3602879701896397 (-55)

/-- The binary64 nearest to 0.30, `0x3FD3333333333333`. -/
def thirtyCents : Float64 := Float64.finite 5404319552844595 (-54)

/-- A store in which guardian `G` holds 0.30 and owns student `S`, and item `A` costs
0.10. -/
def dimeStore : Store Float64 :=
  { users := [scenarioUser "G" thirtyCents], students := [scenarioStudent "S" "G"],
    menuItems := [scenarioMenuItem "A" tenCents true], orders := [], orderItems := [] }

/-- Request for student `S` of three units of item `A`. -/
def requestA3 : CreateOrderRequest :=
  { items := [{ menuItemID := "A", quantity := 3 }], studentID := "S" }

/-- The store `dimeStore` with the balance of `G` raised to 1.00. -/
def dimeStoreFunded : Store Float64 :=
  { users := [scenarioUser "G" (Float64.finite 1 0)], students := [scenarioStudent "S" "G"],
    menuItems := [scenarioMenuItem "A" tenCents true], orders := [], orderItems := [] }

end Scenarios

/-! ## Properties of the loops -/

section Loops

theorem hasInvalidItem_eq_true (items : List OrderItemRequest) :
    hasInvalidItem items = true ↔
      ∃ itemReq ∈ items, itemReq.menuItemID = "" ∨ itemReq.quantity ≤ 0 := by
  induction items with
  | nil => simp [hasInvalidItem]
  | cons hd tl ih =>
      simp only [hasInvalidItem, List.mem_cons, exists_eq_or_imp]
      by_cases h : hd.menuItemID = "" ∨ hd.quantity ≤ 0
      · have : (hd.menuItemID == "" || decide (hd.quantity ≤ 0)) = true := by
          simpa using h
        simp [this, h]
      · have : (hd.menuItemID == "" || decide (hd.quantity ≤ 0)) = false := by
          simpa using h
        simp [this, h, ih]

theorem hasInvalidItem_eq_false (items : List OrderItemRequest) :
    hasInvalidItem items = false ↔
      ∀ itemReq ∈ items, itemReq.menuItemID ≠ "" ∧ 0 < itemReq.quantity := by
  rw [← Bool.not_eq_true, hasInvalidItem_eq_true]
  push_neg
  rfl

theorem resolveLines_resolved {α : Type} [Amount α] (env : Env) (tx : Tx α) :
    ∀ (items : List OrderItemRequest) (i : Nat) (total : α) (acc : List (OrderItem α))
      (t : α) (its : List (OrderItem α)),
      resolveLines env tx i items total acc = Resolution.resolved t its →
      ∃ suffix, its = acc ++ suffix ∧
        List.Forall₂ (Snapshot tx.work.menuItems) items suffix ∧
        t = lineTotal total (suffix.map (fun it => (it.priceAtPurchase, it.quantity))) := by
  intro items
  induction items with
  | nil =>
      intro i total acc t its h
      simp only [resolveLines, Resolution.resolved.injEq] at h
      exact ⟨[], by simp [h.2], List.Forall₂.nil, by simp [lineTotal, h.1]⟩
  | cons hd tl ih =>
      intro i total acc t its h
      simp only [resolveLines] at h
      split at h
      · exact absurd h (by simp)
      · rename_i mi hq
        split at h
        · exact absurd h (by simp)
        · rename_i hav
          obtain ⟨suffix, hs, hf, ht⟩ := ih _ _ _ _ _ h
          refine ⟨{ id := "", orderID := "", menuItemID := hd.menuItemID,
                    menuItemName := mi.name, quantity := hd.quantity,
                    priceAtPurchase := mi.price, createdAt := 0 } :: suffix,
            by simp [hs], List.Forall₂.cons ?_ hf, ?_⟩
          · refine ⟨mi, ?_, by simpa using hav, rfl⟩
            unfold queryMenuItem at hq
            split at hq
            · exact absurd hq (by simp)
            · exact hq
          · simp [lineTotal, ht]

theorem insertLines_spec {α : Type} (env : Env) (orderID : String) :
    ∀ (items : List (OrderItem α)) (i : Nat) (tx : Tx α) (done : List (OrderItem α))
      (tx2 : Tx α) (r : Option (List (OrderItem α))),
      insertLines env orderID i items tx done = (tx2, r) →
      tx2.committed = tx.committed ∧ tx2.work.users = tx.work.users ∧
        tx2.work.students = tx.work.students ∧ tx2.work.menuItems = tx.work.menuItems ∧
        tx2.work.orders = tx.work.orders ∧
        ∀ inserted, r = some inserted →
          ∃ suffix, inserted = done ++ suffix ∧
            tx2.work.orderItems = tx.work.orderItems ++ suffix.map OrderItem.toRow ∧
            List.Forall₂ (Completed orderID) items suffix := by
  intro items
  induction items with
  | nil =>
      intro i tx done tx2 r h
      simp only [insertLines, Prod.mk.injEq] at h
      obtain ⟨h1, h2⟩ := h
      subst h1
      refine ⟨rfl, rfl, rfl, rfl, rfl, ?_⟩
      intro inserted hr
      rw [← h2] at hr
      refine ⟨[], ?_, by simp, List.Forall₂.nil⟩
      simpa using (Option.some.inj hr).symm
  | cons hd tl ih =>
      intro i tx done tx2 r h
      simp only [insertLines] at h
      split at h
      · simp only [Prod.mk.injEq] at h
        obtain ⟨h1, h2⟩ := h
        subst h1
        refine ⟨rfl, rfl, rfl, rfl, rfl, ?_⟩
        intro inserted hr
        rw [← h2] at hr
        exact absurd hr (by simp)
      · obtain ⟨hc, hu, hst, hm, ho, hins⟩ := ih _ _ _ _ _ h
        refine ⟨hc, hu, hst, hm, ho, ?_⟩
        intro inserted hr
        obtain ⟨suffix, hs, hrows, hf⟩ := hins inserted hr
        refine ⟨{ id := env.itemID i, orderID := orderID, menuItemID := hd.menuItemID,
                  menuItemName := hd.menuItemName, quantity := hd.quantity,
                  priceAtPurchase := hd.priceAtPurchase,
                  createdAt := env.itemCreatedAt i } :: suffix,
          by simp [hs, orderItemRow], ?_, List.Forall₂.cons ⟨rfl, rfl, rfl, rfl, rfl⟩ hf⟩
        rw [hrows]
        simp [OrderItem.toRow, orderItemRow]

theorem forall₂_exists_right {β γ : Type} {R : β → γ → Prop} :
    ∀ {l1 : List β} {l2 : List γ}, List.Forall₂ R l1 l2 → ∀ x ∈ l1, ∃ y ∈ l2, R x y := by
  intro l1 l2 h
  induction h with
  | nil =>
      intro x hx
      exact absurd hx (List.not_mem_nil x)
  | cons hr _ ih =>
      intro x hx
      rcases List.mem_cons.1 hx with rfl | hx
      · exact ⟨_, List.mem_cons_self _ _, hr⟩
      · obtain ⟨y, hy, hxy⟩ := ih x hx
        exact ⟨y, List.mem_cons_of_mem _ hy, hxy⟩

theorem resolveLines_not_resolved_of_missing {α : Type} [Amount α] (env : Env) (tx : Tx α)
    (items : List OrderItemRequest) (i : Nat) (total : α) (acc : List (OrderItem α))
    (h : ∃ itemReq ∈ items, tx.work.menuItems.find? (fun m => m.id == itemReq.menuItemID) = none) :
    resolveLines env tx i items total acc = Resolution.notFound ∨
      resolveLines env tx i items total acc = Resolution.unavailable := by
  cases hr : resolveLines env tx i items total acc with
  | notFound => exact Or.inl rfl
  | unavailable => exact Or.inr rfl
  | resolved t its =>
      exfalso
      obtain ⟨suffix, _, hf, _⟩ := resolveLines_resolved env tx items i total acc t its hr
      obtain ⟨itemReq, hmem, hnone⟩ := h
      obtain ⟨_, _, mi, hfind, _⟩ := forall₂_exists_right hf itemReq hmem
      rw [hnone] at hfind
      exact absurd hfind (by simp)

theorem resolveLines_not_resolved_of_unavailable {α : Type} [Amount α] (env : Env)
    (tx : Tx α) (items : List OrderItemRequest) (i : Nat) (total : α)
    (acc : List (OrderItem α))
    (h : ∃ itemReq ∈ items, ∃ mi,
      tx.work.menuItems.find? (fun m => m.id == itemReq.menuItemID) = some mi ∧
        mi.isAvailable = false) :
    resolveLines env tx i items total acc = Resolution.notFound ∨
      resolveLines env tx i items total acc = Resolution.unavailable := by
  cases hr : resolveLines env tx i items total acc with
  | notFound => exact Or.inl rfl
  | unavailable => exact Or.inr rfl
  | resolved t its =>
      exfalso
      obtain ⟨suffix, _, hf, _⟩ := resolveLines_resolved env tx items i total acc t its hr
      obtain ⟨itemReq, hmem, mi, hfind, hun⟩ := h
      obtain ⟨_, _, mi2, hfind2, hav, _⟩ := forall₂_exists_right hf itemReq hmem
      rw [hfind] at hfind2
      cases hfind2
      rw [hun] at hav
      exact absurd hav (by simp)

theorem resolveLines_unavailable {α : Type} [Amount α] (env : Env) (tx : Tx α)
    (hq : ∀ j, env.menuQueryErr j = false) :
    ∀ (items : List OrderItemRequest) (i : Nat) (total : α) (acc : List (OrderItem α)),
      (∀ itemReq ∈ items, ∃ mi,
        tx.work.menuItems.find? (fun m => m.id == itemReq.menuItemID) = some mi) →
      (∃ itemReq ∈ items, ∃ mi,
        tx.work.menuItems.find? (fun m => m.id == itemReq.menuItemID) = some mi ∧
          mi.isAvailable = false) →
      resolveLines env tx i items total acc = Resolution.unavailable := by
  intro items
  induction items with
  | nil =>
      intro i total acc _ h
      obtain ⟨x, hx, _⟩ := h
      exact absurd hx (List.not_mem_nil x)
  | cons hd tl ih =>
      intro i total acc hall hun
      obtain ⟨mi, hmi⟩ := hall hd (List.mem_cons_self _ _)
      have hquery : queryMenuItem env tx i hd.menuItemID = some mi := by
        simp [queryMenuItem, hq i, hmi]
      cases hav : mi.isAvailable with
      | false => simp [resolveLines, hquery, hav]
      | true =>
          simp only [resolveLines, hquery, hav]
          simp only [Bool.not_true, Bool.false_eq_true, if_false]
          apply ih
          · intro x hx
            exact hall x (List.mem_cons_of_mem _ hx)
          · obtain ⟨x, hx, mx, hfx, hux⟩ := hun
            rcases List.mem_cons.1 hx with rfl | hx
            · rw [hmi] at hfx
              cases hfx
              rw [hav] at hux
              exact absurd hux (by simp)
            · exact ⟨x, hx, mx, hfx, hux⟩

theorem resolveLines_notFound {α : Type} [Amount α] (env : Env) (tx : Tx α)
    (x : OrderItemRequest) (post : List OrderItemRequest)
    (hx : tx.work.menuItems.find? (fun m => m.id == x.menuItemID) = none) :
    ∀ (pre : List OrderItemRequest) (i : Nat) (total : α) (acc : List (OrderItem α)),
      (∀ itemReq ∈ pre, ∃ mi,
        tx.work.menuItems.find? (fun m => m.id == itemReq.menuItemID) = some mi ∧
          mi.isAvailable = true) →
      resolveLines env tx i (pre ++ x :: post) total acc = Resolution.notFound := by
  intro pre
  induction pre with
  | nil =>
      intro i total acc _
      have hquery : queryMenuItem env tx i x.menuItemID = none := by
        unfold queryMenuItem
        split
        · rfl
        · exact hx
      simp [resolveLines, hquery]
  | cons hd tl ih =>
      intro i total acc hpre
      obtain ⟨mi, hmi, hav⟩ := hpre hd (List.mem_cons_self _ _)
      cases hf : env.menuQueryErr i with
      | true => simp [resolveLines, queryMenuItem, hf]
      | false =>
          have hquery : queryMenuItem env tx i hd.menuItemID = some mi := by
            simp [queryMenuItem, hf, hmi]
          simp only [List.cons_append, resolveLines, hquery, hav]
          simp only [Bool.not_true, Bool.false_eq_true, if_false]
          apply ih
          intro y hy
          exact hpre y (List.mem_cons_of_mem _ hy)

theorem queryStudent_eq_none_iff {α : Type} (tx : Tx α) (studentID userID : String) :
    queryStudent tx studentID userID = none ↔ ¬ tx.work.owns userID studentID := by
  unfold queryStudent Store.owns
  rw [List.find?_eq_none]
  constructor
  · intro h hex
    obtain ⟨st, hmem, h1, h2⟩ := hex
    exact h st hmem (by simp [h1, h2])
  · intro h st hmem hp
    apply h
    simp only [Bool.and_eq_true, beq_iff_eq] at hp
    exact ⟨st, hmem, hp.1, hp.2⟩

theorem queryStudent_some {α : Type} (tx : Tx α) (studentID userID : String) (st : StudentRow)
    (h : queryStudent tx studentID userID = some st) :
    st ∈ tx.work.students ∧ st.id = studentID ∧ st.parentUserID = userID := by
  unfold queryStudent at h
  have hmem := List.mem_of_find?_eq_some h
  have hp := List.find?_some h
  simp only [Bool.and_eq_true, beq_iff_eq] at hp
  exact ⟨hmem, hp.1, hp.2⟩

theorem find?_debitCredits {α : Type} [Amount α] (users : List (UserRow α)) (amount : α)
    (userID other : String) :
    (debitCredits users amount userID).find? (fun u => u.id == other) =
      (users.find? (fun u => u.id == other)).map (fun u =>
        if u.id == userID then
          { u with credits := u.credits.map (fun c => Amount.sub c amount) }
        else u) := by
  unfold debitCredits
  rw [List.find?_map]
  congr 1
  congr 1
  funext u
  simp only [Function.comp]
  split <;> rfl

theorem balance_debitCredits_self {α : Type} [Amount α] (users : List (UserRow α))
    (amount : α) (userID : String) :
    ((debitCredits users amount userID).find? (fun u => u.id == userID)).bind
        (fun u => u.credits) =
      (((users.find? (fun u => u.id == userID)).bind (fun u => u.credits)).map
        (fun c => Amount.sub c amount)) := by
  rw [find?_debitCredits]
  cases hfind : users.find? (fun u => u.id == userID) with
  | none => rfl
  | some u =>
      have hu := List.find?_some hfind
      simp only at hu
      simp only [Option.map_some', Option.some_bind, hu, if_true]

theorem balance_debitCredits_other {α : Type} [Amount α] (users : List (UserRow α))
    (amount : α) (userID other : String) (hne : other ≠ userID) :
    ((debitCredits users amount userID).find? (fun u => u.id == other)).bind
        (fun u => u.credits) =
      (users.find? (fun u => u.id == other)).bind (fun u => u.credits) := by
  rw [find?_debitCredits]
  cases hfind : users.find? (fun u => u.id == other) with
  | none => rfl
  | some u =>
      have hu := List.find?_some hfind
      simp only at hu
      have hu2 : (u.id == userID) = false := by
        rw [beq_iff_eq] at hu
        rw [beq_eq_false_iff_ne, hu]
        exact hne
      simp only [Option.map_some', Option.some_bind, hu2, Bool.false_eq_true, if_false]

theorem insertLines_snd_eq {α : Type} (env : Env) (orderID : String) :
    ∀ (items : List (OrderItem α)) (i : Nat) (tx tx' : Tx α) (done : List (OrderItem α)),
      (insertLines env orderID i items tx done).2 =
        (insertLines env orderID i items tx' done).2 := by
  intro items
  induction items with
  | nil =>
      intro i tx tx' done
      rfl
  | cons hd tl ih =>
      intro i tx tx' done
      simp only [insertLines]
      split
      · rfl
      · exact ih _ _ _ _

end Loops

/-! ## Properties of the transaction body -/

section Body

@[simp] theorem orderRow_id {α : Type} (env : Env) (userID studentID : String) (total : α)
    (status : String) : (orderRow env userID studentID total status).id = env.orderID := rfl

@[simp] theorem orderRow_studentID {α : Type} (env : Env) (userID studentID : String) (total : α)
    (status : String) :
    (orderRow env userID studentID total status).studentID = some studentID := rfl

@[simp] theorem orderRow_orderDate {α : Type} (env : Env) (userID studentID : String) (total : α)
    (status : String) :
    (orderRow env userID studentID total status).orderDate = env.orderDate := rfl

@[simp] theorem orderRow_createdAt {α : Type} (env : Env) (userID studentID : String) (total : α)
    (status : String) :
    (orderRow env userID studentID total status).createdAt = env.createdAt := rfl

@[simp] theorem orderRow_updatedAt {α : Type} (env : Env) (userID studentID : String) (total : α)
    (status : String) :
    (orderRow env userID studentID total status).updatedAt = env.updatedAt := rfl

theorem createOrderInTx_created {α : Type} [Amount α] (env : Env) (tx : Tx α) (userID : String)
    (req : CreateOrderRequest) (h : (createOrderInTx env tx userID req).1.status = 201) :
    ∃ st total items credits tx2 inserted,
      env.studentQueryErr = false ∧ queryStudent tx req.studentID userID = some st ∧
      resolveLines env tx 0 req.items Amount.zero [] = Resolution.resolved total items ∧
      queryCredits env tx userID = some credits ∧ Amount.lt credits total = false ∧
      env.orderInsertErr = false ∧
      insertLines env env.orderID 0 items
        { work :=
            { users := tx.work.users, students := tx.work.students,
              menuItems := tx.work.menuItems,
              orders := tx.work.orders ++ [orderRow env userID req.studentID total "PENDING"],
              orderItems := tx.work.orderItems },
          committed := tx.committed }
        [] = (tx2, some inserted) ∧
      env.debitErr = false ∧ env.commitErr = false ∧
      createOrderInTx env tx userID req =
        ({ status := 201,
           body := Body.order (createdOrder env userID req.studentID total inserted) },
         { work :=
             { users := debitCredits tx2.work.users total userID,
               students := tx2.work.students, menuItems := tx2.work.menuItems,
               orders := tx2.work.orders, orderItems := tx2.work.orderItems },
           committed := true }) := by
  cases h1 : env.studentQueryErr with
  | true => simp [createOrderInTx, h1, httpError] at h
  | false =>
    cases h2 : queryStudent tx req.studentID userID with
    | none => simp [createOrderInTx, h1, h2, httpError] at h
    | some st =>
      cases h3 : resolveLines env tx 0 req.items Amount.zero [] with
      | notFound => simp [createOrderInTx, h1, h2, h3, httpError] at h
      | unavailable => simp [createOrderInTx, h1, h2, h3, httpError] at h
      | resolved total items =>
        cases h4 : queryCredits env tx userID with
        | none => simp [createOrderInTx, h1, h2, h3, h4, httpError] at h
        | some credits =>
          cases h5 : Amount.lt credits total with
          | true => simp [createOrderInTx, h1, h2, h3, h4, h5, httpError] at h
          | false =>
            cases h6 : env.orderInsertErr with
            | true => simp [createOrderInTx, h1, h2, h3, h4, h5, h6, httpError] at h
            | false =>
              rcases h7 : insertLines env env.orderID 0 items
                { work :=
                    { users := tx.work.users, students := tx.work.students,
                      menuItems := tx.work.menuItems,
                      orders := tx.work.orders ++
                        [orderRow env userID req.studentID total "PENDING"],
                      orderItems := tx.work.orderItems },
                  committed := tx.committed } []
                with ⟨tx2, _ | inserted⟩
              · simp [createOrderInTx, h1, h2, h3, h4, h5, h6, h7, httpError] at h
              · cases h8 : env.debitErr with
                | true =>
                  simp [createOrderInTx, h1, h2, h3, h4, h5, h6, h7, h8, httpError] at h
                | false =>
                  cases h9 : env.commitErr with
                  | true =>
                    simp [createOrderInTx, h1, h2, h3, h4, h5, h6, h7, h8, h9, httpError] at h
                  | false =>
                    refine ⟨st, total, items, credits, tx2, inserted, rfl, rfl, rfl, rfl,
                      h5, rfl, h7, rfl, rfl, ?_⟩
                    simp [createOrderInTx, h1, h2, h3, h4, h5, h6, h7, h8, h9, createdOrder]

theorem createOrderInTx_not_created {α : Type} [Amount α] (env : Env) (tx : Tx α)
    (userID : String) (req : CreateOrderRequest)
    (h : (createOrderInTx env tx userID req).1.status ≠ 201) :
    (createOrderInTx env tx userID req).2.committed = tx.committed := by
  cases h1 : env.studentQueryErr with
  | true => simp [createOrderInTx, h1]
  | false =>
    cases h2 : queryStudent tx req.studentID userID with
    | none => simp [createOrderInTx, h1, h2]
    | some st =>
      cases h3 : resolveLines env tx 0 req.items Amount.zero [] with
      | notFound => simp [createOrderInTx, h1, h2, h3]
      | unavailable => simp [createOrderInTx, h1, h2, h3]
      | resolved total items =>
        cases h4 : queryCredits env tx userID with
        | none => simp [createOrderInTx, h1, h2, h3, h4]
        | some credits =>
          cases h5 : Amount.lt credits total with
          | true => simp [createOrderInTx, h1, h2, h3, h4, h5]
          | false =>
            cases h6 : env.orderInsertErr with
            | true => simp [createOrderInTx, h1, h2, h3, h4, h5, h6]
            | false =>
              rcases h7 : insertLines env env.orderID 0 items
                { work :=
                    { users := tx.work.users, students := tx.work.students,
                      menuItems := tx.work.menuItems,
                      orders := tx.work.orders ++
                        [orderRow env userID req.studentID total "PENDING"],
                      orderItems := tx.work.orderItems },
                  committed := tx.committed } []
                with ⟨tx2, _ | inserted⟩
              · have hc := (insertLines_spec env env.orderID _ _ _ _ _ _ h7).1
                simpa [createOrderInTx, h1, h2, h3, h4, h5, h6, h7] using hc
              · have hc := (insertLines_spec env env.orderID _ _ _ _ _ _ h7).1
                cases h8 : env.debitErr with
                | true => simpa [createOrderInTx, h1, h2, h3, h4, h5, h6, h7, h8] using hc
                | false =>
                  cases h9 : env.commitErr with
                  | true => simpa [createOrderInTx, h1, h2, h3, h4, h5, h6, h7, h8, h9] using hc
                  | false =>
                    exfalso
                    apply h
                    simp [createOrderInTx, h1, h2, h3, h4, h5, h6, h7, h8, h9]

theorem createOrderInTx_forbidden {α : Type} [Amount α] (env : Env) (tx : Tx α)
    (userID : String) (req : CreateOrderRequest) (h1 : env.studentQueryErr = false)
    (h2 : queryStudent tx req.studentID userID = none) :
    createOrderInTx env tx userID req =
      (httpError "Aluno especificado inválido ou não pertence a este responsável." 403, tx) := by
  simp [createOrderInTx, h1, h2]

theorem createOrderInTx_notFound {α : Type} [Amount α] (env : Env) (tx : Tx α)
    (userID : String) (req : CreateOrderRequest) (st : StudentRow)
    (h1 : env.studentQueryErr = false) (h2 : queryStudent tx req.studentID userID = some st)
    (h3 : resolveLines env tx 0 req.items Amount.zero [] = Resolution.notFound) :
    createOrderInTx env tx userID req = (httpError "Item menu não encontrado" 400, tx) := by
  simp [createOrderInTx, h1, h2, h3]

theorem createOrderInTx_unavailable {α : Type} [Amount α] (env : Env) (tx : Tx α)
    (userID : String) (req : CreateOrderRequest) (st : StudentRow)
    (h1 : env.studentQueryErr = false) (h2 : queryStudent tx req.studentID userID = some st)
    (h3 : resolveLines env tx 0 req.items Amount.zero [] = Resolution.unavailable) :
    createOrderInTx env tx userID req = (httpError "Item indisponível" 400, tx) := by
  simp [createOrderInTx, h1, h2, h3]

theorem createOrderInTx_insufficient {α : Type} [Amount α] (env : Env) (tx : Tx α)
    (userID : String) (req : CreateOrderRequest) (st : StudentRow) (total credits : α)
    (items : List (OrderItem α))
    (h1 : env.studentQueryErr = false) (h2 : queryStudent tx req.studentID userID = some st)
    (h3 : resolveLines env tx 0 req.items Amount.zero [] = Resolution.resolved total items)
    (h4 : queryCredits env tx userID = some credits) (h5 : Amount.lt credits total = true) :
    createOrderInTx env tx userID req = (httpError "Créditos insuficientes" 402, tx) := by
  simp [createOrderInTx, h1, h2, h3, h4, h5]

theorem createOrderInTx_funded {α : Type} [Amount α] (env : Env) (tx : Tx α)
    (userID : String) (req : CreateOrderRequest) (st : StudentRow) (total credits : α)
    (items : List (OrderItem α))
    (h1 : env.studentQueryErr = false) (h2 : queryStudent tx req.studentID userID = some st)
    (h3 : resolveLines env tx 0 req.items Amount.zero [] = Resolution.resolved total items)
    (h4 : queryCredits env tx userID = some credits) (h5 : Amount.lt credits total = false) :
    (createOrderInTx env tx userID req).1.status = 500 ∨
      (createOrderInTx env tx userID req).1.status = 201 := by
  cases h6 : env.orderInsertErr with
  | true => simp [createOrderInTx, h1, h2, h3, h4, h5, h6, httpError]
  | false =>
    rcases h7 : insertLines env env.orderID 0 items
      { work :=
          { users := tx.work.users, students := tx.work.students,
            menuItems := tx.work.menuItems,
            orders := tx.work.orders ++ [orderRow env userID req.studentID total "PENDING"],
            orderItems := tx.work.orderItems },
        committed := tx.committed } []
      with ⟨tx2, _ | inserted⟩
    · simp [createOrderInTx, h1, h2, h3, h4, h5, h6, h7, httpError]
    · cases h8 : env.debitErr with
      | true => simp [createOrderInTx, h1, h2, h3, h4, h5, h6, h7, h8, httpError]
      | false =>
        cases h9 : env.commitErr with
        | true => simp [createOrderInTx, h1, h2, h3, h4, h5, h6, h7, h8, h9, httpError]
        | false => simp [createOrderInTx, h1, h2, h3, h4, h5, h6, h7, h8, h9]

theorem createOrderInTx_owned {α : Type} [Amount α] (env : Env) (tx : Tx α)
    (userID : String) (req : CreateOrderRequest) (st : StudentRow)
    (h1 : env.studentQueryErr = false) (h2 : queryStudent tx req.studentID userID = some st) :
    (createOrderInTx env tx userID req).1.status ≠ 403 := by
  cases h3 : resolveLines env tx 0 req.items Amount.zero [] with
  | notFound => simp [createOrderInTx_notFound env tx userID req st h1 h2 h3, httpError]
  | unavailable => simp [createOrderInTx_unavailable env tx userID req st h1 h2 h3, httpError]
  | resolved total items =>
    cases h4 : queryCredits env tx userID with
    | none => simp [createOrderInTx, h1, h2, h3, h4, httpError]
    | some credits =>
      cases h5 : Amount.lt credits total with
      | true =>
          simp [createOrderInTx_insufficient env tx userID req st total credits items h1 h2 h3
            h4 h5, httpError]
      | false =>
          rcases createOrderInTx_funded env tx userID req st total credits items h1 h2 h3 h4 h5
            with h | h <;> simp [h]

theorem insertLines_ok {α : Type} (env : Env) (orderID : String)
    (hq : ∀ j, env.itemInsertErr j = false) :
    ∀ (items : List (OrderItem α)) (i : Nat) (tx : Tx α) (done : List (OrderItem α)),
      ∃ tx2 inserted, insertLines env orderID i items tx done = (tx2, some inserted) := by
  intro items
  induction items with
  | nil =>
      intro i tx done
      exact ⟨tx, done, rfl⟩
  | cons hd tl ih =>
      intro i tx done
      simp only [insertLines, hq i, Bool.false_eq_true, if_false]
      exact ih _ _ _

theorem createOrderInTx_success {α : Type} [Amount α] (env : Env) (tx : Tx α)
    (userID : String) (req : CreateOrderRequest) (st : StudentRow) (total credits : α)
    (items : List (OrderItem α))
    (h1 : env.studentQueryErr = false) (h2 : queryStudent tx req.studentID userID = some st)
    (h3 : resolveLines env tx 0 req.items Amount.zero [] = Resolution.resolved total items)
    (h4 : queryCredits env tx userID = some credits) (h5 : Amount.lt credits total = false)
    (h6 : env.orderInsertErr = false) (h7 : ∀ j, env.itemInsertErr j = false)
    (h8 : env.debitErr = false) (h9 : env.commitErr = false) :
    (createOrderInTx env tx userID req).1.status = 201 := by
  obtain ⟨tx2, inserted, hins⟩ := insertLines_ok env env.orderID h7 items 0
    { work :=
        { users := tx.work.users, students := tx.work.students,
          menuItems := tx.work.menuItems,
          orders := tx.work.orders ++ [orderRow env userID req.studentID total "PENDING"],
          orderItems := tx.work.orderItems },
      committed := tx.committed } []
  simp [createOrderInTx, h1, h2, h3, h4, h5, h6, hins, h8, h9]

theorem queryStudent_of_owns {α : Type} (tx : Tx α) (studentID userID : String)
    (h : tx.work.owns userID studentID) :
    ∃ st, queryStudent tx studentID userID = some st := by
  cases hq : queryStudent tx studentID userID with
  | none => exact absurd h ((queryStudent_eq_none_iff tx studentID userID).1 hq)
  | some st => exact ⟨st, rfl⟩

end Body

/-! ## Properties of the handler -/

section Handler

theorem validRequest_of_checks {req : CreateOrderRequest} (h1 : ¬ req.items.length = 0)
    (h2 : ¬ req.studentID = "") (h3 : ¬ hasInvalidItem req.items = true) :
    ValidRequest req := by
  refine ⟨?_, h2, ?_⟩
  · intro hnil
    exact h1 (by simp [hnil])
  · exact (hasInvalidItem_eq_false req.items).1 (by simpa using h3)

theorem handleCreateOrder_valid {α : Type} [Amount α] (env : Env) (db : Store α)
    (userID : String) (req : CreateOrderRequest) (hv : ValidRequest req)
    (hb : env.beginErr = false) :
    handleCreateOrder env db userID (Except.ok req) =
      ((createOrderInTx env { work := db, committed := false } userID req).1,
       if (createOrderInTx env { work := db, committed := false } userID req).2.committed
       then (createOrderInTx env { work := db, committed := false } userID req).2.work
       else db) := by
  obtain ⟨h1, h2, h3⟩ := hv
  have h1' : ¬ req.items.length = 0 := by
    intro h0
    exact h1 (List.length_eq_zero.1 h0)
  have h3' : hasInvalidItem req.items = false := (hasInvalidItem_eq_false req.items).2 h3
  simp [handleCreateOrder, h1', h2, h3', hb]

theorem handleCreateOrder_created {α : Type} [Amount α] (env : Env) (db : Store α)
    (userID : String) (payload : Except String CreateOrderRequest)
    (h : (handleCreateOrder env db userID payload).1.status = 201) :
    ∃ req st total items credits inserted,
      payload = Except.ok req ∧ ValidRequest req ∧ env.beginErr = false ∧
      env.studentQueryErr = false ∧
      queryStudent { work := db, committed := false } req.studentID userID = some st ∧
      resolveLines env { work := db, committed := false } 0 req.items Amount.zero [] =
        Resolution.resolved total items ∧
      List.Forall₂ (Snapshot db.menuItems) req.items items ∧
      total = lineTotal Amount.zero (items.map (fun it => (it.priceAtPurchase, it.quantity))) ∧
      queryCredits env { work := db, committed := false } userID = some credits ∧
      Amount.lt credits total = false ∧
      List.Forall₂ (Completed env.orderID) items inserted ∧
      handleCreateOrder env db userID payload =
        ({ status := 201,
           body := Body.order (createdOrder env userID req.studentID total inserted) },
         { users := debitCredits db.users total userID, students := db.students,
           menuItems := db.menuItems,
           orders := db.orders ++ [orderRow env userID req.studentID total "PENDING"],
           orderItems := db.orderItems ++ inserted.map OrderItem.toRow }) := by
  cases payload with
  | error e => simp [handleCreateOrder, httpError] at h
  | ok req =>
    by_cases c1 : req.items.length = 0
    · simp [handleCreateOrder, c1, httpError] at h
    by_cases c2 : req.studentID = ""
    · simp [handleCreateOrder, c1, c2, httpError] at h
    by_cases c3 : hasInvalidItem req.items = true
    · simp [handleCreateOrder, c1, c2, c3, httpError] at h
    cases c4 : env.beginErr with
    | true => simp [handleCreateOrder, c1, c2, c3, c4, httpError] at h
    | false =>
      have hv := validRequest_of_checks c1 c2 c3
      rw [handleCreateOrder_valid env db userID req hv c4] at h ⊢
      obtain ⟨st, total, items, credits, tx2, inserted, g1, g2, g3, g4, g5, _, g7, _, _, g10⟩ :=
        createOrderInTx_created env _ userID req h
      obtain ⟨suffix, hs, hf, ht⟩ := resolveLines_resolved env _ _ _ _ _ _ _ g3
      simp only [List.nil_append] at hs
      subst hs
      obtain ⟨_, hu, hst, hm, ho, hins⟩ := insertLines_spec env env.orderID _ _ _ _ _ _ g7
      obtain ⟨suffix2, hs2, hrows, hf2⟩ := hins inserted rfl
      simp only [List.nil_append] at hs2
      subst hs2
      refine ⟨req, st, total, items, credits, inserted, rfl, hv, rfl, g1, g2, g3, hf, ht, g4,
        g5, hf2, ?_⟩
      rw [g10]
      simp [hu, hst, hm, ho, hrows]

theorem forall₂_snapshot_completed {α : Type} (menu : List (MenuItemRow α)) (orderID : String) :
    ∀ {reqs : List OrderItemRequest} {items inserted : List (OrderItem α)},
      List.Forall₂ (Snapshot menu) reqs items →
      List.Forall₂ (Completed orderID) items inserted →
      List.Forall₂
        (fun itemReq out =>
          out.orderID = orderID ∧ out.menuItemID = itemReq.menuItemID ∧
            out.quantity = itemReq.quantity ∧
            ∃ mi, menu.find? (fun m => m.id == itemReq.menuItemID) = some mi ∧
              out.menuItemName = mi.name ∧ out.priceAtPurchase = mi.price)
        reqs inserted := by
  intro reqs items inserted h1
  induction h1 generalizing inserted with
  | nil =>
      intro h2
      cases h2
      exact List.Forall₂.nil
  | cons hs _ ih =>
      intro h2
      cases h2 with
      | cons hc htl =>
          obtain ⟨mi, hfind, _, hitem⟩ := hs
          obtain ⟨c1, c2, c3, c4, c5⟩ := hc
          subst hitem
          exact List.Forall₂.cons ⟨c1, c2, c4, mi, hfind, c3, c5⟩ (ih htl)

theorem map_price_quantity_of_completed {α : Type} (orderID : String) :
    ∀ {items inserted : List (OrderItem α)},
      List.Forall₂ (Completed orderID) items inserted →
      inserted.map (fun it => (it.priceAtPurchase, it.quantity)) =
        items.map (fun it => (it.priceAtPurchase, it.quantity)) := by
  intro items inserted h
  induction h with
  | nil => rfl
  | cons hc _ ih =>
      obtain ⟨_, _, _, c4, c5⟩ := hc
      simp [ih, c4, c5]

theorem handleCreateOrder_valid_rollback {α : Type} [Amount α] (env : Env) (db : Store α)
    (userID : String) (req : CreateOrderRequest) (hv : ValidRequest req)
    (h : (handleCreateOrder env db userID (Except.ok req)).1.status ≠ 201) :
    (handleCreateOrder env db userID (Except.ok req)).2 = db := by
  cases hb : env.beginErr with
  | true =>
      obtain ⟨h1, h2, h3⟩ := hv
      have h1' : ¬ req.items.length = 0 := fun h0 => h1 (List.length_eq_zero.1 h0)
      have h3' : hasInvalidItem req.items = false := (hasInvalidItem_eq_false req.items).2 h3
      simp [handleCreateOrder, h1', h2, h3', hb]
  | false =>
      rw [handleCreateOrder_valid env db userID req hv hb] at h ⊢
      have hc := createOrderInTx_not_created env { work := db, committed := false } userID req h
      simp only at hc
      simp [hc]

/-- C1: whenever `handleCreateOrder` ends in anything but the success response 201 (a
decoding or validation error, the ownership rejection, a menu item not found or
unavailable, insufficient funds, a failed order insert, line insert, debit or commit),
the store after the call is the store before it: no order row, no order-line row and no
balance change. -/
theorem failed_placement_leaves_store {α : Type} [Amount α] (env : Env) (db : Store α)
    (userID : String) (payload : Except String CreateOrderRequest)
    (h : (handleCreateOrder env db userID payload).1.status ≠ 201) :
    (handleCreateOrder env db userID payload).2 = db := by
  cases payload with
  | error e => simp [handleCreateOrder]
  | ok req =>
    by_cases c1 : req.items.length = 0
    · simp [handleCreateOrder, c1]
    by_cases c2 : req.studentID = ""
    · simp [handleCreateOrder, c1, c2]
    by_cases c3 : hasInvalidItem req.items = true
    · simp [handleCreateOrder, c1, c2, c3]
    cases c4 : env.beginErr with
    | true => simp [handleCreateOrder, c1, c2, c3, c4]
    | false =>
      have hv := validRequest_of_checks c1 c2 c3
      rw [handleCreateOrder_valid env db userID req hv c4] at h ⊢
      have hc := createOrderInTx_not_created env { work := db, committed := false } userID req h
      simp only at hc
      simp [hc]

/-- Witness of C1: the insertion of the second line fails after the order row and the
first line were written in the transaction; the call answers 500 and the store is
unchanged. -/
theorem failed_placement_leaves_store_witness :
    (handleCreateOrder envLineFault (scenarioStore true) "G" (Except.ok requestAB)).1.status
        ≠ 201 ∧
      (handleCreateOrder envLineFault (scenarioStore true) "G" (Except.ok requestAB)).2 =
        scenarioStore true :=
  ⟨by decide,
   failed_placement_leaves_store envLineFault (scenarioStore true) "G" (Except.ok requestAB)
     (by decide)⟩

/-- After a successful placement (201) the `total_amount` of the inserted order row and of
the order in the response are the accumulation `lineTotal`, with the operations of the
amounts, over the inserted order lines, and each inserted line carries the requested
quantity and the price of the requested menu item as stored when the transaction ran. -/
theorem handleCreateOrder_total_fold {α : Type} [Amount α] (env : Env) (db : Store α)
    (userID : String) (payload : Except String CreateOrderRequest)
    (h : (handleCreateOrder env db userID payload).1.status = 201) :
    ∃ req o row lines,
      payload = Except.ok req ∧
      (handleCreateOrder env db userID payload).1.body = Body.order o ∧
      (handleCreateOrder env db userID payload).2.orders = db.orders ++ [row] ∧
      (handleCreateOrder env db userID payload).2.orderItems = db.orderItems ++ lines ∧
      row.totalAmount = o.totalAmount ∧
      o.totalAmount =
        lineTotal Amount.zero (lines.map (fun l => (l.priceAtPurchase, l.quantity))) ∧
      o.totalAmount =
        lineTotal Amount.zero (o.items.map (fun it => (it.priceAtPurchase, it.quantity))) ∧
      List.Forall₂
        (fun itemReq l =>
          l.quantity = itemReq.quantity ∧
            ∃ mi, db.menuItem? itemReq.menuItemID = some mi ∧ l.priceAtPurchase = mi.price)
        req.items lines := by
  obtain ⟨req, st, total, items, credits, inserted, hp, -, -, -, -, -, hsnap, htot, -, -,
    hcomp, heq⟩ := handleCreateOrder_created env db userID payload h
  have hmap := map_price_quantity_of_completed env.orderID hcomp
  refine ⟨req, createdOrder env userID req.studentID total inserted,
    orderRow env userID req.studentID total "PENDING", inserted.map OrderItem.toRow, hp, ?_,
    ?_, ?_, rfl, ?_, ?_, ?_⟩
  · rw [heq]
  · rw [heq]
  · rw [heq]
  · simp only [createdOrder, List.map_map]
    rw [htot, ← hmap]
    rfl
  · simp only [createdOrder]
    rw [htot, ← hmap]
  · rw [List.forall₂_map_right_iff]
    refine List.Forall₂.imp ?_ (forall₂_snapshot_completed db.menuItems env.orderID hsnap hcomp)
    intro itemReq out hrel
    obtain ⟨-, -, hq, mi, hfind, -, hprice⟩ := hrel
    exact ⟨hq, mi, hfind, hprice⟩

/-- C3: after a successful placement (201) the guardian's balance is the balance before
minus the order total, the balance of every other user is unchanged, and row by row the
`users` table differs only in the `credits` of the rows of the guardian. -/
theorem placement_debits_order_total {α : Type} [Amount α] (env : Env) (db : Store α)
    (userID : String) (payload : Except String CreateOrderRequest)
    (h : (handleCreateOrder env db userID payload).1.status = 201) :
    ∃ o b,
      (handleCreateOrder env db userID payload).1.body = Body.order o ∧
      db.balance? userID = some b ∧
      (handleCreateOrder env db userID payload).2.balance? userID =
        some (Amount.sub b o.totalAmount) ∧
      (∀ other, other ≠ userID →
        (handleCreateOrder env db userID payload).2.balance? other = db.balance? other) ∧
      List.Forall₂
        (fun u u' =>
          (u.id ≠ userID → u' = u) ∧
            (u.id = userID →
              u' = { u with credits := u.credits.map (fun c => Amount.sub c o.totalAmount) }))
        db.users (handleCreateOrder env db userID payload).2.users := by
  obtain ⟨req, st, total, items, credits, inserted, -, -, -, -, -, -, -, -, hcred, -, -, heq⟩ :=
    handleCreateOrder_created env db userID payload h
  have hbal : db.balance? userID = some credits := by
    unfold queryCredits at hcred
    split at hcred
    · exact absurd hcred (by simp)
    · exact hcred
  refine ⟨createdOrder env userID req.studentID total inserted, credits, by rw [heq], hbal,
    ?_, ?_, ?_⟩
  · rw [heq]
    unfold Store.balance? at hbal ⊢
    simp only [createdOrder]
    rw [balance_debitCredits_self, hbal]
    rfl
  · intro other hne
    rw [heq]
    unfold Store.balance?
    exact balance_debitCredits_other db.users total userID other hne
  · rw [heq]
    simp only [debitCredits, createdOrder]
    rw [List.forall₂_map_right_iff, List.forall₂_same]
    intro u _
    constructor
    · intro hne
      simp [hne]
    · intro hid
      simp [hid]

/-- Witness of C3: balance 20.00, lines `A x2` at 5.00 and `B x1` at 3.50; the total is
13.50, the new balance of `G` is 6.50 and the balance of `H` stays 10.00. -/
theorem placement_debits_order_total_witness :
    (handleCreateOrder envOK (scenarioStore true) "G" (Except.ok requestAB)).1.status = 201 ∧
      (scenarioStore true).balance? "G" = some (Float64.finite 5 2) ∧
      (handleCreateOrder envOK (scenarioStore true) "G" (Except.ok requestAB)).2.orders.map
        (fun row => row.totalAmount) = [Float64.finite 27 (-1)] ∧
      (handleCreateOrder envOK (scenarioStore true) "G" (Except.ok requestAB)).2.balance? "G" =
        some (Float64.finite 13 (-1)) ∧
      (handleCreateOrder envOK (scenarioStore true) "G" (Except.ok requestAB)).2.balance? "H" =
        some (Float64.finite 5 1) ∧
      ∃ o b,
        (handleCreateOrder envOK (scenarioStore true) "G" (Except.ok requestAB)).1.body =
          Body.order o ∧
        (scenarioStore true).balance? "G" = some b ∧
        (handleCreateOrder envOK (scenarioStore true) "G" (Except.ok requestAB)).2.balance? "G" =
          some (Amount.sub b o.totalAmount) ∧
        (∀ other, other ≠ "G" →
          (handleCreateOrder envOK (scenarioStore true) "G" (Except.ok requestAB)).2.balance?
            other = (scenarioStore true).balance? other) ∧
        List.Forall₂
          (fun u u' =>
            (u.id ≠ "G" → u' = u) ∧
              (u.id = "G" →
                u' = { u with credits := u.credits.map (fun c => Amount.sub c o.totalAmount) }))
          (scenarioStore true).users
          (handleCreateOrder envOK (scenarioStore true) "G" (Except.ok requestAB)).2.users :=
  ⟨by decide, by decide, by decide, by decide, by decide,
   placement_debits_order_total envOK (scenarioStore true) "G" (Except.ok requestAB)
     (by decide)⟩

/-- C4: for a request that passed validation, the ownership check and line resolution, with
`b` the balance read in the transaction and `total` the computed total, the call is
rejected with 402 and an unchanged store if and only if `b < total`; the rejection is the
"insufficient credits" response; a balance equal to the total passes the funds check, and
the placement then succeeds unless a later statement fails in the store. -/
theorem insufficient_funds_iff_balance_lt_total {α : Type} [Amount α] (env : Env)
    (db : Store α) (userID : String) (req : CreateOrderRequest) (total b : α)
    (items : List (OrderItem α))
    (hv : ValidRequest req) (hb : env.beginErr = false) (hs : env.studentQueryErr = false)
    (hown : db.owns userID req.studentID)
    (hres : resolveLines env { work := db, committed := false } 0 req.items Amount.zero [] =
      Resolution.resolved total items)
    (hcred : queryCredits env { work := db, committed := false } userID = some b) :
    (((handleCreateOrder env db userID (Except.ok req)).1.status = 402 ∧
        (handleCreateOrder env db userID (Except.ok req)).2 = db) ↔
      Amount.lt b total = true) ∧
    (Amount.lt b total = true →
      (handleCreateOrder env db userID (Except.ok req)).1 =
        httpError "Créditos insuficientes" 402) ∧
    (b = total →
      (handleCreateOrder env db userID (Except.ok req)).1.status ≠ 402 ∧
      (env.orderInsertErr = false → (∀ j, env.itemInsertErr j = false) →
        env.debitErr = false → env.commitErr = false →
        (handleCreateOrder env db userID (Except.ok req)).1.status = 201)) := by
  obtain ⟨st, hst⟩ := queryStudent_of_owns { work := db, committed := false } req.studentID
    userID hown
  have hrej : Amount.lt b total = true →
      handleCreateOrder env db userID (Except.ok req) =
        (httpError "Créditos insuficientes" 402, db) := by
    intro hlt
    rw [handleCreateOrder_valid env db userID req hv hb,
      createOrderInTx_insufficient env _ userID req st total b items hs hst hres hcred hlt]
    rfl
  have hacc : Amount.lt b total = false →
      (handleCreateOrder env db userID (Except.ok req)).1.status ≠ 402 := by
    intro hlt
    rw [handleCreateOrder_valid env db userID req hv hb]
    rcases createOrderInTx_funded env _ userID req st total b items hs hst hres hcred hlt
      with h | h <;> simp [h]
  refine ⟨⟨?_, ?_⟩, ?_, ?_⟩
  · intro h402
    cases hlt : Amount.lt b total with
    | true => rfl
    | false => exact absurd h402.1 (hacc hlt)
  · intro hlt
    rw [hrej hlt]
    exact ⟨rfl, rfl⟩
  · intro hlt
    rw [hrej hlt]
  · intro heq
    have hlt : Amount.lt b total = false := by
      rw [heq]
      exact Amount.lt_irrefl total
    refine ⟨hacc hlt, ?_⟩
    intro h6 h7 h8 h9
    rw [handleCreateOrder_valid env db userID req hv hb]
    exact createOrderInTx_success env _ userID req st total b items hs hst hres hcred hlt h6 h7
      h8 h9

/-- Witness of C4: guardian `H` holds 10.00 and requests two lines of 6.00 (total 12.00); the
call is rejected with 402 and the store is unchanged. -/
theorem insufficient_funds_iff_balance_lt_total_witness :
    Amount.lt (Float64.finite 5 1) (Float64.finite 3 2) = true ∧
      (handleCreateOrder envOK (scenarioStore true) "H" (Except.ok requestCC)).1 =
        httpError "Créditos insuficientes" 402 ∧
      (handleCreateOrder envOK (scenarioStore true) "H" (Except.ok requestCC)).2 =
        scenarioStore true :=
  have hw := insufficient_funds_iff_balance_lt_total envOK (scenarioStore true) "H" requestCC
    (Float64.finite 3 2) (Float64.finite 5 1)
    [{ id := "", orderID := "", menuItemID := "C", menuItemName := "C", quantity := 1,
       priceAtPurchase := Float64.finite 3 1, createdAt := 0 },
     { id := "", orderID := "", menuItemID := "C", menuItemName := "C", quantity := 1,
       priceAtPurchase := Float64.finite 3 1, createdAt := 0 }]
    (by decide) (by decide) (by decide) (by decide) (by decide) (by decide)
  ⟨by decide, hw.2.1 (by decide), (hw.1.2 (by decide)).2⟩

/-- C5: for a valid request, once the transaction is open and the ownership query has run,
the call is rejected with 403 and an unchanged store if and only if no student row has
the requested id together with the authenticated user as guardian; and an order that
the call creates belongs to the authenticated user and references the requested student,
whom that user owns. -/
theorem ownership_enforced {α : Type} [Amount α] (env : Env) (db : Store α)
    (userID : String) (req : CreateOrderRequest)
    (hv : ValidRequest req) (hb : env.beginErr = false) (hs : env.studentQueryErr = false) :
    (((handleCreateOrder env db userID (Except.ok req)).1.status = 403 ∧
        (handleCreateOrder env db userID (Except.ok req)).2 = db) ↔
      ¬ db.owns userID req.studentID) ∧
    (¬ db.owns userID req.studentID →
      (handleCreateOrder env db userID (Except.ok req)).1 =
        httpError "Aluno especificado inválido ou não pertence a este responsável." 403) ∧
    ((handleCreateOrder env db userID (Except.ok req)).1.status = 201 →
      db.owns userID req.studentID ∧
      ∃ row, (handleCreateOrder env db userID (Except.ok req)).2.orders = db.orders ++ [row] ∧
        row.userID = userID ∧ row.studentID = some req.studentID) := by
  have hrej : ¬ db.owns userID req.studentID →
      handleCreateOrder env db userID (Except.ok req) =
        (httpError "Aluno especificado inválido ou não pertence a este responsável." 403,
          db) := by
    intro hno
    have hq := (queryStudent_eq_none_iff { work := db, committed := false } req.studentID
      userID).2 hno
    rw [handleCreateOrder_valid env db userID req hv hb,
      createOrderInTx_forbidden env _ userID req hs hq]
    rfl
  refine ⟨⟨?_, ?_⟩, ?_, ?_⟩
  · intro h403 hown
    obtain ⟨st, hst⟩ := queryStudent_of_owns { work := db, committed := false } req.studentID
      userID hown
    have h := h403.1
    rw [handleCreateOrder_valid env db userID req hv hb] at h
    exact createOrderInTx_owned env _ userID req st hs hst h
  · intro hno
    rw [hrej hno]
    exact ⟨rfl, rfl⟩
  · intro hno
    rw [hrej hno]
  · intro h201
    obtain ⟨req2, st, total, items, credits, inserted, hp, -, -, -, hst, -, -, -, -, -, -,
      heq⟩ := handleCreateOrder_created env db userID (Except.ok req) h201
    cases hp
    obtain ⟨hmem, hid, hpar⟩ := queryStudent_some _ _ _ _ hst
    refine ⟨⟨st, hmem, hid, hpar⟩, orderRow env userID req.studentID total "PENDING", ?_, rfl,
      rfl⟩
    rw [heq]

/-- Witness of C5: guardian `H` requests an order for student `S`, whom `G` owns; the call
is rejected with 403 and the store is unchanged. -/
theorem ownership_enforced_witness :
    ¬ (scenarioStore true).owns "H" "S" ∧
      (handleCreateOrder envOK (scenarioStore true) "H" (Except.ok requestAB)).1.status = 403 ∧
      (handleCreateOrder envOK (scenarioStore true) "H" (Except.ok requestAB)).2 =
        scenarioStore true :=
  ⟨by decide,
   (ownership_enforced envOK (scenarioStore true) "H" requestAB (by decide) (by decide)
     (by decide)).1.2 (by decide)⟩

/-- C6: for a valid request by the guardian of the student whose lines all reference
existing menu items, if some referenced item is marked unavailable the placement fails
and the store is unchanged, whatever the balance and the other lines; when the
transaction opens and its reads succeed, the failure is the item-unavailable error. -/
theorem unavailable_item_rejected {α : Type} [Amount α] (env : Env) (db : Store α)
    (userID : String) (req : CreateOrderRequest)
    (hv : ValidRequest req) (hown : db.owns userID req.studentID)
    (hall : ∀ itemReq ∈ req.items, ∃ mi, db.menuItem? itemReq.menuItemID = some mi)
    (hun : ∃ itemReq ∈ req.items, ∃ mi,
      db.menuItem? itemReq.menuItemID = some mi ∧ mi.isAvailable = false) :
    (handleCreateOrder env db userID (Except.ok req)).2 = db ∧
    (handleCreateOrder env db userID (Except.ok req)).1.status ≠ 201 ∧
    (env.beginErr = false → env.studentQueryErr = false → (∀ j, env.menuQueryErr j = false) →
      (handleCreateOrder env db userID (Except.ok req)).1 =
        httpError "Item indisponível" 400) := by
  have hfail : (handleCreateOrder env db userID (Except.ok req)).1.status ≠ 201 := by
    intro h201
    obtain ⟨req2, st, total, items, credits, inserted, hp, -, -, -, -, hres, -⟩ :=
      handleCreateOrder_created env db userID (Except.ok req) h201
    cases hp
    rcases resolveLines_not_resolved_of_unavailable env { work := db, committed := false }
      req.items 0 Amount.zero [] hun with h | h
    · rw [h] at hres
      exact absurd hres (by simp)
    · rw [h] at hres
      exact absurd hres (by simp)
  refine ⟨handleCreateOrder_valid_rollback env db userID req hv hfail, hfail, ?_⟩
  intro hb hs hq
  obtain ⟨st, hst⟩ := queryStudent_of_owns { work := db, committed := false } req.studentID
    userID hown
  have hres := resolveLines_unavailable env { work := db, committed := false } hq req.items 0
    Amount.zero [] hall hun
  rw [handleCreateOrder_valid env db userID req hv hb,
    createOrderInTx_unavailable env _ userID req st hs hst hres]

/-- Witness of C6: the setup of the scenario with item `B` unavailable; the request for
`A x2` and `B x1` fails with the item-unavailable error and the store is unchanged. -/
theorem unavailable_item_rejected_witness :
    (handleCreateOrder envOK (scenarioStore false) "G" (Except.ok requestAB)).2 =
        scenarioStore false ∧
      (handleCreateOrder envOK (scenarioStore false) "G" (Except.ok requestAB)).1 =
        httpError "Item indisponível" 400 :=
  have hw := unavailable_item_rejected envOK (scenarioStore false) "G" requestAB (by decide)
    (by decide)
    (by
      intro itemReq hmem
      simp only [requestAB, List.mem_cons, List.mem_singleton, List.not_mem_nil,
        or_false] at hmem
      rcases hmem with rfl | rfl
      · exact ⟨_, rfl⟩
      · exact ⟨_, rfl⟩)
    ⟨{ menuItemID := "B", quantity := 1 }, by decide, _, rfl, rfl⟩
  ⟨hw.1, hw.2.2 (by decide) (by decide) (fun _ => rfl)⟩

/-- Counterexample to C7 as stated: in the scenario with item `B` unavailable, the valid
request of guardian `G` for `B x1` followed by the unknown item `X` references a menu
item that does not exist, yet the response is the item-unavailable error of the earlier
line and not the item-not-found error. -/
theorem missing_item_not_always_not_found :
    ValidRequest requestBX ∧ (scenarioStore false).owns "G" "S" ∧
      (∃ itemReq ∈ requestBX.items,
        (scenarioStore false).menuItem? itemReq.menuItemID = none) ∧
      (handleCreateOrder envOK (scenarioStore false) "G" (Except.ok requestBX)).1 =
        httpError "Item indisponível" 400 ∧
      (handleCreateOrder envOK (scenarioStore false) "G" (Except.ok requestBX)).1 ≠
        httpError "Item menu não encontrado" 400 := by
  decide

/-- C7 (amended): for a valid request by the guardian of the student, with the transaction
open and the ownership query run, if some line references a menu item id that does not
exist then the placement fails with HTTP 400 and the store is unchanged; the error is
the item-not-found error whenever every line before a missing one references an
existing, available item, and otherwise the not-found or the unavailable error of an
earlier line. -/
theorem missing_item_rejected {α : Type} [Amount α] (env : Env) (db : Store α)
    (userID : String) (req : CreateOrderRequest)
    (hv : ValidRequest req) (hb : env.beginErr = false) (hs : env.studentQueryErr = false)
    (hown : db.owns userID req.studentID)
    (hmiss : ∃ itemReq ∈ req.items, db.menuItem? itemReq.menuItemID = none) :
    (handleCreateOrder env db userID (Except.ok req)).2 = db ∧
    ((handleCreateOrder env db userID (Except.ok req)).1 =
        httpError "Item menu não encontrado" 400 ∨
      (handleCreateOrder env db userID (Except.ok req)).1 =
        httpError "Item indisponível" 400) ∧
    (∀ pre x post, req.items = pre ++ x :: post → db.menuItem? x.menuItemID = none →
      (∀ itemReq ∈ pre, ∃ mi,
        db.menuItem? itemReq.menuItemID = some mi ∧ mi.isAvailable = true) →
      (handleCreateOrder env db userID (Except.ok req)).1 =
        httpError "Item menu não encontrado" 400) := by
  obtain ⟨st, hst⟩ := queryStudent_of_owns { work := db, committed := false } req.studentID
    userID hown
  have hdisj : (handleCreateOrder env db userID (Except.ok req)).1 =
        httpError "Item menu não encontrado" 400 ∨
      (handleCreateOrder env db userID (Except.ok req)).1 =
        httpError "Item indisponível" 400 := by
    rw [handleCreateOrder_valid env db userID req hv hb]
    rcases resolveLines_not_resolved_of_missing env { work := db, committed := false }
      req.items 0 Amount.zero [] hmiss with h | h
    · left
      rw [createOrderInTx_notFound env _ userID req st hs hst h]
    · right
      rw [createOrderInTx_unavailable env _ userID req st hs hst h]
  refine ⟨?_, hdisj, ?_⟩
  · apply handleCreateOrder_valid_rollback env db userID req hv
    rcases hdisj with h | h <;> simp [h, httpError]
  · intro pre x post hitems hx hpre
    have hres := resolveLines_notFound env { work := db, committed := false } x post hx pre 0
      Amount.zero [] hpre
    rw [← hitems] at hres
    rw [handleCreateOrder_valid env db userID req hv hb,
      createOrderInTx_notFound env _ userID req st hs hst hres]

/-- Witness of C7 (amended): the request for `A x1` followed by the unknown item `X` fails
with the item-not-found error and the store is unchanged. -/
theorem missing_item_rejected_witness :
    (handleCreateOrder envOK (scenarioStore true) "G" (Except.ok requestAX)).2 =
        scenarioStore true ∧
      (handleCreateOrder envOK (scenarioStore true) "G" (Except.ok requestAX)).1 =
        httpError "Item menu não encontrado" 400 :=
  have hw := missing_item_rejected envOK (scenarioStore true) "G" requestAX (by decide)
    (by decide) (by decide) (by decide) (by decide)
  ⟨hw.1,
   hw.2.2 [{ menuItemID := "A", quantity := 1 }] { menuItemID := "X", quantity := 1 } [] rfl
     (by decide)
     (by
      intro itemReq hmem
      simp only [List.mem_singleton] at hmem
      subst hmem
      exact ⟨_, rfl, rfl⟩)⟩

/-- C8: a decoded request is answered 400 with the same message in every environment and
every store, the store being returned untouched (so before `Begin` and without any
query), exactly when its item list is empty, or its student id is empty, or one of its
items has an empty `menu_item_id` or a quantity `<= 0`; every other request goes on to
`Begin` and, when the transaction opens, to the body of the transaction. -/
theorem validation_rejects_exactly_invalid {α : Type} [Amount α] (userID : String)
    (req : CreateOrderRequest) :
    ((∃ msg, ∀ (env : Env) (db : Store α),
        handleCreateOrder env db userID (Except.ok req) = (httpError msg 400, db)) ↔
      (req.items = [] ∨ req.studentID = "" ∨
        ∃ itemReq ∈ req.items, itemReq.menuItemID = "" ∨ itemReq.quantity ≤ 0)) ∧
    ((∀ (env : Env) (db : Store α),
        handleCreateOrder env db userID (Except.ok req) =
          if env.beginErr = true then (httpError "Erro servidor" 500, db)
          else
            ((createOrderInTx env { work := db, committed := false } userID req).1,
             if (createOrderInTx env { work := db, committed := false } userID req).2.committed
             then (createOrderInTx env { work := db, committed := false } userID req).2.work
             else db)) ↔
      ¬ (req.items = [] ∨ req.studentID = "" ∨
        ∃ itemReq ∈ req.items, itemReq.menuItemID = "" ∨ itemReq.quantity ≤ 0)) := by
  have hexample : (handleCreateOrder { envOK with beginErr := true }
      ({ users := [], students := [], menuItems := [], orders := [], orderItems := [] } :
        Store α) userID (Except.ok req)).1.status ≠ 500 →
      (req.items = [] ∨ req.studentID = "" ∨
        ∃ itemReq ∈ req.items, itemReq.menuItemID = "" ∨ itemReq.quantity ≤ 0) := by
    intro hne
    by_contra hvalid
    push_neg at hvalid
    obtain ⟨c1, c2, c3⟩ := hvalid
    have c1' : ¬ req.items.length = 0 := fun h0 => c1 (List.length_eq_zero.1 h0)
    have c3' : hasInvalidItem req.items = false := by
      rw [hasInvalidItem_eq_false]
      intro itemReq hmem
      exact ⟨(c3 itemReq hmem).1, (c3 itemReq hmem).2⟩
    apply hne
    simp [handleCreateOrder, c1', c2, c3', httpError]
  have hinvalid : (req.items = [] ∨ req.studentID = "" ∨
        ∃ itemReq ∈ req.items, itemReq.menuItemID = "" ∨ itemReq.quantity ≤ 0) →
      ∃ msg, ∀ (env : Env) (db : Store α),
        handleCreateOrder env db userID (Except.ok req) = (httpError msg 400, db) := by
    intro hbad
    by_cases c1 : req.items.length = 0
    · exact ⟨"O pedido deve conter pelo menos um item.",
        fun env db => by simp [handleCreateOrder, c1]⟩
    by_cases c2 : req.studentID = ""
    · exact ⟨"O ID do aluno (student_id) é obrigatório.",
        fun env db => by simp [handleCreateOrder, c1, c2]⟩
    have c3 : hasInvalidItem req.items = true := by
      rw [hasInvalidItem_eq_true]
      rcases hbad with h | h | h
      · exact absurd (by simp [h]) c1
      · exact absurd h c2
      · exact h
    exact ⟨"Cada item do pedido deve ter 'menu_item_id' e 'quantity' (>0) válida.",
      fun env db => by simp [handleCreateOrder, c1, c2, c3]⟩
  refine ⟨⟨?_, hinvalid⟩, ⟨?_, ?_⟩⟩
  · intro hrej
    obtain ⟨msg, hmsg⟩ := hrej
    apply hexample
    rw [hmsg]
    simp [httpError]
  · intro hgo hbad
    obtain ⟨msg, hmsg⟩ := hinvalid hbad
    have h1 := hgo { envOK with beginErr := true }
      { users := [], students := [], menuItems := [], orders := [], orderItems := [] }
    rw [hmsg] at h1
    simp [httpError] at h1
  · intro hvalid env db
    push_neg at hvalid
    obtain ⟨c1, c2, c3⟩ := hvalid
    have hv : ValidRequest req := ⟨c1, c2, c3⟩
    cases hb : env.beginErr with
    | true =>
        have c1' : ¬ req.items.length = 0 := fun h0 => c1 (List.length_eq_zero.1 h0)
        have c3' : hasInvalidItem req.items = false := (hasInvalidItem_eq_false req.items).2 c3
        simp [handleCreateOrder, c1', c2, c3', hb]
    | false =>
        rw [handleCreateOrder_valid env db userID req hv hb]
        simp

/-- C9: a successful placement (201) adds exactly one row to `orders`, at the end of the
table; the row has status `PENDING`, the authenticated user as guardian and the requested
student; and the response is 201 with the order whose columns are those of that row. -/
theorem placement_inserts_one_pending_order {α : Type} [Amount α] (env : Env)
    (db : Store α) (userID : String) (payload : Except String CreateOrderRequest)
    (h : (handleCreateOrder env db userID payload).1.status = 201) :
    ∃ req o,
      payload = Except.ok req ∧
      (handleCreateOrder env db userID payload).1 = { status := 201, body := Body.order o } ∧
      (handleCreateOrder env db userID payload).2.orders = db.orders ++ [o.toRow] ∧
      (handleCreateOrder env db userID payload).2.orders.length = db.orders.length + 1 ∧
      o.status = "PENDING" ∧ o.userID = userID ∧ o.studentID = some req.studentID := by
  obtain ⟨req, st, total, items, credits, inserted, hp, -, -, -, -, -, -, -, -, -, -, heq⟩ :=
    handleCreateOrder_created env db userID payload h
  refine ⟨req, createdOrder env userID req.studentID total inserted, hp, by rw [heq], ?_, ?_,
    rfl, rfl, rfl⟩
  · rw [heq]
    rfl
  · rw [heq]
    simp

/-- Witness of C9: the placement of the scenario adds one `PENDING` order of `G` for `S`. -/
theorem placement_inserts_one_pending_order_witness :
    (handleCreateOrder envOK (scenarioStore true) "G" (Except.ok requestAB)).1.status = 201 ∧
      (handleCreateOrder envOK (scenarioStore true) "G" (Except.ok requestAB)).2.orders =
        [{ id := "order-1", userID := "G", studentID := some "S", orderDate := 100,
           totalAmount := Float64.finite 27 (-1), status := "PENDING", createdAt := 100,
           updatedAt := 100 }] ∧
      ∃ req o,
        (Except.ok requestAB : Except String CreateOrderRequest) = Except.ok req ∧
        (handleCreateOrder envOK (scenarioStore true) "G" (Except.ok requestAB)).1 =
          { status := 201, body := Body.order o } ∧
        (handleCreateOrder envOK (scenarioStore true) "G" (Except.ok requestAB)).2.orders =
          (scenarioStore true).orders ++ [o.toRow] ∧
        (handleCreateOrder envOK (scenarioStore true) "G" (Except.ok requestAB)).2.orders.length =
          (scenarioStore true).orders.length + 1 ∧
        o.status = "PENDING" ∧ o.userID = "G" ∧ o.studentID = some req.studentID :=
  ⟨by decide, by decide,
   placement_inserts_one_pending_order envOK (scenarioStore true) "G" (Except.ok requestAB)
     (by decide)⟩

/-- C10: after a successful placement (201) the rows added to `order_items` are the rows of
the items of the response, in the same order; there are as many as requested lines; and
the i-th carries the id of the new order, the i-th requested menu item id and quantity,
and the name and price of the first menu row of that id.  The items come from the
snapshot taken by line resolution alone: whatever the transaction holds when the lines
are inserted, the insertion of that snapshot yields the items of the response. -/
theorem placement_lines_match_request {α : Type} [Amount α] (env : Env) (db : Store α)
    (userID : String) (payload : Except String CreateOrderRequest)
    (h : (handleCreateOrder env db userID payload).1.status = 201) :
    ∃ req o,
      payload = Except.ok req ∧
      (handleCreateOrder env db userID payload).1.body = Body.order o ∧
      (handleCreateOrder env db userID payload).2.orderItems =
        db.orderItems ++ o.items.map OrderItem.toRow ∧
      o.items.length = req.items.length ∧
      (handleCreateOrder env db userID payload).2.orderItems.length =
        db.orderItems.length + req.items.length ∧
      List.Forall₂
        (fun itemReq item =>
          item.orderID = o.id ∧ item.menuItemID = itemReq.menuItemID ∧
            item.quantity = itemReq.quantity ∧
            ∃ mi, db.menuItem? itemReq.menuItemID = some mi ∧
              item.menuItemName = mi.name ∧ item.priceAtPurchase = mi.price)
        req.items o.items ∧
      List.Forall₂
        (fun itemReq row =>
          row.orderID = o.id ∧ row.menuItemID = itemReq.menuItemID ∧
            row.quantity = itemReq.quantity ∧
            ∃ mi, db.menuItem? itemReq.menuItemID = some mi ∧ row.priceAtPurchase = mi.price)
        req.items (o.items.map OrderItem.toRow) ∧
      ∃ snapshot,
        resolveLines env { work := db, committed := false } 0 req.items Amount.zero [] =
          Resolution.resolved o.totalAmount snapshot ∧
        ∀ tx : Tx α, (insertLines env o.id 0 snapshot tx []).2 = some o.items := by
  obtain ⟨req, st, total, items, credits, inserted, hp, hv, hb, hs, hst, hres, hsnap, htot,
    hcred, hlt, hcomp, heq⟩ := handleCreateOrder_created env db userID payload h
  have hrel := forall₂_snapshot_completed db.menuItems env.orderID hsnap hcomp
  have hlen : inserted.length = req.items.length := hrel.length_eq.symm
  refine ⟨req, createdOrder env userID req.studentID total inserted, hp, by rw [heq],
    by rw [heq]; rfl, hlen, ?_, ?_, ?_, items, hres, ?_⟩
  · rw [heq]
    simp [hlen]
  · refine List.Forall₂.imp ?_ hrel
    intro itemReq out hout
    exact hout
  · rw [List.forall₂_map_right_iff]
    refine List.Forall₂.imp ?_ hrel
    intro itemReq out hout
    obtain ⟨h1, h2, h3, mi, hfind, -, hprice⟩ := hout
    exact ⟨h1, h2, h3, mi, hfind, hprice⟩
  · intro tx
    subst hp
    rw [handleCreateOrder_valid env db userID req hv hb] at h
    obtain ⟨st2, total2, items2, credits2, tx2, inserted2, -, -, g3, -, -, -, g7, -, -, g10⟩ :=
      createOrderInTx_created env { work := db, committed := false } userID req h
    rw [hres] at g3
    cases g3
    have hbody : inserted2 = inserted := by
      rw [handleCreateOrder_valid env db userID req hv hb, g10] at heq
      simp only [Prod.mk.injEq, Response.mk.injEq, Body.order.injEq, true_and] at heq
      have := heq.1
      simp only [createdOrder, Order.mk.injEq, true_and] at this
      exact this
    subst hbody
    have hsnd := insertLines_snd_eq env env.orderID items 0 tx
      { work :=
          { users := db.users, students := db.students, menuItems := db.menuItems,
            orders := db.orders ++ [orderRow env userID req.studentID total "PENDING"],
            orderItems := db.orderItems },
        committed := false } []
    simp only [createdOrder]
    rw [hsnd, g7]

/-- Witness of C10: the placement of the scenario inserts the two requested lines. -/
theorem placement_lines_match_request_witness :
    (handleCreateOrder envOK (scenarioStore true) "G" (Except.ok requestAB)).1.status = 201 ∧
      (handleCreateOrder envOK (scenarioStore true) "G" (Except.ok requestAB)).2.orderItems =
        [{ id := "line-0", orderID := "order-1", menuItemID := "A", quantity := 2,
           priceAtPurchase := Float64.finite 5 0, createdAt := 100 },
         { id := "line-1", orderID := "order-1", menuItemID := "B", quantity := 1,
           priceAtPurchase := Float64.finite 7 (-1), createdAt := 100 }] ∧
      ∃ req o,
        (Except.ok requestAB : Except String CreateOrderRequest) = Except.ok req ∧
        (handleCreateOrder envOK (scenarioStore true) "G" (Except.ok requestAB)).1.body =
          Body.order o ∧
        (handleCreateOrder envOK (scenarioStore true) "G" (Except.ok requestAB)).2.orderItems =
          (scenarioStore true).orderItems ++ o.items.map OrderItem.toRow ∧
        o.items.length = req.items.length :=
  have hw := placement_lines_match_request envOK (scenarioStore true) "G"
    (Except.ok requestAB) (by decide)
  ⟨by decide, by decide,
   hw.elim fun req hreq => hreq.elim fun o ho => ⟨req, o, ho.1, ho.2.1, ho.2.2.1, ho.2.2.2.1⟩⟩

end Handler

/-! ## Properties of the reads and of the menu update -/

section MenuFrame

theorem scanOrderItems_map {α β : Type} (env : FetchEnv) (g : OrderItem α → β) :
    ∀ (l l' : List (OrderItem α)) (k : Nat) (acc acc' : List (OrderItem α)),
      l.map g = l'.map g → acc.map g = acc'.map g →
      (scanOrderItems env k l acc).map (List.map g) =
        (scanOrderItems env k l' acc').map (List.map g) := by
  intro l
  induction l with
  | nil =>
      intro l' k acc acc' hl hacc
      cases l' with
      | nil => simp [scanOrderItems, hacc]
      | cons y ys => simp at hl
  | cons x xs ih =>
      intro l' k acc acc' hl hacc
      cases l' with
      | nil => simp at hl
      | cons y ys =>
          simp only [List.map_cons, List.cons.injEq] at hl
          simp only [scanOrderItems]
          split
          · rfl
          · apply ih
            · exact hl.2
            · simp [hacc, hl.1]

theorem orderItemsJoin_map_toRow {α : Type} (db : Store α) (f : MenuItemRow α → MenuItemRow α)
    (hf : ∀ m, (f m).id = m.id) (orderID : String) :
    (orderItemsJoin
        { users := db.users, students := db.students, menuItems := db.menuItems.map f,
          orders := db.orders, orderItems := db.orderItems } orderID).map OrderItem.toRow =
      (orderItemsJoin db orderID).map OrderItem.toRow := by
  unfold orderItemsJoin
  simp only [List.map_flatMap, List.map_map, List.filter_map]
  congr 1
  funext oi
  have hp : ((fun mi : MenuItemRow α => oi.menuItemID == mi.id) ∘ f) =
      (fun mi : MenuItemRow α => oi.menuItemID == mi.id) := by
    funext m
    simp [Function.comp, hf m]
  rw [hp]
  apply List.map_congr_left
  intro m _
  rfl

/-- C11: whatever the store (in particular after a placement), a call of
`handleUpdateMenuItem`, which may change the price of a menu item, leaves the table
`orders` (so every `total_amount`) and the table `order_items` (so every
`price_at_purchase`) as they were, and `fetchOrderItemsByOrderID` answers for every order,
under the same conditions of the store, the same lines with the same prices as before
the call; only the item name of a line, which is joined from the menu, may differ. -/
theorem menu_update_keeps_order_prices {α : Type} (env : MenuEnv) (db : Store α)
    (itemID : String) (payload : Except String (CreateMenuItemPayload α)) :
    (handleUpdateMenuItem env db itemID payload).2.orders = db.orders ∧
    (handleUpdateMenuItem env db itemID payload).2.orderItems = db.orderItems ∧
    ∀ (fenv : FetchEnv) (orderID : String),
      (fetchOrderItemsByOrderID fenv (handleUpdateMenuItem env db itemID payload).2
          orderID).map (List.map OrderItem.toRow) =
        (fetchOrderItemsByOrderID fenv db orderID).map (List.map OrderItem.toRow) ∧
      (fetchOrderItemsByOrderID fenv (handleUpdateMenuItem env db itemID payload).2
          orderID).map (List.map (fun it => it.priceAtPurchase)) =
        (fetchOrderItemsByOrderID fenv db orderID).map
          (List.map (fun it => it.priceAtPurchase)) := by
  have hrows : ∀ (db' : Store α) (fenv : FetchEnv) (orderID : String),
      (orderItemsJoin db' orderID).map OrderItem.toRow =
        (orderItemsJoin db orderID).map OrderItem.toRow →
      (fetchOrderItemsByOrderID fenv db' orderID).map (List.map OrderItem.toRow) =
        (fetchOrderItemsByOrderID fenv db orderID).map (List.map OrderItem.toRow) := by
    intro db' fenv orderID hjoin
    have hscan := scanOrderItems_map fenv OrderItem.toRow (orderItemsJoin db' orderID)
      (orderItemsJoin db orderID) 0 [] [] hjoin rfl
    unfold fetchOrderItemsByOrderID
    cases hq : fenv.queryErr with
    | true => simp
    | false =>
        cases h1 : scanOrderItems fenv 0 (orderItemsJoin db' orderID) [] with
        | none =>
            cases h2 : scanOrderItems fenv 0 (orderItemsJoin db orderID) [] with
            | none => simp
            | some l2 => simp [h1, h2] at hscan
        | some l1 =>
            cases h2 : scanOrderItems fenv 0 (orderItemsJoin db orderID) [] with
            | none => simp [h1, h2] at hscan
            | some l2 =>
                simp only [h1, h2, Option.map_some', Option.some.injEq] at hscan
                cases hr : fenv.rowsErr <;> simp [hscan]
  have hprices : ∀ (db' : Store α) (fenv : FetchEnv) (orderID : String),
      (fetchOrderItemsByOrderID fenv db' orderID).map (List.map OrderItem.toRow) =
        (fetchOrderItemsByOrderID fenv db orderID).map (List.map OrderItem.toRow) →
      (fetchOrderItemsByOrderID fenv db' orderID).map
          (List.map (fun it => it.priceAtPurchase)) =
        (fetchOrderItemsByOrderID fenv db orderID).map
          (List.map (fun it => it.priceAtPurchase)) := by
    intro db' fenv orderID h
    have h2 := congrArg (Option.map (List.map (fun r : OrderItemRow α => r.priceAtPurchase))) h
    simpa [Option.map_map, Function.comp, OrderItem.toRow] using h2
  have hsame : ∀ (fenv : FetchEnv) (orderID : String),
      (fetchOrderItemsByOrderID fenv db orderID).map (List.map OrderItem.toRow) =
          (fetchOrderItemsByOrderID fenv db orderID).map (List.map OrderItem.toRow) ∧
        (fetchOrderItemsByOrderID fenv db orderID).map
            (List.map (fun it => it.priceAtPurchase)) =
          (fetchOrderItemsByOrderID fenv db orderID).map
            (List.map (fun it => it.priceAtPurchase)) := fun _ _ => ⟨rfl, rfl⟩
  cases payload with
  | error e => exact ⟨rfl, rfl, hsame⟩
  | ok pl =>
      cases hu : env.updateErr with
      | true => simp [handleUpdateMenuItem, hu]
      | false =>
          cases hfind : db.menuItems.find? (fun mi => mi.id == itemID) with
          | none => simp [handleUpdateMenuItem, hu, hfind]
          | some mi =>
              simp only [handleUpdateMenuItem, hu, hfind]
              refine ⟨rfl, rfl, ?_⟩
              intro fenv orderID
              have hjoin := orderItemsJoin_map_toRow db
                (fun m => if m.id == itemID then
                  updatedMenuItem pl (match pl.isAvailable with | some b => b | none => true)
                    env.now m
                  else m)
                (by
                  intro m
                  by_cases hm : (m.id == itemID) = true
                  · simp [hm, updatedMenuItem]
                  · simp [hm])
                orderID
              exact ⟨hrows _ fenv orderID hjoin, hprices _ fenv orderID (hrows _ fenv orderID hjoin)⟩

end MenuFrame

/-! ## Store failures in the placement -/

section StoreFailures

/-- C12 (the code at the failing input): with the first menu query failing in the store,
the valid placement of guardian `G` is answered 400 "item not found" and not 500, the
store being unchanged; the same kind of failure in the ownership query is answered
500. -/
theorem menu_query_failure_answers_400 :
    ValidRequest requestAB ∧ (scenarioStore true).owns "G" "S" ∧
      envMenuFault.menuQueryErr 0 = true ∧
      handleCreateOrder envMenuFault (scenarioStore true) "G" (Except.ok requestAB) =
        (httpError "Item menu não encontrado" 400, scenarioStore true) ∧
      (handleCreateOrder envMenuFault (scenarioStore true) "G"
        (Except.ok requestAB)).1.status ≠ 500 ∧
      handleCreateOrder envStudentFault (scenarioStore true) "G" (Except.ok requestAB) =
        (httpError "Erro ao validar dados do pedido." 500, scenarioStore true) := by
  decide

end StoreFailures

/-! ## Properties of the status transitions -/

section StatusProps

theorem not_privilegedRole_iff (role : String) :
    ¬ privilegedRole role ↔ role ≠ "staff" ∧ role ≠ "admin" ∧ role ≠ "super_admin" := by
  unfold privilegedRole
  constructor
  · intro h
    exact ⟨fun h1 => h (Or.inl h1), fun h2 => h (Or.inr (Or.inl h2)),
      fun h3 => h (Or.inr (Or.inr h3))⟩
  · intro h hp
    rcases hp with h1 | h2 | h3
    · exact h.1 h1
    · exact h.2.1 h2
    · exact h.2.2 h3

theorem handleUpdateOrderStatus_forbidden {α : Type} (env : StatusEnv) (db : Store α)
    (orderID : String) (payload : Except String UpdateOrderStatusPayload) (uid : String)
    (p : UserProfile α) (hp : fetchUserProfile env.profileQueryErr db uid = Except.ok p)
    (hr : ¬ privilegedRole p.role) :
    handleUpdateOrderStatus env db (some uid) orderID payload =
      (httpError "Acesso não autorizado para esta ação." 403, db) := by
  have hr' := (not_privilegedRole_iff p.role).1 hr
  simp only [handleUpdateOrderStatus, hp]
  rw [if_pos hr']

theorem handleUpdateOrderStatus_privileged {α : Type} (env : StatusEnv) (db : Store α)
    (orderID : String) (pl : UpdateOrderStatusPayload) (uid : String)
    (p : UserProfile α) (hp : fetchUserProfile env.profileQueryErr db uid = Except.ok p)
    (hr : privilegedRole p.role) :
    handleUpdateOrderStatus env db (some uid) orderID (Except.ok pl) =
      if trimSpace pl.status = "" then (httpError "Novo status não pode ser vazio." 400, db)
      else if ¬ (toUpper env.upperTable (trimSpace pl.status) ∈ validStatuses) then
        (httpError ("Status '" ++ trimSpace pl.status ++ "' inválido.") 400, db)
      else if env.updateErr = true then
        (httpError "Erro no servidor ao atualizar status do pedido." 500, db)
      else
        match db.orders.find? (fun o => o.id == orderID) with
        | none => (httpError "Pedido não encontrado para atualização de status." 404, db)
        | some row =>
            ({ status := 200,
               body := Body.order
                 (scanOrder
                   { id := row.id, userID := row.userID, studentID := row.studentID,
                     orderDate := row.orderDate, totalAmount := row.totalAmount,
                     status := toUpper env.upperTable (trimSpace pl.status),
                     createdAt := row.createdAt, updatedAt := env.now }
                   (itemsOrEmpty env.items
                     { users := db.users, students := db.students, menuItems := db.menuItems,
                       orders := updateStatusRows db.orders
                         (toUpper env.upperTable (trimSpace pl.status)) env.now orderID,
                       orderItems := db.orderItems } row.id)) },
             { users := db.users, students := db.students, menuItems := db.menuItems,
               orders := updateStatusRows db.orders
                 (toUpper env.upperTable (trimSpace pl.status)) env.now orderID,
               orderItems := db.orderItems }) := by
  have hr' : ¬ (p.role ≠ "staff" ∧ p.role ≠ "admin" ∧ p.role ≠ "super_admin") := by
    intro h
    exact (not_privilegedRole_iff p.role).2 h hr
  simp only [handleUpdateOrderStatus, hp]
  rw [if_neg hr']

theorem toUpper_empty (upperTable : Char → Char) : toUpper upperTable "" = "" := rfl

theorem empty_not_validStatus : ¬ ("" ∈ validStatuses) := by decide

/-- C13: when the requester does not hold one of the roles `staff`, `admin`,
`super_admin` (no user in the context, no profile, or a profile with another role),
`handleUpdateOrderStatus` leaves the store, and so every order, as it was, whatever the
order id and the payload; and with a profile of another role the answer is 403. -/
theorem status_update_needs_privileged_role {α : Type} (env : StatusEnv) (db : Store α)
    (userID : Option String) (orderID : String)
    (payload : Except String UpdateOrderStatusPayload)
    (h : ∀ uid p, userID = some uid →
      fetchUserProfile env.profileQueryErr db uid = Except.ok p → ¬ privilegedRole p.role) :
    (handleUpdateOrderStatus env db userID orderID payload).2 = db ∧
    ∀ uid p, userID = some uid →
      fetchUserProfile env.profileQueryErr db uid = Except.ok p →
      handleUpdateOrderStatus env db userID orderID payload =
        (httpError "Acesso não autorizado para esta ação." 403, db) := by
  constructor
  · cases userID with
    | none => rfl
    | some uid =>
        cases hp : fetchUserProfile env.profileQueryErr db uid with
        | error e =>
            cases e <;> simp [handleUpdateOrderStatus, hp]
        | ok p =>
            rw [handleUpdateOrderStatus_forbidden env db orderID payload uid p hp
              (h uid p rfl hp)]
  · intro uid p hu hp
    subst hu
    exact handleUpdateOrderStatus_forbidden env db orderID payload uid p hp (h uid p rfl hp)

/-- Witness of C13: guardian `G` (role `CLIENTE`) asks to set `order-1` to `READY`; the
answer is 403 and the store is unchanged. -/
theorem status_update_needs_privileged_role_witness :
    (handleUpdateOrderStatus statusEnvOK officeStore (some "G") "order-1"
        (Except.ok { status := "READY" })).2 = officeStore ∧
      handleUpdateOrderStatus statusEnvOK officeStore (some "G") "order-1"
          (Except.ok { status := "READY" }) =
        (httpError "Acesso não autorizado para esta ação." 403, officeStore) :=
  have hw := status_update_needs_privileged_role statusEnvOK officeStore (some "G") "order-1"
    (Except.ok { status := "READY" })
    (by
      intro uid p hu hp
      cases hu
      have hrole : p.role = "CLIENTE" := by
        have hp2 : (Except.ok (UserProfile.mk "G" none none (some (Float64.finite 13 (-1)))
            "CLIENTE" 1 1) : Except QueryError (UserProfile Float64)) = Except.ok p := hp
        cases hp2
        rfl
      rw [hrole]
      decide)
  ⟨hw.1, hw.2 "G" _ rfl rfl⟩

theorem validStatus_chars_upper (m : String) (hm : m ∈ validStatuses) :
    ∀ c ∈ m.data, 65 ≤ c.toNat ∧ c.toNat ≤ 90 := by
  simp only [validStatuses, List.mem_cons, List.mem_singleton, List.not_mem_nil, or_false] at hm
  rcases hm with rfl | rfl | rfl | rfl | rfl <;> decide

theorem isSpace_eq_false_of_letter (c : Char) (h : 65 ≤ c.toNat ∧ c.toNat ≤ 122) :
    isSpace c = false := by
  unfold isSpace
  simp only [Bool.or_eq_false_iff, Bool.and_eq_false_iff, beq_eq_false_iff_ne, ne_eq,
    decide_eq_false_iff_not]
  omega

theorem dropWhile_eq_self {β : Type} (q : β → Bool) (l : List β) (h : ∀ c ∈ l, q c = false) :
    l.dropWhile q = l := by
  cases l with
  | nil => rfl
  | cons x xs => simp [List.dropWhile, h x (List.mem_cons_self _ _)]

theorem dropWhile_eq_self_of_head {β : Type} (q : β → Bool) (l : List β)
    (h : ∀ c ∈ l.head?, q c = false) : l.dropWhile q = l := by
  cases l with
  | nil => rfl
  | cons x xs =>
      have hx : q x = false := h x (by simp)
      simp [List.dropWhile, hx]

theorem trimSpace_eq_self (s : String) (h : ∀ c ∈ s.data, isSpace c = false) :
    trimSpace s = s := by
  unfold trimSpace
  rw [dropWhile_eq_self isSpace s.data h, dropWhile_eq_self isSpace s.data.reverse
    (fun c hc => h c (List.mem_reverse.1 hc)), List.reverse_reverse]

theorem toUpper_ascii (upperTable : Char → Char) (s : String)
    (h : ∀ c ∈ s.data, c.toNat < 128) : toUpper upperTable s = toUpper (fun c => c) s := by
  unfold toUpper
  congr 1
  apply List.map_congr_left
  intro c hc
  simp [toUpperRune, h c hc]

theorem no_space_of_upper_valid (s : String)
    (hs : toUpper (fun c => c) s ∈ validStatuses) : ∀ c ∈ s.data, isSpace c = false := by
  intro c hc
  have hmem : toUpperRune (fun c => c) c ∈ (toUpper (fun c => c) s).data := by
    unfold toUpper
    exact List.mem_map_of_mem _ hc
  have hup := validStatus_chars_upper _ hs _ hmem
  apply isSpace_eq_false_of_letter
  unfold toUpperRune at hup
  split at hup
  · split at hup
    · omega
    · omega
  · dsimp only at hup
    omega

theorem dropWhile_append_of_all {β : Type} (q : β → Bool) (r : List β) :
    ∀ (l : List β), (∀ c ∈ l, q c = true) → (l ++ r).dropWhile q = r.dropWhile q := by
  intro l
  induction l with
  | nil =>
      intro _
      rfl
  | cons x xs ih =>
      intro h
      simp only [List.cons_append, List.dropWhile, h x (List.mem_cons_self _ _)]
      exact ih (fun c hc => h c (List.mem_cons_of_mem _ hc))

theorem dropWhile_of_all {β : Type} (q : β → Bool) (l : List β) (h : ∀ c ∈ l, q c = true) :
    l.dropWhile q = [] := by
  have := dropWhile_append_of_all q [] l h
  simpa using this

theorem dropWhile_append_of_head {β : Type} (q : β → Bool) (l r : List β) (hne : l ≠ [])
    (h : ∀ c ∈ l.head?, q c = false) : (l ++ r).dropWhile q = l ++ r := by
  cases l with
  | nil => exact absurd rfl hne
  | cons x xs =>
      have hx : q x = false := h x (by simp)
      simp [List.dropWhile, hx]

theorem trimSpace_surround (pre core post : String)
    (hpre : ∀ c ∈ pre.data, isSpace c = true) (hpost : ∀ c ∈ post.data, isSpace c = true)
    (hhead : ∀ c ∈ core.data.head?, isSpace c = false)
    (hlast : ∀ c ∈ core.data.getLast?, isSpace c = false) :
    trimSpace (pre ++ core ++ post) = core := by
  unfold trimSpace
  simp only [String.data_append, List.append_assoc]
  rw [dropWhile_append_of_all isSpace _ pre.data hpre]
  by_cases hc : core.data = []
  · rw [hc, List.nil_append, dropWhile_of_all isSpace post.data hpost]
    simp only [List.reverse_nil, List.dropWhile_nil]
    have : core = String.mk core.data := rfl
    rw [this, hc]
  · rw [dropWhile_append_of_head isSpace core.data post.data hc hhead, List.reverse_append,
      dropWhile_append_of_all isSpace _ post.data.reverse
        (fun c hc' => hpost c (List.mem_reverse.1 hc')),
      dropWhile_eq_self_of_head isSpace core.data.reverse
        (by simpa [List.head?_reverse] using hlast),
      List.reverse_reverse]

/-- C14: for a requester with one of the roles `staff`, `admin`, `super_admin` and a decoded
payload, `handleUpdateOrderStatus` answers 400 if and only if the status, trimmed of
surrounding white space and upper-cased, is not one of `PENDING`, `PREPARING`, `READY`,
`COMPLETED`, `CANCELED`; a rejected status leaves the store as it was; an empty or blank
status is rejected; an accepted status leads to the update (answer 200, 404 or 500);
a status written in ASCII whose upper-casing is a member, so a member in any letter
case, is accepted; and when the status is a core surrounded by white space (the core
neither starting nor ending with white space), the answer is 400 if and only if the
upper-cased core is not a member, so the surrounding white space is ignored and white
space inside the core is not. -/
theorem status_accepted_iff_member {α : Type} (env : StatusEnv) (db : Store α)
    (orderID : String) (uid : String) (p : UserProfile α) (pl : UpdateOrderStatusPayload)
    (hp : fetchUserProfile env.profileQueryErr db uid = Except.ok p)
    (hr : privilegedRole p.role) :
    ((handleUpdateOrderStatus env db (some uid) orderID (Except.ok pl)).1.status = 400 ↔
      ¬ (toUpper env.upperTable (trimSpace pl.status) ∈ validStatuses)) ∧
    (¬ (toUpper env.upperTable (trimSpace pl.status) ∈ validStatuses) →
      (handleUpdateOrderStatus env db (some uid) orderID (Except.ok pl)).2 = db) ∧
    (trimSpace pl.status = "" →
      (handleUpdateOrderStatus env db (some uid) orderID (Except.ok pl)).1.status = 400) ∧
    (toUpper env.upperTable (trimSpace pl.status) ∈ validStatuses →
      (handleUpdateOrderStatus env db (some uid) orderID (Except.ok pl)).1.status = 200 ∨
      (handleUpdateOrderStatus env db (some uid) orderID (Except.ok pl)).1.status = 404 ∨
      (handleUpdateOrderStatus env db (some uid) orderID (Except.ok pl)).1.status = 500) ∧
    ((∀ c ∈ pl.status.data, c.toNat < 128) →
      toUpper (fun c => c) pl.status ∈ validStatuses →
      (handleUpdateOrderStatus env db (some uid) orderID (Except.ok pl)).1.status ≠ 400) ∧
    (∀ pre core post : String, pl.status = pre ++ core ++ post →
      (∀ c ∈ pre.data, isSpace c = true) → (∀ c ∈ post.data, isSpace c = true) →
      (∀ c ∈ core.data.head?, isSpace c = false) →
      (∀ c ∈ core.data.getLast?, isSpace c = false) →
      ((handleUpdateOrderStatus env db (some uid) orderID (Except.ok pl)).1.status = 400 ↔
        ¬ (toUpper env.upperTable core ∈ validStatuses))) := by
  have hrej : ¬ (toUpper env.upperTable (trimSpace pl.status) ∈ validStatuses) →
      (handleUpdateOrderStatus env db (some uid) orderID (Except.ok pl)).1.status = 400 ∧
      (handleUpdateOrderStatus env db (some uid) orderID (Except.ok pl)).2 = db := by
    intro hbad
    rw [handleUpdateOrderStatus_privileged env db orderID pl uid p hp hr]
    by_cases he : trimSpace pl.status = ""
    · rw [if_pos he]
      exact ⟨rfl, rfl⟩
    · rw [if_neg he, if_pos hbad]
      exact ⟨rfl, rfl⟩
  have hacc : toUpper env.upperTable (trimSpace pl.status) ∈ validStatuses →
      (handleUpdateOrderStatus env db (some uid) orderID (Except.ok pl)).1.status = 200 ∨
      (handleUpdateOrderStatus env db (some uid) orderID (Except.ok pl)).1.status = 404 ∨
      (handleUpdateOrderStatus env db (some uid) orderID (Except.ok pl)).1.status = 500 := by
    intro hgood
    have he : ¬ trimSpace pl.status = "" := by
      intro he
      rw [he, toUpper_empty] at hgood
      exact empty_not_validStatus hgood
    rw [handleUpdateOrderStatus_privileged env db orderID pl uid p hp hr, if_neg he,
      if_neg (not_not.2 hgood)]
    cases hu : env.updateErr with
    | true => simp [httpError]
    | false =>
        cases hf : db.orders.find? (fun o => o.id == orderID) with
        | none => simp [httpError]
        | some row => simp
  have hne : toUpper env.upperTable (trimSpace pl.status) ∈ validStatuses →
      (handleUpdateOrderStatus env db (some uid) orderID (Except.ok pl)).1.status ≠ 400 := by
    intro hgood
    rcases hacc hgood with h | h | h <;> simp [h]
  refine ⟨⟨?_, fun hbad => (hrej hbad).1⟩, fun hbad => (hrej hbad).2, ?_, hacc, ?_, ?_⟩
  · intro h400 hgood
    exact hne hgood h400
  · intro he
    apply (hrej _).1
    rw [he, toUpper_empty]
    exact empty_not_validStatus
  · intro hascii hup
    apply hne
    rw [trimSpace_eq_self pl.status (no_space_of_upper_valid pl.status hup),
      toUpper_ascii env.upperTable pl.status hascii]
    exact hup
  · intro pre core post hst hpre hpost hhead hlast
    have htrim : trimSpace pl.status = core := by
      rw [hst]
      exact trimSpace_surround pre core post hpre hpost hhead hlast
    constructor
    · intro h400 hgood
      exact hne (by rw [htrim]; exact hgood) h400
    · intro hbad
      exact (hrej (by rw [htrim]; exact hbad)).1

/-- Witness of C14: the attendant `STF` sends the status `Ready`, which is accepted; the
order is stored with the status `READY`.  The status ` ready ` between two spaces, and a
tab, a space and `Ready` followed by carriage return and line feed, are accepted and
stored as `READY` too, while `done`, a blank status and `RE ADY` with a space inside are
answered 400 and nothing is stored. -/
theorem status_accepted_iff_member_witness :
    (handleUpdateOrderStatus statusEnvOK officeStore (some "STF") "order-1"
        (Except.ok { status := "Ready" })).1.status ≠ 400 ∧
      (handleUpdateOrderStatus statusEnvOK officeStore (some "STF") "order-1"
        (Except.ok { status := "Ready" })).2.orders.map (fun o => o.status) =
        ["READY", "READY", "PENDING"] ∧
      (handleUpdateOrderStatus statusEnvOK officeStore (some "STF") "order-1"
        (Except.ok { status := "done" })).1.status = 400 ∧
      ((handleUpdateOrderStatus statusEnvOK officeStore (some "STF") "order-1"
          (Except.ok { status := " ready " })).1.status = 400 ↔
        ¬ (toUpper statusEnvOK.upperTable "ready" ∈ validStatuses)) ∧
      (handleUpdateOrderStatus statusEnvOK officeStore (some "STF") "order-1"
        (Except.ok { status := " ready " })).1.status = 200 ∧
      (handleUpdateOrderStatus statusEnvOK officeStore (some "STF") "order-1"
        (Except.ok { status := " ready " })).2.orders.map (fun o => o.status) =
        ["READY", "READY", "PENDING"] ∧
      (handleUpdateOrderStatus statusEnvOK officeStore (some "STF") "order-1"
        (Except.ok { status := "\t Ready\r\n" })).2.orders.map (fun o => o.status) =
        ["READY", "READY", "PENDING"] ∧
      handleUpdateOrderStatus statusEnvOK officeStore (some "STF") "order-1"
          (Except.ok { status := "   " }) =
        (httpError "Novo status não pode ser vazio." 400, officeStore) ∧
      handleUpdateOrderStatus statusEnvOK officeStore (some "STF") "order-1"
          (Except.ok { status := "RE ADY" }) =
        (httpError "Status 'RE ADY' inválido." 400, officeStore) ∧
      handleUpdateOrderStatus statusEnvOK officeStore (some "STF") "order-1"
          (Except.ok { status := " done " }) =
        (httpError "Status 'done' inválido." 400, officeStore) :=
  ⟨(status_accepted_iff_member statusEnvOK officeStore "order-1" "STF"
      (UserProfile.mk "STF" none none none "staff" 1 1) { status := "Ready" } rfl
      (by decide)).2.2.2.2.1 (by decide) (by decide),
   by decide, by decide,
   (status_accepted_iff_member statusEnvOK officeStore "order-1" "STF"
      (UserProfile.mk "STF" none none none "staff" 1 1) { status := " ready " } rfl
      (by decide)).2.2.2.2.2 " " "ready" " " rfl (by decide) (by decide) (by decide)
      (by decide),
   by decide, by decide, by decide, by decide, by decide, by decide⟩

theorem handleUpdateOrderStatus_cases {α : Type} (env : StatusEnv) (db : Store α)
    (userID : Option String) (orderID : String)
    (payload : Except String UpdateOrderStatusPayload) :
    ((handleUpdateOrderStatus env db userID orderID payload).2 = db ∧
      (handleUpdateOrderStatus env db userID orderID payload).1.status ≠ 200) ∨
    ∃ uid p pl row,
      userID = some uid ∧ fetchUserProfile env.profileQueryErr db uid = Except.ok p ∧
      privilegedRole p.role ∧ payload = Except.ok pl ∧
      toUpper env.upperTable (trimSpace pl.status) ∈ validStatuses ∧
      env.updateErr = false ∧ db.orders.find? (fun o => o.id == orderID) = some row ∧
      (handleUpdateOrderStatus env db userID orderID payload).1.status = 200 ∧
      (handleUpdateOrderStatus env db userID orderID payload).2 =
        { users := db.users, students := db.students, menuItems := db.menuItems,
          orders := updateStatusRows db.orders
            (toUpper env.upperTable (trimSpace pl.status)) env.now orderID,
          orderItems := db.orderItems } := by
  cases userID with
  | none => exact Or.inl ⟨rfl, by simp [handleUpdateOrderStatus, httpError]⟩
  | some uid =>
    cases hp : fetchUserProfile env.profileQueryErr db uid with
    | error e =>
        left
        cases e <;> simp [handleUpdateOrderStatus, hp, httpError]
    | ok p =>
      by_cases hr : privilegedRole p.role
      · cases payload with
        | error e =>
            left
            have hr' : ¬ (p.role ≠ "staff" ∧ p.role ≠ "admin" ∧ p.role ≠ "super_admin") :=
              fun h => (not_privilegedRole_iff p.role).2 h hr
            simp only [handleUpdateOrderStatus, hp]
            rw [if_neg hr']
            exact ⟨rfl, by simp [httpError]⟩
        | ok pl =>
            rw [handleUpdateOrderStatus_privileged env db orderID pl uid p hp hr]
            by_cases he : trimSpace pl.status = ""
            · rw [if_pos he]
              exact Or.inl ⟨rfl, by simp [httpError]⟩
            rw [if_neg he]
            by_cases hv : toUpper env.upperTable (trimSpace pl.status) ∈ validStatuses
            · rw [if_neg (not_not.2 hv)]
              cases hu : env.updateErr with
              | true => exact Or.inl ⟨rfl, by simp [httpError]⟩
              | false =>
                  cases hf : db.orders.find? (fun o => o.id == orderID) with
                  | none => exact Or.inl ⟨rfl, by simp [httpError]⟩
                  | some row =>
                      right
                      exact ⟨uid, p, pl, row, rfl, hp, hr, rfl, hv, rfl, rfl, by simp, by simp⟩
            · rw [if_pos hv]
              exact Or.inl ⟨rfl, by simp [httpError]⟩
      · left
        rw [handleUpdateOrderStatus_forbidden env db orderID payload uid p hp hr]
        exact ⟨rfl, by simp [httpError]⟩

theorem mem_updateStatusRows {α : Type} (orders : List (OrderRow α)) (status : String)
    (now : Time) (orderID : String) (r : OrderRow α)
    (hr : r ∈ updateStatusRows orders status now orderID) :
    (r.id = orderID → r.status = status) ∧ (r.id ≠ orderID → r ∈ orders) := by
  unfold updateStatusRows at hr
  obtain ⟨o, ho, rfl⟩ := List.mem_map.1 hr
  by_cases hid : o.id = orderID
  · simp [hid]
  · simp [hid, ho]

theorem exists_mem_updateStatusRows {α : Type} (orders : List (OrderRow α)) (status : String)
    (now : Time) (orderID : String) (row : OrderRow α) (hrow : row ∈ orders)
    (hid : row.id = orderID) :
    ∃ r ∈ updateStatusRows orders status now orderID, r.id = orderID ∧
      r.userID = row.userID ∧ r.totalAmount = row.totalAmount := by
  refine ⟨{ row with status := status, updatedAt := now }, ?_, hid, rfl, rfl⟩
  unfold updateStatusRows
  refine List.mem_map.2 ⟨row, hrow, ?_⟩
  simp [hid]

/-- C15: for a requester with one of the roles `staff`, `admin`, `super_admin`, a valid
status and an update that does not fail in the store: when no order has the given id the
answer is 404 and the store is unchanged; when an order has the given id the answer is
200 with that order (its id, guardian, date and total), whose returned status, and the
status stored for every order of that id, is the upper-cased trimmed new status. -/
theorem status_update_not_found_or_updated {α : Type} (env : StatusEnv) (db : Store α)
    (orderID : String) (uid : String) (p : UserProfile α) (pl : UpdateOrderStatusPayload)
    (hp : fetchUserProfile env.profileQueryErr db uid = Except.ok p)
    (hr : privilegedRole p.role)
    (hv : toUpper env.upperTable (trimSpace pl.status) ∈ validStatuses)
    (hu : env.updateErr = false) :
    ((∀ o ∈ db.orders, o.id ≠ orderID) →
      handleUpdateOrderStatus env db (some uid) orderID (Except.ok pl) =
        (httpError "Pedido não encontrado para atualização de status." 404, db)) ∧
    ((∃ o ∈ db.orders, o.id = orderID) →
      ∃ o row, row ∈ db.orders ∧ row.id = orderID ∧
        (handleUpdateOrderStatus env db (some uid) orderID (Except.ok pl)).1 =
          { status := 200, body := Body.order o } ∧
        o.id = orderID ∧ o.userID = row.userID ∧ o.orderDate = row.orderDate ∧
        o.totalAmount = row.totalAmount ∧
        o.status = toUpper env.upperTable (trimSpace pl.status) ∧
        (∀ r ∈ (handleUpdateOrderStatus env db (some uid) orderID (Except.ok pl)).2.orders,
          r.id = orderID → r.status = toUpper env.upperTable (trimSpace pl.status)) ∧
        (∃ r ∈ (handleUpdateOrderStatus env db (some uid) orderID (Except.ok pl)).2.orders,
          r.id = orderID ∧ r.userID = row.userID ∧ r.totalAmount = row.totalAmount)) := by
  have he : ¬ trimSpace pl.status = "" := by
    intro he
    rw [he, toUpper_empty] at hv
    exact empty_not_validStatus hv
  rw [handleUpdateOrderStatus_privileged env db orderID pl uid p hp hr, if_neg he,
    if_neg (not_not.2 hv), hu]
  simp only [Bool.false_eq_true, if_false]
  constructor
  · intro hnone
    have hf : db.orders.find? (fun o => o.id == orderID) = none := by
      rw [List.find?_eq_none]
      intro o ho
      simpa using hnone o ho
    rw [hf]
  · intro hex
    cases hf : db.orders.find? (fun o => o.id == orderID) with
    | none =>
        exfalso
        rw [List.find?_eq_none] at hf
        obtain ⟨o, ho, hid⟩ := hex
        exact hf o ho (by simp [hid])
    | some row =>
        have hmem := List.mem_of_find?_eq_some hf
        have hid : row.id = orderID := by simpa using List.find?_some hf
        refine ⟨_, row, hmem, hid, rfl, hid, rfl, rfl, rfl, rfl, ?_, ?_⟩
        · intro r hrmem hrid
          exact (mem_updateStatusRows _ _ _ _ r hrmem).1 hrid
        · exact exists_mem_updateStatusRows _ _ _ _ row hmem hid

/-- Witness of C15: the administrator `ADM` sets `order-1` to ` ready `; the answer is 200 and
the stored status is `READY`; for the unknown `order-9` the answer is 404. -/
theorem status_update_not_found_or_updated_witness :
    handleUpdateOrderStatus statusEnvOK officeStore (some "ADM") "order-9"
        (Except.ok { status := " ready " }) =
      (httpError "Pedido não encontrado para atualização de status." 404, officeStore) ∧
    (handleUpdateOrderStatus statusEnvOK officeStore (some "ADM") "order-1"
        (Except.ok { status := " ready " })).1.status = 200 ∧
    (handleUpdateOrderStatus statusEnvOK officeStore (some "ADM") "order-1"
        (Except.ok { status := " ready " })).2.orders.map (fun o => (o.id, o.status)) =
      [("order-1", "READY"), ("order-2", "READY"), ("order-3", "PENDING")] :=
  ⟨(status_update_not_found_or_updated statusEnvOK officeStore "order-9" "ADM"
      (UserProfile.mk "ADM" none none none "admin" 1 1) { status := " ready " } rfl
      (by decide) (by decide) rfl).1 (by decide),
   by decide, by decide⟩

/-- C16: a call of `handleUpdateOrderStatus` answered 200 leaves the tables `users`,
`students`, `menu_items` and `order_items` as they were, leaves every order of another
id as it was, changes in an order of the given id nothing but `status` and `updated_at`,
and so leaves the lines read for any order as they were. -/
theorem status_update_frame {α : Type} (env : StatusEnv) (db : Store α)
    (userID : Option String) (orderID : String)
    (payload : Except String UpdateOrderStatusPayload)
    (h : (handleUpdateOrderStatus env db userID orderID payload).1.status = 200) :
    (handleUpdateOrderStatus env db userID orderID payload).2.users = db.users ∧
    (handleUpdateOrderStatus env db userID orderID payload).2.students = db.students ∧
    (handleUpdateOrderStatus env db userID orderID payload).2.menuItems = db.menuItems ∧
    (handleUpdateOrderStatus env db userID orderID payload).2.orderItems = db.orderItems ∧
    List.Forall₂
      (fun o o' =>
        (o.id ≠ orderID → o' = o) ∧
          (o.id = orderID →
            o'.id = o.id ∧ o'.userID = o.userID ∧ o'.studentID = o.studentID ∧
              o'.orderDate = o.orderDate ∧ o'.totalAmount = o.totalAmount ∧
              o'.createdAt = o.createdAt))
      db.orders (handleUpdateOrderStatus env db userID orderID payload).2.orders ∧
    ∀ (fenv : FetchEnv) (oid : String),
      fetchOrderItemsByOrderID fenv
          (handleUpdateOrderStatus env db userID orderID payload).2 oid =
        fetchOrderItemsByOrderID fenv db oid := by
  rcases handleUpdateOrderStatus_cases env db userID orderID payload with hfail | hok
  · exact absurd h hfail.2
  · obtain ⟨uid, p, pl, row, -, -, -, -, -, -, -, -, heq⟩ := hok
    rw [heq]
    refine ⟨rfl, rfl, rfl, rfl, ?_, ?_⟩
    · simp only [updateStatusRows]
      rw [List.forall₂_map_right_iff, List.forall₂_same]
      intro o _
      constructor
      · intro hne
        simp [hne]
      · intro hid
        simp [hid]
    · intro fenv oid
      rfl

/-- Witness of C16: the update of `order-1` by the attendant `STF` is answered 200. -/
theorem status_update_frame_witness :
    (handleUpdateOrderStatus statusEnvOK officeStore (some "STF") "order-1"
        (Except.ok { status := "COMPLETED" })).1.status = 200 ∧
      (handleUpdateOrderStatus statusEnvOK officeStore (some "STF") "order-1"
        (Except.ok { status := "COMPLETED" })).2.users = officeStore.users ∧
      (handleUpdateOrderStatus statusEnvOK officeStore (some "STF") "order-1"
        (Except.ok { status := "COMPLETED" })).2.orderItems = officeStore.orderItems :=
  have hw := status_update_frame statusEnvOK officeStore (some "STF") "order-1"
    (Except.ok { status := "COMPLETED" }) (by decide)
  ⟨by decide, hw.1, hw.2.2.2.1⟩

theorem handleCreateOrder_orders {α : Type} [Amount α] (env : Env) (db : Store α)
    (userID : String) (payload : Except String CreateOrderRequest) :
    (handleCreateOrder env db userID payload).2 = db ∨
      ∃ row, row.status = "PENDING" ∧
        (handleCreateOrder env db userID payload).2.orders = db.orders ++ [row] := by
  by_cases h : (handleCreateOrder env db userID payload).1.status = 201
  · right
    obtain ⟨req, st, total, items, credits, inserted, -, -, -, -, -, -, -, -, -, -, -, heq⟩ :=
      handleCreateOrder_created env db userID payload h
    exact ⟨orderRow env userID req.studentID total "PENDING", rfl, by rw [heq]⟩
  · left
    cases payload with
    | error e => simp [handleCreateOrder]
    | ok req =>
      by_cases c1 : req.items.length = 0
      · simp [handleCreateOrder, c1]
      by_cases c2 : req.studentID = ""
      · simp [handleCreateOrder, c1, c2]
      by_cases c3 : hasInvalidItem req.items = true
      · simp [handleCreateOrder, c1, c2, c3]
      exact handleCreateOrder_valid_rollback env db userID req
        (validRequest_of_checks c1 c2 c3) h

theorem orderCall_apply_keeps_statuses {α : Type} [Amount α] (db : Store α) (call : OrderCall)
    (h : ∀ o ∈ db.orders, o.status ∈ validStatuses) :
    ∀ o ∈ (call.apply db).orders, o.status ∈ validStatuses := by
  cases call with
  | create env userID payload =>
      simp only [OrderCall.apply]
      rcases handleCreateOrder_orders env db userID payload with hsame | ⟨row, hrow, hadd⟩
      · rw [hsame]
        exact h
      · rw [hadd]
        intro o ho
        rcases List.mem_append.1 ho with ho | ho
        · exact h o ho
        · rw [List.mem_singleton] at ho
          rw [ho, hrow]
          decide
  | updateStatus env userID orderID payload =>
      simp only [OrderCall.apply]
      rcases handleUpdateOrderStatus_cases env db userID orderID payload with hfail | hok
      · rw [hfail.1]
        exact h
      · obtain ⟨uid, p, pl, row, -, -, -, -, hv, -, -, -, heq⟩ := hok
        rw [heq]
        intro o ho
        by_cases hid : o.id = orderID
        · rw [(mem_updateStatusRows _ _ _ _ o ho).1 hid]
          exact hv
        · exact h o ((mem_updateStatusRows _ _ _ _ o ho).2 hid)

/-- C17: if every order of a store has a status among `PENDING`, `PREPARING`, `READY`,
`COMPLETED`, `CANCELED`, then so has every order of the store reached by any sequence of
calls of `handleCreateOrder` and `handleUpdateOrderStatus`, whatever their arguments and
whatever the store decides during them. -/
theorem status_set_closed {α : Type} [Amount α] (db : Store α) (calls : List OrderCall)
    (h : ∀ o ∈ db.orders, o.status ∈ validStatuses) :
    ∀ o ∈ (runCalls db calls).orders, o.status ∈ validStatuses := by
  induction calls generalizing db with
  | nil => exact h
  | cons call rest ih =>
      simp only [runCalls, List.foldl_cons]
      exact ih (call.apply db) (orderCall_apply_keeps_statuses db call h)

/-- Witness of C17: from the store of the scenarios, a placement and two status updates (one
of them with the unknown status `done`) lead to orders of status `PENDING`, `READY`,
`PENDING` and `PREPARING`. -/
theorem status_set_closed_witness :
    (∀ o ∈ officeStore.orders, o.status ∈ validStatuses) ∧
      (runCalls officeStore officeCalls).orders.map (fun o => (o.id, o.status)) =
        [("order-1", "PENDING"), ("order-2", "READY"), ("order-3", "PENDING"),
         ("order-4", "PREPARING")] ∧
      ∀ o ∈ (runCalls officeStore officeCalls).orders, o.status ∈ validStatuses :=
  ⟨by decide, by decide, status_set_closed officeStore officeCalls (by decide)⟩

end StatusProps

/-! ## Properties of the reads of orders -/

section ReadProps

/-- C18 (the code at the failing input): the user `ADM`, whose role `admin` lets them update
the status of `order-1` (200 from `handleUpdateOrderStatus`) and list the orders (200 from
`handleAdminGetOrders`), is answered 403 by `handleGetOrderByID` for the existing
`order-1`: that handler compares the role with `ADMIN`, `SUPER_ADMIN`, `STAFF` and
`CLIENTE`.  The same holds for the attendant `STF` of role `staff`. -/
theorem admin_role_cannot_read_order :
    privilegedRole "admin" ∧ privilegedRole "staff" ∧
      (∃ o ∈ officeStore.orders, o.id = "order-1") ∧
      (handleUpdateOrderStatus statusEnvOK officeStore (some "ADM") "order-1"
        (Except.ok { status := "PENDING" })).1.status = 200 ∧
      (handleAdminGetOrders listEnvOK officeStore (some "ADM") "").status = 200 ∧
      handleGetOrderByID readEnvOK officeStore (some "ADM") "order-1" =
        httpError "Acesso não autorizado a este pedido." 403 ∧
      handleGetOrderByID readEnvOK officeStore (some "STF") "order-1" =
        httpError "Acesso não autorizado a este pedido." 403 := by
  decide

theorem handleAdminGetOrders_forbidden {α : Type} (env : ListEnv) (db : Store α)
    (uid statusFilter : String) (p : UserProfile α)
    (hp : fetchUserProfile env.profileQueryErr db uid = Except.ok p)
    (hr : ¬ privilegedRole p.role) :
    handleAdminGetOrders env db (some uid) statusFilter =
      httpError "Acesso não autorizado para este recurso." 403 := by
  obtain ⟨h1, h2, h3⟩ := (not_privilegedRole_iff p.role).1 hr
  simp [handleAdminGetOrders, hp, h1, h2, h3]

theorem handleAdminGetOrders_admin {α : Type} (env : ListEnv) (db : Store α)
    (uid statusFilter : String) (p : UserProfile α)
    (hp : fetchUserProfile env.profileQueryErr db uid = Except.ok p)
    (hr : p.role = "admin" ∨ p.role = "super_admin") :
    handleAdminGetOrders env db (some uid) statusFilter =
      if env.queryErr = true then httpError "Erro ao buscar lista de pedidos." 500
      else
        { status := 200,
          body := Body.orders
            (scanOrders env db 0
              (orderByDateDesc (db.orders.filter
                (if statusFilter ≠ "" then (fun o => o.status == statusFilter)
                 else (fun _ => true)))) []) } := by
  have hpriv : decide (p.role = "admin" ∨ p.role = "super_admin") = true := by simpa using hr
  simp only [handleAdminGetOrders, hp, hpriv, Bool.true_or, Bool.not_true, Bool.false_eq_true,
    if_false, if_true]
  by_cases hf : statusFilter = "" <;> simp [hf]

theorem handleAdminGetOrders_staff {α : Type} (env : ListEnv) (db : Store α)
    (uid statusFilter : String) (p : UserProfile α)
    (hp : fetchUserProfile env.profileQueryErr db uid = Except.ok p)
    (hr : p.role = "staff") :
    (∃ os, handleAdminGetOrders env db (some uid) statusFilter =
        { status := 200, body := Body.orders os }) ∨
      (env.queryErr = true ∧
        handleAdminGetOrders env db (some uid) statusFilter =
          httpError "Erro ao buscar lista de pedidos." 500) := by
  have hpriv : decide (p.role = "admin" ∨ p.role = "super_admin") = false := by
    simp [hr]
  simp only [handleAdminGetOrders, hp, hpriv, hr, Bool.false_or, decide_True, Bool.not_true,
    Bool.false_eq_true, if_false, if_true]
  by_cases hf : statusFilter = ""
  · cases hq : env.queryErr with
    | true => simp [hf]
    | false => simp [hf]
  · by_cases hm : statusFilter = "PENDING" ∨ statusFilter = "PREPARING" ∨ statusFilter = "READY"
    · cases hq : env.queryErr with
      | true => simp [hf, hm]
      | false => simp [hf, hm]
    · simp [hf, hm]

/-- C19: for a requester whose profile is found, `handleAdminGetOrders` answers 403 if and
only if the role is none of `admin`, `super_admin` and `staff`, and that answer carries
the refusal text and no order; for these three roles the answer is 200 with a list of
orders, unless the list query fails in the store (500). -/
theorem admin_list_forbidden_iff {α : Type} (env : ListEnv) (db : Store α)
    (uid statusFilter : String) (p : UserProfile α)
    (hp : fetchUserProfile env.profileQueryErr db uid = Except.ok p) :
    ((handleAdminGetOrders env db (some uid) statusFilter).status = 403 ↔
      ¬ privilegedRole p.role) ∧
    (¬ privilegedRole p.role →
      handleAdminGetOrders env db (some uid) statusFilter =
        httpError "Acesso não autorizado para este recurso." 403) ∧
    (privilegedRole p.role →
      (∃ os, handleAdminGetOrders env db (some uid) statusFilter =
          { status := 200, body := Body.orders os }) ∨
        (env.queryErr = true ∧
          handleAdminGetOrders env db (some uid) statusFilter =
            httpError "Erro ao buscar lista de pedidos." 500)) := by
  have hallowed : privilegedRole p.role →
      (∃ os, handleAdminGetOrders env db (some uid) statusFilter =
          { status := 200, body := Body.orders os }) ∨
        (env.queryErr = true ∧
          handleAdminGetOrders env db (some uid) statusFilter =
            httpError "Erro ao buscar lista de pedidos." 500) := by
    intro hr
    rcases hr with h | h | h
    · exact handleAdminGetOrders_staff env db uid statusFilter p hp h
    · rw [handleAdminGetOrders_admin env db uid statusFilter p hp (Or.inl h)]
      cases hq : env.queryErr with
      | true => exact Or.inr ⟨rfl, by simp⟩
      | false =>
          simp only [Bool.false_eq_true, if_false]
          exact Or.inl ⟨_, rfl⟩
    · rw [handleAdminGetOrders_admin env db uid statusFilter p hp (Or.inr h)]
      cases hq : env.queryErr with
      | true => exact Or.inr ⟨rfl, by simp⟩
      | false =>
          simp only [Bool.false_eq_true, if_false]
          exact Or.inl ⟨_, rfl⟩
  refine ⟨⟨?_, ?_⟩, ?_, hallowed⟩
  · intro h403 hr
    rcases hallowed hr with ⟨os, hos⟩ | ⟨_, h500⟩
    · rw [hos] at h403
      simp at h403
    · rw [h500] at h403
      simp [httpError] at h403
  · intro hr
    rw [handleAdminGetOrders_forbidden env db uid statusFilter p hp hr]
    rfl
  · intro hr
    exact handleAdminGetOrders_forbidden env db uid statusFilter p hp hr

/-- Witness of C19: guardian `G` (role `CLIENTE`) is answered 403, the attendant `STF` is
answered the list of the orders that are `PENDING`, `PREPARING` or `READY`. -/
theorem admin_list_forbidden_iff_witness :
    handleAdminGetOrders listEnvOK officeStore (some "G") "" =
        httpError "Acesso não autorizado para este recurso." 403 ∧
      (handleAdminGetOrders listEnvOK officeStore (some "STF") "").status = 200 ∧
      listedIDs (handleAdminGetOrders listEnvOK officeStore (some "STF") "") =
        ["order-2", "order-3", "order-1"] :=
  ⟨(admin_list_forbidden_iff listEnvOK officeStore "G" ""
      (UserProfile.mk "G" none none (some (Float64.finite 13 (-1))) "CLIENTE" 1 1) rfl).2.1
      (by decide),
   by decide, by decide⟩

theorem scanOrders_all {α : Type} (env : ListEnv) (db : Store α)
    (hs : ∀ k, env.scanErr k = false) :
    ∀ (rows : List (OrderRow α)) (k : Nat) (acc : List (Order α)),
      ∃ suffix, scanOrders env db k rows acc = acc ++ suffix ∧
        List.Forall₂ (fun row o => ∃ items, o = scanOrder row items) rows suffix := by
  intro rows
  induction rows with
  | nil =>
      intro k acc
      exact ⟨[], by simp [scanOrders], List.Forall₂.nil⟩
  | cons row rest ih =>
      intro k acc
      obtain ⟨suffix, heq, hf⟩ := ih (k + 1)
        (acc ++ [scanOrder row (itemsOrEmpty (env.items k) db row.id)])
      refine ⟨scanOrder row (itemsOrEmpty (env.items k) db row.id) :: suffix, ?_,
        List.Forall₂.cons ⟨_, rfl⟩ hf⟩
      simp only [scanOrders, hs k, Bool.false_eq_true, if_false]
      rw [heq]
      simp

theorem orderByDateDesc_perm {α : Type} (rows : List (OrderRow α)) :
    (orderByDateDesc rows).Perm rows :=
  List.perm_insertionSort _ rows

theorem orderByDateDesc_sorted {α : Type} (rows : List (OrderRow α)) :
    (orderByDateDesc rows).Sorted (fun a b => b.orderDate ≤ a.orderDate) := by
  haveI : IsTotal (OrderRow α) (fun a b => b.orderDate ≤ a.orderDate) :=
    ⟨fun a b => Nat.le_total b.orderDate a.orderDate⟩
  haveI : IsTrans (OrderRow α) (fun a b => b.orderDate ≤ a.orderDate) :=
    ⟨fun _ _ _ hab hbc => Nat.le_trans hbc hab⟩
  exact List.sorted_insertionSort _ rows

/-- C20: for a requester of role `admin` or `super_admin`, when the list query and the scans
of its rows succeed, `handleAdminGetOrders` answers 200 with one order per selected row,
in the order of the rows, where the selected rows are all the rows of `orders` when no
status parameter is given and exactly the rows whose status equals the parameter
otherwise, arranged by `order_date` from newest to oldest. -/
theorem admin_list_filtered_sorted {α : Type} (env : ListEnv) (db : Store α)
    (uid statusFilter : String) (p : UserProfile α)
    (hp : fetchUserProfile env.profileQueryErr db uid = Except.ok p)
    (hr : p.role = "admin" ∨ p.role = "super_admin")
    (hq : env.queryErr = false) (hs : ∀ k, env.scanErr k = false) :
    ∃ os rows,
      handleAdminGetOrders env db (some uid) statusFilter =
        { status := 200, body := Body.orders os } ∧
      (statusFilter = "" → rows.Perm db.orders) ∧
      (statusFilter ≠ "" →
        rows.Perm (db.orders.filter (fun o => decide (o.status = statusFilter)))) ∧
      rows.Sorted (fun a b => b.orderDate ≤ a.orderDate) ∧
      List.Forall₂
        (fun row o =>
          o.id = row.id ∧ o.userID = row.userID ∧ o.orderDate = row.orderDate ∧
            o.totalAmount = row.totalAmount ∧ o.status = row.status ∧
            o.createdAt = row.createdAt ∧ o.updatedAt = row.updatedAt)
        rows os := by
  obtain ⟨suffix, heq, hf⟩ := scanOrders_all env db hs
    (orderByDateDesc (db.orders.filter
      (if statusFilter ≠ "" then (fun o => o.status == statusFilter) else (fun _ => true))))
    0 []
  refine ⟨suffix,
    orderByDateDesc (db.orders.filter
      (if statusFilter ≠ "" then (fun o => o.status == statusFilter) else (fun _ => true))),
    ?_, ?_, ?_, orderByDateDesc_sorted _, ?_⟩
  · rw [handleAdminGetOrders_admin env db uid statusFilter p hp hr, hq, heq]
    simp
  · intro hf0
    refine (orderByDateDesc_perm _).trans ?_
    simp [hf0]
  · intro hf0
    refine (orderByDateDesc_perm _).trans ?_
    rw [if_pos hf0]
    apply List.Perm.of_eq
    apply List.filter_congr
    intro o _
    rfl
  · refine List.Forall₂.imp ?_ hf
    intro row o ho
    obtain ⟨items, rfl⟩ := ho
    exact ⟨rfl, rfl, rfl, rfl, rfl, rfl, rfl⟩

/-- Witness of C20: the administrator `ADM` lists the orders: all three without filter,
newest first, and the two `PENDING` ones with the filter `PENDING`. -/
theorem admin_list_filtered_sorted_witness :
    listedIDs (handleAdminGetOrders listEnvOK officeStore (some "ADM") "") =
        ["order-2", "order-3", "order-1"] ∧
      listedIDs (handleAdminGetOrders listEnvOK officeStore (some "ADM") "PENDING") =
        ["order-3", "order-1"] ∧
      ∃ os rows,
        handleAdminGetOrders listEnvOK officeStore (some "ADM") "PENDING" =
          { status := 200, body := Body.orders os } ∧
        (("PENDING" : String) = "" → rows.Perm officeStore.orders) ∧
        (("PENDING" : String) ≠ "" →
          rows.Perm (officeStore.orders.filter (fun o => decide (o.status = "PENDING")))) ∧
        rows.Sorted (fun a b => b.orderDate ≤ a.orderDate) ∧
        List.Forall₂
          (fun row o =>
            o.id = row.id ∧ o.userID = row.userID ∧ o.orderDate = row.orderDate ∧
              o.totalAmount = row.totalAmount ∧ o.status = row.status ∧
              o.createdAt = row.createdAt ∧ o.updatedAt = row.updatedAt)
          rows os :=
  ⟨by decide, by decide,
   admin_list_filtered_sorted listEnvOK officeStore "ADM" "PENDING"
     (UserProfile.mk "ADM" none none none "admin" 1 1) rfl (by decide) rfl (fun _ => rfl)⟩

end ReadProps

/-! ## The orders of the authenticated user -/

section MyOrdersProps

theorem forall₂_exists_left {β γ : Type} {R : β → γ → Prop} :
    ∀ {l1 : List β} {l2 : List γ}, List.Forall₂ R l1 l2 → ∀ y ∈ l2, ∃ x ∈ l1, R x y := by
  intro l1 l2 h
  induction h with
  | nil =>
      intro y hy
      exact absurd hy (List.not_mem_nil y)
  | cons hr _ ih =>
      intro y hy
      rcases List.mem_cons.1 hy with rfl | hy
      · exact ⟨_, List.mem_cons_self _ _, hr⟩
      · obtain ⟨x, hx, hxy⟩ := ih y hy
        exact ⟨x, List.mem_cons_of_mem _ hx, hxy⟩

theorem scanMyOrders_some {α : Type} (env : MyOrdersEnv) (db : Store α) :
    ∀ (rows : List (OrderRow α)) (k : Nat) (acc res : List (Order α)),
      scanMyOrders env db k rows acc = some res →
      ∃ suffix, res = acc ++ suffix ∧
        List.Forall₂ (fun row o => ∃ items, o = scanOrder row items) rows suffix := by
  intro rows
  induction rows with
  | nil =>
      intro k acc res h
      simp only [scanMyOrders, Option.some.injEq] at h
      exact ⟨[], by simp [h], List.Forall₂.nil⟩
  | cons row rest ih =>
      intro k acc res h
      simp only [scanMyOrders] at h
      split at h
      · cases h
      · obtain ⟨suffix, heq, hf⟩ := ih _ _ _ h
        exact ⟨scanOrder row (itemsOrEmpty (env.items k) db row.id) :: suffix,
          by simp [heq], List.Forall₂.cons ⟨_, rfl⟩ hf⟩

theorem scanMyOrders_isSome {α : Type} (env : MyOrdersEnv) (db : Store α)
    (hs : ∀ k, env.scanErr k = false) :
    ∀ (rows : List (OrderRow α)) (k : Nat) (acc : List (Order α)),
      ∃ res, scanMyOrders env db k rows acc = some res := by
  intro rows
  induction rows with
  | nil =>
      intro k acc
      exact ⟨acc, rfl⟩
  | cons row rest ih =>
      intro k acc
      simp only [scanMyOrders, hs k, Bool.false_eq_true, if_false]
      exact ih _ _

/-- C21: whatever the store decides, a list answered by `handleGetMyOrders` to the
authenticated user `uid` holds one order per row of `orders` whose `user_id` is `uid`
(each such row once, no other row), from the newest `order_date` to the oldest, so every
listed order belongs to `uid`; and when no statement fails the handler does answer 200
with such a list. -/
theorem my_orders_exactly_own_newest_first {α : Type} (env : MyOrdersEnv) (db : Store α)
    (uid : String) :
    (∀ os, handleGetMyOrders env db (some uid) = { status := 200, body := Body.orders os } →
      (∀ o ∈ os, o.userID = uid) ∧
      ∃ rows,
        rows.Perm (db.orders.filter (fun o => decide (o.userID = uid))) ∧
        rows.Sorted (fun a b => b.orderDate ≤ a.orderDate) ∧
        List.Forall₂
          (fun row o =>
            o.id = row.id ∧ o.userID = row.userID ∧ o.orderDate = row.orderDate ∧
              o.totalAmount = row.totalAmount ∧ o.status = row.status ∧
              o.createdAt = row.createdAt ∧ o.updatedAt = row.updatedAt)
          rows os) ∧
    (uid ≠ "" → env.queryErr = false → (∀ k, env.scanErr k = false) → env.rowsErr = false →
      ∃ os, handleGetMyOrders env db (some uid) = { status := 200, body := Body.orders os }) := by
  have hfilter : db.orders.filter (fun o => o.userID == uid) =
      db.orders.filter (fun o => decide (o.userID = uid)) := by
    apply List.filter_congr
    intro o _
    rfl
  constructor
  · intro os h
    simp only [handleGetMyOrders] at h
    by_cases hu : uid = ""
    · simp [hu, httpError] at h
    by_cases hq : env.queryErr = true
    · simp [hu, hq, httpError] at h
    cases hscan : scanMyOrders env db 0
        (orderByDateDesc (db.orders.filter (fun o => o.userID == uid))) [] with
    | none => simp [hu, hq, hscan, httpError] at h
    | some userOrders =>
      by_cases hr : env.rowsErr = true
      · simp [hu, hq, hscan, hr, httpError] at h
      · simp only [hu, hq, hscan, hr, if_false, Bool.false_eq_true, Response.mk.injEq,
          Body.orders.injEq, true_and] at h
        subst h
        obtain ⟨suffix, heq, hf⟩ := scanMyOrders_some env db _ _ _ _ hscan
        simp only [List.nil_append] at heq
        subst heq
        have hrows : List.Forall₂
            (fun row o =>
              o.id = row.id ∧ o.userID = row.userID ∧ o.orderDate = row.orderDate ∧
                o.totalAmount = row.totalAmount ∧ o.status = row.status ∧
                o.createdAt = row.createdAt ∧ o.updatedAt = row.updatedAt)
            (orderByDateDesc (db.orders.filter (fun o => o.userID == uid))) userOrders := by
          refine List.Forall₂.imp ?_ hf
          intro row o ho
          obtain ⟨items, rfl⟩ := ho
          exact ⟨rfl, rfl, rfl, rfl, rfl, rfl, rfl⟩
        have hperm := orderByDateDesc_perm (db.orders.filter (fun o => o.userID == uid))
        refine ⟨?_, _, hfilter ▸ hperm, orderByDateDesc_sorted _, hrows⟩
        intro o ho
        obtain ⟨row, hrow, hro⟩ := forall₂_exists_left hrows o ho
        have hmem := (hperm.mem_iff).1 hrow
        rw [List.mem_filter] at hmem
        rw [hro.2.1]
        simpa using hmem.2
  · intro hu hq hs hr
    obtain ⟨res, hres⟩ := scanMyOrders_isSome env db hs
      (orderByDateDesc (db.orders.filter (fun o => o.userID == uid))) 0 []
    exact ⟨res, by simp [handleGetMyOrders, hu, hq, hres, hr]⟩

/-- Witness of C21: the guardian `H` is answered the orders `order-2` and `order-3`, newest
first, and not `order-1` of `G`. -/
theorem my_orders_exactly_own_newest_first_witness :
    listedIDs (handleGetMyOrders myOrdersEnvOK officeStore (some "H")) =
        ["order-2", "order-3"] ∧
      ∃ os, handleGetMyOrders myOrdersEnvOK officeStore (some "H") =
        { status := 200, body := Body.orders os } :=
  ⟨by decide,
   (my_orders_exactly_own_newest_first myOrdersEnvOK officeStore "H").2 (by decide) rfl
     (fun _ => rfl) rfl⟩

end MyOrdersProps

/-! ## Authentication -/

section AuthProps

theorem authMiddleware_pass {β : Type} (env : AuthEnv) (authHeader uid : String)
    (hs : env.jwtSecret ≠ "") (ha : Authenticates env authHeader uid)
    (deny : String → Nat → β) (next : Option String → β) :
    authMiddleware env authHeader deny next = next (some uid) := by
  obtain ⟨scheme, tokenString, hsplit, hlow, h1, h2, h3, h4, h5⟩ := ha
  have hne : authHeader ≠ "" := by
    intro h0
    rw [h0] at hsplit
    simp [splitOnSpace, splitAux] at hsplit
  simp [authMiddleware, hs, hne, hsplit, hlow, h1, h2, h3, h4, h5]

theorem authMiddleware_cases (env : AuthEnv) (authHeader : String) :
    (∃ uid, env.jwtSecret ≠ "" ∧ Authenticates env authHeader uid) ∨
      (∃ msg code, (code = 401 ∨ code = 500) ∧ (code = 500 ↔ env.jwtSecret = "") ∧
        ∀ (β : Type) (deny : String → Nat → β) (next : Option String → β),
          authMiddleware env authHeader deny next = deny msg code) := by
  by_cases hs : env.jwtSecret = ""
  · exact Or.inr ⟨"Configuração do servidor incompleta", 500, Or.inr rfl, by simp [hs], fun β deny next => by
      simp [authMiddleware, hs]⟩
  by_cases hh : authHeader = ""
  · exact Or.inr ⟨"Cabeçalho de autorização ausente", 401, Or.inl rfl, by simp [hs], fun β deny next => by
      simp [authMiddleware, hs, hh]⟩
  by_cases hp : (splitOnSpace authHeader).length ≠ 2 ∨
      toLower env.lowerTable ((splitOnSpace authHeader).getD 0 "") ≠ "bearer"
  · exact Or.inr ⟨"Formato do cabeçalho de autorização inválido (esperado: Bearer <token>)", 401, Or.inl rfl, by simp [hs], fun β deny next => by
      simp only [authMiddleware, hs, hh, if_false, hp, if_true]⟩
  have hlen : (splitOnSpace authHeader).length = 2 := by
    by_contra hl
    exact hp (Or.inl hl)
  have hlow : toLower env.lowerTable ((splitOnSpace authHeader).getD 0 "") = "bearer" := by
    by_contra hl
    exact hp (Or.inr hl)
  obtain ⟨scheme, tokenString, hsplit⟩ : ∃ a b, splitOnSpace authHeader = [a, b] := by
    match hm : splitOnSpace authHeader, hlen with
    | [a, b], _ => exact ⟨a, b, rfl⟩
  rw [hsplit] at hlow
  simp only [List.getD_cons_zero] at hlow
  by_cases he : (env.parse env.jwtSecret tokenString).parseErr = true
  · exact Or.inr ⟨"Token inválido ou expirado", 401, Or.inl rfl, by simp [hs], fun β deny next => by
      simp [authMiddleware, hs, hh, hsplit, hlow, he]⟩
  by_cases hv : ((env.parse env.jwtSecret tokenString).claimsAreMap &&
      (env.parse env.jwtSecret tokenString).valid) = true
  · cases hsub : (env.parse env.jwtSecret tokenString).sub with
    | none =>
        exact Or.inr ⟨"Token inválido (sem ID de usuário)", 401, Or.inl rfl, by simp [hs], fun β deny next => by
          simp [authMiddleware, hs, hh, hsplit, hlow, he, hv, hsub]⟩
    | some uid =>
        by_cases hu : uid = ""
        · exact Or.inr ⟨"Token inválido (sem ID de usuário)", 401, Or.inl rfl, by simp [hs], fun β deny next => by
            simp [authMiddleware, hs, hh, hsplit, hlow, he, hv, hsub, hu]⟩
        · simp only [Bool.and_eq_true] at hv
          exact Or.inl ⟨uid, hs, scheme, tokenString, hsplit, hlow, by simpa using he,
            hv.1, hv.2, hsub, hu⟩
  · exact Or.inr ⟨"Token inválido", 401, Or.inl rfl, by simp [hs], fun β deny next => by
      simp [authMiddleware, hs, hh, hsplit, hlow, he, hv]⟩

theorem authMiddleware_denied (env : AuthEnv) (authHeader : String)
    (hn : ¬ ∃ uid, env.jwtSecret ≠ "" ∧ Authenticates env authHeader uid) :
    ∃ msg code, (code = 401 ∨ code = 500) ∧ (code = 500 ↔ env.jwtSecret = "") ∧
      ∀ (β : Type) (deny : String → Nat → β) (next : Option String → β),
        authMiddleware env authHeader deny next = deny msg code := by
  rcases authMiddleware_cases env authHeader with h | h
  · exact absurd h hn
  · exact h

theorem authMiddleware_wrap {β : Type} (env : AuthEnv) (authHeader : String)
    (deny : String → Nat → β) (next : Option String → β) :
    (∃ msg code, (code = 401 ∨ code = 500) ∧
        authMiddleware env authHeader deny next = deny msg code) ∨
      (∃ uid, uid ≠ "" ∧ Authenticates env authHeader uid ∧
        authMiddleware env authHeader deny next = next (some uid)) := by
  rcases authMiddleware_cases env authHeader with ⟨uid, hs, ha⟩ | ⟨msg, code, hc, _, h⟩
  · have hu : uid ≠ "" := by
      obtain ⟨_, _, _, _, _, _, _, _, hu⟩ := ha
      exact hu
    exact Or.inr ⟨uid, hu, ha, authMiddleware_pass env authHeader uid hs ha deny next⟩
  · exact Or.inl ⟨msg, code, hc, h β deny next⟩

/-- C27: `authMiddleware` runs the wrapped handler exactly when the secret is configured
and the header authenticates a user (two parts separated by one space, `bearer` in any
letter case, a token that verifies, a non-empty string claim `sub`), and then on a context
that holds that user id; otherwise it answers 401, or 500 when the secret is empty, with a
response that does not depend on the wrapped handler.  Hence at every call site
(`/orders`, `ordersRouterHandler`, `studentRouterHandler`) the wrapped handlers, among them
`handleCreateOrder`, `handleCreateStudent` and `handleGetMyStudents` with their unchecked
assertion, only ever run on a context holding a non-empty user id. -/
theorem auth_runs_handler_only_with_subject (env : AuthEnv) (authHeader : String) :
    ((∃ uid, (env.jwtSecret ≠ "" ∧ Authenticates env authHeader uid) ∧
        ∀ (β : Type) (deny : String → Nat → β) (next : Option String → β),
          authMiddleware env authHeader deny next = next (some uid)) ∨
      ((¬ ∃ uid, env.jwtSecret ≠ "" ∧ Authenticates env authHeader uid) ∧
        ∃ msg code, (code = 401 ∨ code = 500) ∧ (code = 500 ↔ env.jwtSecret = "") ∧
          ∀ (β : Type) (deny : String → Nat → β) (next : Option String → β),
            authMiddleware env authHeader deny next = deny msg code)) ∧
    (∀ (α : Type) [Amount α] (senv : ServerEnv) (db : Store α) (r : Request),
      (∃ msg code, (code = 401 ∨ code = 500 ∨ code = 405) ∧
          ordersHandler senv db r = (httpError msg code, db)) ∨
        ∃ uid, uid ≠ "" ∧ Authenticates senv.auth r.authorization uid ∧
          ordersHandler senv db r = handleCreateOrder senv.create db uid r.orderPayload) ∧
    (∀ (α : Type) [Amount α] (senv : ServerEnv) (db : Store α) (r : Request),
      (∃ msg code, (code = 401 ∨ code = 500 ∨ code = 405) ∧
          ordersRouterHandler senv db r = (httpError msg code, db)) ∨
        ∃ uid orderID, uid ≠ "" ∧ Authenticates senv.auth r.authorization uid ∧
          (ordersRouterHandler senv db r =
              (handleAdminGetOrders senv.list db (some uid) r.statusFilter, db) ∨
            ordersRouterHandler senv db r =
              handleCreateOrder senv.create db uid r.orderPayload ∨
            ordersRouterHandler senv db r =
              (handleGetOrderByID senv.read db (some uid) orderID, db) ∨
            ordersRouterHandler senv db r =
              handleUpdateOrderStatus senv.status db (some uid) orderID r.statusPayload)) ∧
    (∀ (β : Type) (method path : String) (deny : String → Nat → β)
        (createStudent getMyStudents : Option String → β),
      (∃ msg code, (code = 401 ∨ code = 500 ∨ code = 405) ∧
          studentRouterHandler env method path authHeader deny createStudent getMyStudents =
            deny msg code) ∨
        ∃ uid, uid ≠ "" ∧ Authenticates env authHeader uid ∧
          (studentRouterHandler env method path authHeader deny createStudent getMyStudents =
              createStudent (some uid) ∨
            studentRouterHandler env method path authHeader deny createStudent getMyStudents =
              getMyStudents (some uid))) := by
  refine ⟨?_, ?_, ?_, ?_⟩
  · by_cases h : ∃ uid, env.jwtSecret ≠ "" ∧ Authenticates env authHeader uid
    · obtain ⟨uid, hs, ha⟩ := h
      exact Or.inl ⟨uid, ⟨hs, ha⟩, fun β deny next =>
        authMiddleware_pass env authHeader uid hs ha deny next⟩
    · exact Or.inr ⟨h, authMiddleware_denied env authHeader h⟩
  · intro α _ senv db r
    unfold ordersHandler
    split
    · rcases authMiddleware_wrap senv.auth r.authorization
          (fun msg code => (httpError msg code, db))
          (fun ctx => handleCreateOrderCtx senv.create db ctx r.orderPayload) with
        ⟨msg, code, hc, h⟩ | ⟨uid, hu, ha, h⟩
      · exact Or.inl ⟨msg, code, by omega, h⟩
      · exact Or.inr ⟨uid, hu, ha, h⟩
    · exact Or.inl ⟨_, 405, by omega, rfl⟩
  · intro α _ senv db r
    unfold ordersRouterHandler
    dsimp only
    split
    · split
      · rcases authMiddleware_wrap senv.auth r.authorization
            (fun msg code => (httpError msg code, db))
            (fun ctx => (handleAdminGetOrders senv.list db ctx r.statusFilter, db)) with
          ⟨msg, code, hc, h⟩ | ⟨uid, hu, ha, h⟩
        · exact Or.inl ⟨msg, code, by omega, h⟩
        · exact Or.inr ⟨uid, "", hu, ha, Or.inl h⟩
      · split
        · rcases authMiddleware_wrap senv.auth r.authorization
              (fun msg code => (httpError msg code, db))
              (fun ctx => handleCreateOrderCtx senv.create db ctx r.orderPayload) with
            ⟨msg, code, hc, h⟩ | ⟨uid, hu, ha, h⟩
          · exact Or.inl ⟨msg, code, by omega, h⟩
          · exact Or.inr ⟨uid, "", hu, ha, Or.inr (Or.inl h)⟩
        · exact Or.inl ⟨_, 405, by omega, rfl⟩
    · split
      · rcases authMiddleware_wrap senv.auth r.authorization
            (fun msg code => (httpError msg code, db))
            (fun ctx => (handleGetOrderByID senv.read db ctx
              (trimSlashes (trimPrefixStr r.path "/orders/")), db)) with
          ⟨msg, code, hc, h⟩ | ⟨uid, hu, ha, h⟩
        · exact Or.inl ⟨msg, code, by omega, h⟩
        · exact Or.inr ⟨uid, _, hu, ha, Or.inr (Or.inr (Or.inl h))⟩
      · split
        · rcases authMiddleware_wrap senv.auth r.authorization
              (fun msg code => (httpError msg code, db))
              (fun ctx => handleUpdateOrderStatus senv.status db ctx
                (trimSlashes (trimPrefixStr r.path "/orders/")) r.statusPayload) with
            ⟨msg, code, hc, h⟩ | ⟨uid, hu, ha, h⟩
          · exact Or.inl ⟨msg, code, by omega, h⟩
          · exact Or.inr ⟨uid, _, hu, ha, Or.inr (Or.inr (Or.inr h))⟩
        · exact Or.inl ⟨_, 405, by omega, rfl⟩
  · intro β method path deny createStudent getMyStudents
    unfold studentRouterHandler
    dsimp only
    split
    · split
      · rcases authMiddleware_wrap env authHeader deny getMyStudents with
          ⟨msg, code, hc, h⟩ | ⟨uid, hu, ha, h⟩
        · exact Or.inl ⟨msg, code, by omega, h⟩
        · exact Or.inr ⟨uid, hu, ha, Or.inr h⟩
      · exact Or.inl ⟨_, 405, by omega, rfl⟩
    · split
      · split
        · rcases authMiddleware_wrap env authHeader deny createStudent with
            ⟨msg, code, hc, h⟩ | ⟨uid, hu, ha, h⟩
          · exact Or.inl ⟨msg, code, by omega, h⟩
          · exact Or.inr ⟨uid, hu, ha, Or.inl h⟩
        · exact Or.inl ⟨_, 405, by omega, rfl⟩
      · exact Or.inl ⟨_, 405, by omega, rfl⟩

/-- Witness of C27: the header `bEaReR token-G` lets the request of `G` through, while a
header with two spaces, an unknown token, a token with an empty subject or an empty secret
are answered 401 or 500 without running the handler. -/
theorem auth_runs_handler_only_with_subject_witness :
    authMiddleware authEnvOK "bEaReR token-G" (fun msg code => (msg, code))
        (fun ctx => (ctx.getD "nil", 200)) = ("G", 200) ∧
      authMiddleware authEnvOK "Bearer  token-G" (fun msg code => (msg, code))
        (fun ctx => (ctx.getD "nil", 200)) =
        ("Formato do cabeçalho de autorização inválido (esperado: Bearer <token>)", 401) ∧
      authMiddleware authEnvOK "Bearer token-Z" (fun msg code => (msg, code))
        (fun ctx => (ctx.getD "nil", 200)) = ("Token inválido ou expirado", 401) ∧
      authMiddleware authEnvOK "Bearer token-empty" (fun msg code => (msg, code))
        (fun ctx => (ctx.getD "nil", 200)) = ("Token inválido (sem ID de usuário)", 401) ∧
      authMiddleware { authEnvOK with jwtSecret := "" } "Bearer token-G"
        (fun msg code => (msg, code)) (fun ctx => (ctx.getD "nil", 200)) =
        ("Configuração do servidor incompleta", 500) ∧
      ((∃ uid, (authEnvOK.jwtSecret ≠ "" ∧ Authenticates authEnvOK "bEaReR token-G" uid) ∧
          ∀ (β : Type) (deny : String → Nat → β) (next : Option String → β),
            authMiddleware authEnvOK "bEaReR token-G" deny next = next (some uid)) ∨
        ((¬ ∃ uid, authEnvOK.jwtSecret ≠ "" ∧ Authenticates authEnvOK "bEaReR token-G" uid) ∧
          ∃ msg code, (code = 401 ∨ code = 500) ∧ (code = 500 ↔ authEnvOK.jwtSecret = "") ∧
            ∀ (β : Type) (deny : String → Nat → β) (next : Option String → β),
              authMiddleware authEnvOK "bEaReR token-G" deny next = deny msg code)) :=
  ⟨by decide, by decide, by decide, by decide, by decide,
   (auth_runs_handler_only_with_subject authEnvOK "bEaReR token-G").1⟩

end AuthProps

/-! ## Routing of the order paths -/

section RoutingProps

theorem trimPrefixStr_append (pre id : String) : trimPrefixStr (pre ++ id) pre = id := by
  have hpre : pre.data.isPrefixOf (pre.data ++ id.data) = true :=
    List.isPrefixOf_iff_prefix.2 (List.prefix_append _ _)
  simp [trimPrefixStr, String.data_append, hpre]

/-- C22, as stated, fails: the administrator `ADM`, authenticated by a token that verifies,
sends `GET /orders`; the list handler would answer 200 with the three orders, but the
server selects the handler of the pattern `/orders`, which answers 405. -/
theorem get_orders_without_slash_not_allowed :
    Authenticates authEnvOK "Bearer token-ADM" "ADM" ∧
      fetchUserProfile false officeStore "ADM" =
        Except.ok (UserProfile.mk "ADM" none none none "admin" 1 1) ∧
      listedIDs (handleAdminGetOrders listEnvOK officeStore (some "ADM") "") =
        ["order-2", "order-3", "order-1"] ∧
      selectPattern "/orders" = "/orders" ∧
      serveHTTP serverEnvOK officeStore (plainRequest "GET" "/orders" "Bearer token-ADM") =
        some (httpError "Método não permitido para /orders. Use POST para criar." 405,
          officeStore) :=
  ⟨⟨"Bearer", "token-ADM", by decide, by decide, by decide, by decide, by decide, by decide,
      by decide⟩,
   rfl, by decide, by decide, by decide⟩

/-- C22, amended: a `GET` request to the path `/orders/`, with the trailing slash, from an
authenticated user whose role is `staff`, `admin` or `super_admin` is routed to
`handleAdminGetOrders` and, when the list query succeeds, answered 200 with a list of
orders; a `GET` request to the path `/orders` is answered 405 by the handler of that
pattern. -/
theorem get_orders_slash_lists {α : Type} [Amount α] (senv : ServerEnv) (db : Store α)
    (r : Request) (uid : String) (p : UserProfile α)
    (hm : r.method = "GET") (hs : senv.auth.jwtSecret ≠ "")
    (ha : Authenticates senv.auth r.authorization uid)
    (hp : fetchUserProfile senv.list.profileQueryErr db uid = Except.ok p)
    (hr : privilegedRole p.role) :
    (r.path = "/orders/" →
      serveHTTP senv db r =
          some (handleAdminGetOrders senv.list db (some uid) r.statusFilter, db) ∧
        (senv.list.queryErr = false →
          ∃ os, handleAdminGetOrders senv.list db (some uid) r.statusFilter =
            { status := 200, body := Body.orders os })) ∧
    (r.path = "/orders" →
      serveHTTP senv db r =
        some (httpError "Método não permitido para /orders. Use POST para criar." 405,
          db)) := by
  constructor
  · intro hpath
    constructor
    · have h1 : plainPath "/orders/" = true := by decide
      have h2 : selectPattern "/orders/" = "/orders/" := by decide
      have h3 : trimSlashes (trimPrefixStr "/orders/" "/orders/") = "" := by decide
      simp only [serveHTTP, hm, hpath, h1, h2, ordersRouterHandler, h3]
      simp only [authMiddleware_pass senv.auth r.authorization uid hs ha]
      simp
    · intro hq
      rcases hr with hr | hr | hr
      · rcases handleAdminGetOrders_staff senv.list db uid r.statusFilter p hp hr with
          h | ⟨hq2, _⟩
        · exact h
        · rw [hq] at hq2
          cases hq2
      · rw [handleAdminGetOrders_admin senv.list db uid r.statusFilter p hp (Or.inl hr), hq]
        simp only [Bool.false_eq_true, if_false]
        exact ⟨_, rfl⟩
      · rw [handleAdminGetOrders_admin senv.list db uid r.statusFilter p hp (Or.inr hr), hq]
        simp only [Bool.false_eq_true, if_false]
        exact ⟨_, rfl⟩
  · intro hpath
    have h1 : plainPath "/orders" = true := by decide
    have h2 : selectPattern "/orders" = "/orders" := by decide
    simp [serveHTTP, hm, hpath, h1, h2, ordersHandler]

/-- Witness of C22 as amended: `GET /orders/` from the administrator `ADM` lists the three
orders, newest first. -/
theorem get_orders_slash_lists_witness :
    (serveHTTP serverEnvOK officeStore
        (plainRequest "GET" "/orders/" "Bearer token-ADM")).map (fun x => listedIDs x.1) =
        some ["order-2", "order-3", "order-1"] ∧
      (serveHTTP serverEnvOK officeStore (plainRequest "GET" "/orders/" "Bearer token-ADM") =
        some (handleAdminGetOrders listEnvOK officeStore (some "ADM") "", officeStore)) :=
  ⟨by decide,
   ((get_orders_slash_lists serverEnvOK officeStore
      (plainRequest "GET" "/orders/" "Bearer token-ADM") "ADM"
      (UserProfile.mk "ADM" none none none "admin" 1 1) rfl (by decide)
      ⟨"Bearer", "token-ADM", by decide, by decide, by decide, by decide, by decide,
        by decide, by decide⟩
      rfl (Or.inr (Or.inl rfl))).1 rfl).1⟩

/-- C23: on a path `/orders/` followed by `id`, `ordersRouterHandler` takes as id segment
`id` without its leading and trailing slashes.  When the segment is not empty, `GET` runs
`handleGetOrderByID` and `PUT` runs `handleUpdateOrderStatus` on that segment, both behind
`authMiddleware`, and any other method is answered 405; when the segment is empty, `GET`
runs `handleAdminGetOrders` and `POST` runs `handleCreateOrder`, both behind
`authMiddleware`, and any other method is answered 405. -/
theorem orders_router_dispatch {α : Type} [Amount α] (senv : ServerEnv) (db : Store α)
    (r : Request) (id : String) (hpath : r.path = "/orders/" ++ id) :
    (trimSlashes id ≠ "" →
      (r.method = "GET" →
        ordersRouterHandler senv db r =
          authMiddleware senv.auth r.authorization (fun msg code => (httpError msg code, db))
            (fun ctx => (handleGetOrderByID senv.read db ctx (trimSlashes id), db))) ∧
      (r.method = "PUT" →
        ordersRouterHandler senv db r =
          authMiddleware senv.auth r.authorization (fun msg code => (httpError msg code, db))
            (fun ctx =>
              handleUpdateOrderStatus senv.status db ctx (trimSlashes id) r.statusPayload)) ∧
      (r.method ≠ "GET" → r.method ≠ "PUT" →
        ordersRouterHandler senv db r =
          (httpError ("Método não permitido para /orders/" ++ trimSlashes id) 405, db))) ∧
    (trimSlashes id = "" →
      (r.method = "GET" →
        ordersRouterHandler senv db r =
          authMiddleware senv.auth r.authorization (fun msg code => (httpError msg code, db))
            (fun ctx => (handleAdminGetOrders senv.list db ctx r.statusFilter, db))) ∧
      (r.method = "POST" →
        ordersRouterHandler senv db r =
          authMiddleware senv.auth r.authorization (fun msg code => (httpError msg code, db))
            (fun ctx => handleCreateOrderCtx senv.create db ctx r.orderPayload)) ∧
      (r.method ≠ "GET" → r.method ≠ "POST" →
        ordersRouterHandler senv db r =
          (httpError "Método não permitido para /orders/" 405, db))) := by
  have hseg : trimSlashes (trimPrefixStr r.path "/orders/") = trimSlashes id := by
    rw [hpath, trimPrefixStr_append]
  refine ⟨fun hne => ⟨fun hm => ?_, fun hm => ?_, fun hg hp => ?_⟩,
    fun he => ⟨fun hm => ?_, fun hm => ?_, fun hg hp => ?_⟩⟩
  · simp [ordersRouterHandler, hseg, hne, hm]
  · simp [ordersRouterHandler, hseg, hne, hm]
  · simp [ordersRouterHandler, hseg, hne, hg, hp]
  · simp [ordersRouterHandler, hseg, he, hm]
  · simp [ordersRouterHandler, hseg, he, hm]
  · simp [ordersRouterHandler, hseg, he, hg, hp]

/-- Witness of C23: `GET /orders//order-1/` from the guardian `G` is answered with
`order-1`, and `DELETE` on the same path is answered 405. -/
theorem orders_router_dispatch_witness :
    (ordersRouterHandler serverEnvOK officeStore
        (plainRequest "GET" "/orders//order-1/" "Bearer token-G")).1 =
        handleGetOrderByID readEnvOK officeStore (some "G") "order-1" ∧
      (handleGetOrderByID readEnvOK officeStore (some "G") "order-1").status = 200 ∧
      ordersRouterHandler serverEnvOK officeStore
        (plainRequest "DELETE" "/orders//order-1/" "Bearer token-G") =
        (httpError ("Método não permitido para /orders/" ++ trimSlashes "/order-1/") 405,
          officeStore) :=
  ⟨by decide, by decide,
   ((orders_router_dispatch serverEnvOK officeStore
      (plainRequest "DELETE" "/orders//order-1/" "Bearer token-G") "/order-1/" rfl).1
      (by decide)).2.2 (by decide) (by decide)⟩

end RoutingProps

/-! ## Order of the checks of a placement -/

section StepOrder

theorem resolveLines_unavailable_first {α : Type} [Amount α] (env : Env) (tx : Tx α)
    (hq : ∀ j, env.menuQueryErr j = false)
    (x : OrderItemRequest) (post : List OrderItemRequest) (mx : MenuItemRow α)
    (hx : tx.work.menuItems.find? (fun m => m.id == x.menuItemID) = some mx)
    (hun : mx.isAvailable = false) :
    ∀ (pre : List OrderItemRequest) (i : Nat) (total : α) (acc : List (OrderItem α)),
      (∀ itemReq ∈ pre, ∃ mi,
        tx.work.menuItems.find? (fun m => m.id == itemReq.menuItemID) = some mi ∧
          mi.isAvailable = true) →
      resolveLines env tx i (pre ++ x :: post) total acc = Resolution.unavailable := by
  intro pre
  induction pre with
  | nil =>
      intro i total acc _
      have hquery : queryMenuItem env tx i x.menuItemID = some mx := by
        simp [queryMenuItem, hq i, hx]
      simp [resolveLines, hquery, hun]
  | cons hd tl ih =>
      intro i total acc hpre
      obtain ⟨mi, hmi, hav⟩ := hpre hd (List.mem_cons_self _ _)
      have hquery : queryMenuItem env tx i hd.menuItemID = some mi := by
        simp [queryMenuItem, hq i, hmi]
      simp only [List.cons_append, resolveLines, hquery, hav]
      simp only [Bool.not_true, Bool.false_eq_true, if_false]
      apply ih
      intro y hy
      exact hpre y (List.mem_cons_of_mem _ hy)

theorem createOrderInTx_402 {α : Type} [Amount α] (env : Env) (tx : Tx α)
    (userID : String) (req : CreateOrderRequest)
    (h : (createOrderInTx env tx userID req).1.status = 402) :
    env.studentQueryErr = false ∧ tx.work.owns userID req.studentID ∧
      ∃ total items b,
        resolveLines env tx 0 req.items Amount.zero [] = Resolution.resolved total items ∧
        queryCredits env tx userID = some b ∧ Amount.lt b total = true := by
  cases h1 : env.studentQueryErr with
  | true => simp [createOrderInTx, h1, httpError] at h
  | false =>
    cases h2 : queryStudent tx req.studentID userID with
    | none => simp [createOrderInTx, h1, h2, httpError] at h
    | some st =>
      obtain ⟨hmem, hid, hpar⟩ := queryStudent_some _ _ _ _ h2
      refine ⟨rfl, ⟨st, hmem, hid, hpar⟩, ?_⟩
      cases h3 : resolveLines env tx 0 req.items Amount.zero [] with
      | notFound => simp [createOrderInTx, h1, h2, h3, httpError] at h
      | unavailable => simp [createOrderInTx, h1, h2, h3, httpError] at h
      | resolved total items =>
        cases h4 : queryCredits env tx userID with
        | none => simp [createOrderInTx, h1, h2, h3, h4, httpError] at h
        | some credits =>
          cases h5 : Amount.lt credits total with
          | true => exact ⟨total, items, credits, rfl, rfl, h5⟩
          | false =>
              exfalso
              rcases createOrderInTx_funded env tx userID req st total credits items h1 h2 h3
                h4 h5 with h' | h' <;> simp [h'] at h

/-- C26: `handleCreateOrder` answers with the error of the first step that fails, in the
order validation (no item, then no student id, then a bad line), ownership, line
resolution in request order, funds, and leaves the store as it was.  A request for a
student whom the user does not own is answered 403 whatever its lines and the balance; a
line whose item is missing or unavailable is reported when the lines before it resolved,
whatever the lines after it; and a 402 is answered only when ownership and every line
passed. -/
theorem placement_reports_first_failing_step {α : Type} [Amount α] (env : Env)
    (db : Store α) (userID : String) (req : CreateOrderRequest) :
    (req.items = [] →
      handleCreateOrder env db userID (Except.ok req) =
        (httpError "O pedido deve conter pelo menos um item." 400, db)) ∧
    (req.items ≠ [] → req.studentID = "" →
      handleCreateOrder env db userID (Except.ok req) =
        (httpError "O ID do aluno (student_id) é obrigatório." 400, db)) ∧
    (req.items ≠ [] → req.studentID ≠ "" →
      (∃ itemReq ∈ req.items, itemReq.menuItemID = "" ∨ itemReq.quantity ≤ 0) →
      handleCreateOrder env db userID (Except.ok req) =
        (httpError "Cada item do pedido deve ter 'menu_item_id' e 'quantity' (>0) válida." 400,
          db)) ∧
    (ValidRequest req → env.beginErr = false → env.studentQueryErr = false →
      ¬ db.owns userID req.studentID →
      handleCreateOrder env db userID (Except.ok req) =
        (httpError "Aluno especificado inválido ou não pertence a este responsável." 403,
          db)) ∧
    (ValidRequest req → env.beginErr = false → env.studentQueryErr = false →
      db.owns userID req.studentID →
      ∀ pre x post, req.items = pre ++ x :: post →
        (∀ itemReq ∈ pre, ∃ mi,
          db.menuItem? itemReq.menuItemID = some mi ∧ mi.isAvailable = true) →
        (db.menuItem? x.menuItemID = none →
          handleCreateOrder env db userID (Except.ok req) =
            (httpError "Item menu não encontrado" 400, db)) ∧
        (∀ mx, (∀ j, env.menuQueryErr j = false) → db.menuItem? x.menuItemID = some mx →
          mx.isAvailable = false →
          handleCreateOrder env db userID (Except.ok req) =
            (httpError "Item indisponível" 400, db))) ∧
    ((handleCreateOrder env db userID (Except.ok req)).1.status = 402 →
      ValidRequest req ∧ db.owns userID req.studentID ∧
        (handleCreateOrder env db userID (Except.ok req)).2 = db ∧
        ∃ total items b,
          resolveLines env { work := db, committed := false } 0 req.items Amount.zero [] =
            Resolution.resolved total items ∧
          db.balance? userID = some b ∧ Amount.lt b total = true) := by
  refine ⟨?_, ?_, ?_, ?_, ?_, ?_⟩
  · intro h
    simp [handleCreateOrder, h]
  · intro h1 h2
    have h1' : ¬ req.items.length = 0 := fun h0 => h1 (List.length_eq_zero.1 h0)
    simp [handleCreateOrder, h1', h2]
  · intro h1 h2 h3
    have h1' : ¬ req.items.length = 0 := fun h0 => h1 (List.length_eq_zero.1 h0)
    have h3' : hasInvalidItem req.items = true := (hasInvalidItem_eq_true req.items).2 h3
    simp [handleCreateOrder, h1', h2, h3']
  · intro hv hb hs hno
    have hq := (queryStudent_eq_none_iff { work := db, committed := false } req.studentID
      userID).2 hno
    rw [handleCreateOrder_valid env db userID req hv hb,
      createOrderInTx_forbidden env _ userID req hs hq]
    rfl
  · intro hv hb hs hown pre x post hitems hpre
    obtain ⟨st, hst⟩ := queryStudent_of_owns { work := db, committed := false } req.studentID
      userID hown
    constructor
    · intro hx
      have hres := resolveLines_notFound env { work := db, committed := false } x post hx pre 0
        Amount.zero [] hpre
      rw [← hitems] at hres
      rw [handleCreateOrder_valid env db userID req hv hb,
        createOrderInTx_notFound env _ userID req st hs hst hres]
      rfl
    · intro mx hq hx hun
      have hres := resolveLines_unavailable_first env { work := db, committed := false } hq x
        post mx hx hun pre 0 Amount.zero [] hpre
      rw [← hitems] at hres
      rw [handleCreateOrder_valid env db userID req hv hb,
        createOrderInTx_unavailable env _ userID req st hs hst hres]
      rfl
  · intro h
    have hchecks : ¬ req.items.length = 0 ∧ ¬ req.studentID = "" ∧
        ¬ hasInvalidItem req.items = true ∧ env.beginErr = false := by
      by_cases h1 : req.items.length = 0
      · simp [handleCreateOrder, h1, httpError] at h
      by_cases h2 : req.studentID = ""
      · simp [handleCreateOrder, h1, h2, httpError] at h
      by_cases h3 : hasInvalidItem req.items = true
      · simp [handleCreateOrder, h1, h2, h3, httpError] at h
      cases hb : env.beginErr with
      | true => simp [handleCreateOrder, h1, h2, h3, hb, httpError] at h
      | false => exact ⟨h1, h2, h3, rfl⟩
    obtain ⟨h1, h2, h3, hb⟩ := hchecks
    have hv := validRequest_of_checks h1 h2 h3
    have hrb := handleCreateOrder_valid_rollback env db userID req hv (by rw [h]; decide)
    rw [handleCreateOrder_valid env db userID req hv hb] at h
    obtain ⟨hs, hown, total, items, b, hres, hcred, hlt⟩ :=
      createOrderInTx_402 env { work := db, committed := false } userID req h
    refine ⟨hv, hown, ?_, total, items, b, hres, ?_, hlt⟩
    · exact hrb
    · unfold queryCredits at hcred
      split at hcred
      · cases hcred
      · exact hcred

/-- Witness of C26: with item `B` unavailable, the request of `B` followed by the unknown
item `X` for student `S` is answered 403 to `H`, who does not own `S`, and "item
unavailable" to `G`, who does. -/
theorem placement_reports_first_failing_step_witness :
    handleCreateOrder envOK (scenarioStore false) "H" (Except.ok requestBX) =
        (httpError "Aluno especificado inválido ou não pertence a este responsável." 403,
          scenarioStore false) ∧
      handleCreateOrder envOK (scenarioStore false) "G" (Except.ok requestBX) =
        (httpError "Item indisponível" 400, scenarioStore false) :=
  ⟨(placement_reports_first_failing_step envOK (scenarioStore false) "H"
      requestBX).2.2.2.1 (by decide) rfl rfl (by decide),
   (((placement_reports_first_failing_step envOK (scenarioStore false) "G"
      requestBX).2.2.2.2.1 (by decide) rfl rfl (by decide)) []
      { menuItemID := "B", quantity := 1 } [{ menuItemID := "X", quantity := 1 }] rfl
      (by simp)).2 (scenarioMenuItem "B" (Float64.finite 7 (-1)) false) (fun _ => rfl) rfl
      rfl⟩

end StepOrder

/-! ## The list of a staff requester -/

section StaffList

theorem scanOrders_mem {α : Type} (env : ListEnv) (db : Store α) :
    ∀ (rows : List (OrderRow α)) (k : Nat) (acc : List (Order α)),
      ∀ o ∈ scanOrders env db k rows acc,
        o ∈ acc ∨ ∃ row ∈ rows, ∃ items, o = scanOrder row items := by
  intro rows
  induction rows with
  | nil =>
      intro k acc o ho
      exact Or.inl (by simpa [scanOrders] using ho)
  | cons row rest ih =>
      intro k acc o ho
      simp only [scanOrders] at ho
      split at ho
      · rcases ih _ _ o ho with h | ⟨r, hr, items, h⟩
        · exact Or.inl h
        · exact Or.inr ⟨r, List.mem_cons_of_mem _ hr, items, h⟩
      · rcases ih _ _ o ho with h | ⟨r, hr, items, h⟩
        · rcases List.mem_append.1 h with h | h
          · exact Or.inl h
          · exact Or.inr ⟨row, List.mem_cons_self _ _, _, by simpa using h⟩
        · exact Or.inr ⟨r, List.mem_cons_of_mem _ hr, items, h⟩

theorem scanOrders_filter_status {α : Type} (env : ListEnv) (db : Store α)
    (cond : OrderRow α → Bool) :
    ∀ o ∈ scanOrders env db 0 (orderByDateDesc (db.orders.filter cond)) [],
      ∃ row ∈ db.orders, cond row = true ∧ o.status = row.status := by
  intro o ho
  rcases scanOrders_mem env db _ 0 [] o ho with h | ⟨row, hrow, items, h⟩
  · exact absurd h (List.not_mem_nil o)
  · have hmem := ((orderByDateDesc_perm (db.orders.filter cond)).mem_iff).1 hrow
    rw [List.mem_filter] at hmem
    exact ⟨row, hmem.1, hmem.2, by rw [h]; rfl⟩

/-- C28: for a requester of role `staff`, every order in a list answered by
`handleAdminGetOrders` has the status `PENDING`, `PREPARING` or `READY`, and the status of
the filter when one is given.  Without filter the query selects the rows of these three
statuses; with one of the three as filter, the rows of that status; with any other
filter, a lower-case spelling included, the answer is the empty list, also when the query
would fail, since no query is run. -/
theorem staff_list_restricted {α : Type} (env : ListEnv) (db : Store α)
    (uid statusFilter : String) (p : UserProfile α)
    (hp : fetchUserProfile env.profileQueryErr db uid = Except.ok p)
    (hr : p.role = "staff") :
    (∀ os, handleAdminGetOrders env db (some uid) statusFilter =
        { status := 200, body := Body.orders os } →
      ∀ o ∈ os, (o.status = "PENDING" ∨ o.status = "PREPARING" ∨ o.status = "READY") ∧
        (statusFilter ≠ "" → o.status = statusFilter)) ∧
    (statusFilter = "" → env.queryErr = false →
      handleAdminGetOrders env db (some uid) statusFilter =
        { status := 200,
          body := Body.orders (scanOrders env db 0
            (orderByDateDesc (db.orders.filter (fun o =>
              o.status == "PENDING" || o.status == "PREPARING" || o.status == "READY")))
            []) }) ∧
    (statusFilter = "PENDING" ∨ statusFilter = "PREPARING" ∨ statusFilter = "READY" →
      env.queryErr = false →
      handleAdminGetOrders env db (some uid) statusFilter =
        { status := 200,
          body := Body.orders (scanOrders env db 0
            (orderByDateDesc (db.orders.filter (fun o => o.status == statusFilter))) []) }) ∧
    (statusFilter ≠ "" →
      ¬ (statusFilter = "PENDING" ∨ statusFilter = "PREPARING" ∨ statusFilter = "READY") →
      handleAdminGetOrders env db (some uid) statusFilter =
        { status := 200, body := Body.orders [] }) := by
  have hpriv : decide (p.role = "admin" ∨ p.role = "super_admin") = false := by
    simp [hr]
  have hdef : handleAdminGetOrders env db (some uid) statusFilter =
      if statusFilter = "" then
        (if env.queryErr = true then httpError "Erro ao buscar lista de pedidos." 500
         else
          { status := 200,
            body := Body.orders (scanOrders env db 0
              (orderByDateDesc (db.orders.filter (fun o =>
                o.status == "PENDING" || o.status == "PREPARING" || o.status == "READY")))
              []) })
      else if statusFilter = "PENDING" ∨ statusFilter = "PREPARING" ∨
          statusFilter = "READY" then
        (if env.queryErr = true then httpError "Erro ao buscar lista de pedidos." 500
         else
          { status := 200,
            body := Body.orders (scanOrders env db 0
              (orderByDateDesc (db.orders.filter (fun o => o.status == statusFilter))) []) })
      else { status := 200, body := Body.orders [] } := by
    simp only [handleAdminGetOrders, hp, hpriv, hr, Bool.false_or, decide_True, Bool.not_true,
      Bool.false_eq_true, if_false, if_true]
    by_cases hf : statusFilter = ""
    · simp [hf]
    · by_cases hm : statusFilter = "PENDING" ∨ statusFilter = "PREPARING" ∨
          statusFilter = "READY"
      · simp [hf, hm]
      · simp [hf, hm]
  refine ⟨?_, ?_, ?_, ?_⟩
  · intro os h o ho
    rw [hdef] at h
    by_cases hf : statusFilter = ""
    · rw [if_pos hf] at h
      by_cases hq : env.queryErr = true
      · simp [hq, httpError] at h
      · simp only [hq, if_false, Bool.false_eq_true, Response.mk.injEq, Body.orders.injEq,
          true_and] at h
        subst h
        obtain ⟨row, _, hc, hst⟩ := scanOrders_filter_status env db _ o ho
        refine ⟨?_, fun hne => absurd hf hne⟩
        rw [hst]
        simpa [or_assoc] using hc
    · rw [if_neg hf] at h
      by_cases hm : statusFilter = "PENDING" ∨ statusFilter = "PREPARING" ∨
          statusFilter = "READY"
      · rw [if_pos hm] at h
        by_cases hq : env.queryErr = true
        · simp [hq, httpError] at h
        · simp only [hq, if_false, Bool.false_eq_true, Response.mk.injEq, Body.orders.injEq,
          true_and] at h
          subst h
          obtain ⟨row, _, hc, hst⟩ := scanOrders_filter_status env db _ o ho
          have heq : o.status = statusFilter := by
            rw [hst]
            simpa using hc
          exact ⟨by rw [heq]; exact hm, fun _ => heq⟩
      · rw [if_neg hm] at h
        simp only [Response.mk.injEq, Body.orders.injEq, true_and] at h
        subst h
        exact absurd ho (List.not_mem_nil o)
  · intro hf hq
    rw [hdef, if_pos hf, hq]
    simp
  · intro hm hq
    have hf : statusFilter ≠ "" := by
      rcases hm with h | h | h <;> rw [h] <;> decide
    rw [hdef, if_neg hf, if_pos hm, hq]
    simp
  · intro hf hm
    rw [hdef, if_neg hf, if_neg hm]

/-- Witness of C28: the attendant `STF` lists without filter the orders `order-2`, `order-3`
and `order-1`, with the filter `READY` only `order-2`, and with the filter `ready` or
`DELIVERED` nothing, also when the list query would fail. -/
theorem staff_list_restricted_witness :
    listedIDs (handleAdminGetOrders listEnvOK officeStore (some "STF") "") =
        ["order-2", "order-3", "order-1"] ∧
      listedIDs (handleAdminGetOrders listEnvOK officeStore (some "STF") "READY") =
        ["order-2"] ∧
      handleAdminGetOrders { listEnvOK with queryErr := true } officeStore (some "STF")
        "DELIVERED" = { status := 200, body := Body.orders [] } ∧
      handleAdminGetOrders { listEnvOK with queryErr := true } officeStore (some "STF")
        "ready" = { status := 200, body := Body.orders [] } :=
  ⟨by decide, by decide, by decide,
   (staff_list_restricted { listEnvOK with queryErr := true } officeStore "STF" "ready"
     (UserProfile.mk "STF" none none none "staff" 1 1) rfl rfl).2.2.2 (by decide)
     (by decide)⟩

end StaffList

/-! ## Validation of menu payloads -/

section MenuValidation

/-- C29 fails on `handleUpdateMenuItem`: the payload with an empty name and the price
-1.00 is rejected by `handleCreateMenuItem` with 400 and an unchanged store, while
`handleUpdateMenuItem` answers 200 for item `A` and writes the empty name and the negative
price to its row. -/
theorem menu_update_skips_validation :
    handleCreateMenuItem menuCreateEnvOK officeStore (Except.ok payloadNameless) =
        (httpError "Nome obrigatório" 400, officeStore) ∧
      Amount.le payloadNameless.price (Amount.zero : Float64) = true ∧
      (handleUpdateMenuItem menuEnvOK officeStore "A" (Except.ok payloadNameless)).1.status =
        200 ∧
      (handleUpdateMenuItem menuEnvOK officeStore "A" (Except.ok payloadNameless)).2.menuItems.map
          (fun mi => (mi.id, mi.name, mi.price)) =
        [("A", "", Float64.finite (-1) 0), ("B", "B", Float64.finite 7 (-1)),
         ("C", "C", Float64.finite 3 1)] := by
  decide

end MenuValidation

/-! ## Properties of the binary64 model -/

section FloatProps

theorem bitLengthAux_zero (fuel : Nat) : bitLengthAux fuel 0 = 0 := by
  cases fuel <;> simp [bitLengthAux]

theorem bitLengthAux_spec :
    ∀ (fuel n : Nat), n ≤ fuel →
      n < 2 ^ bitLengthAux fuel n ∧ (n ≠ 0 → 2 ^ (bitLengthAux fuel n - 1) ≤ n) := by
  intro fuel
  induction fuel with
  | zero =>
      intro n hn
      have h0 : n = 0 := Nat.le_zero.1 hn
      subst h0
      simp [bitLengthAux]
  | succ fuel ih =>
      intro n hn
      by_cases h0 : n = 0
      · subst h0
        simp [bitLengthAux]
      · have hhalf : n / 2 ≤ fuel := by omega
        obtain ⟨hlt, hge⟩ := ih (n / 2) hhalf
        simp only [bitLengthAux, h0, if_false, Nat.add_sub_cancel]
        constructor
        · rw [pow_succ]
          omega
        · intro _
          by_cases h1 : n / 2 = 0
          · rw [h1, bitLengthAux_zero]
            simp
            omega
          · have hge' := hge h1
            have hpos : bitLengthAux fuel (n / 2) ≠ 0 := by
              intro hz
              rw [hz] at hlt
              simp at hlt
              exact h1 hlt
            have hpow : 2 ^ bitLengthAux fuel (n / 2) =
                2 * 2 ^ (bitLengthAux fuel (n / 2) - 1) := by
              rw [← pow_succ']
              congr 1
              omega
            rw [hpow]
            omega

theorem lt_two_pow_bitLength (n : Nat) : n < 2 ^ bitLength n :=
  (bitLengthAux_spec n n (Nat.le_refl n)).1

theorem two_pow_bitLength_le (n : Nat) (h : n ≠ 0) : 2 ^ (bitLength n - 1) ≤ n :=
  (bitLengthAux_spec n n (Nat.le_refl n)).2 h

theorem bitLength_zero : bitLength 0 = 0 := rfl

theorem bitLength_pos (n : Nat) (h : n ≠ 0) : 0 < bitLength n := by
  have hlt := lt_two_pow_bitLength n
  by_contra hz
  have h0 : bitLength n = 0 := by omega
  rw [h0] at hlt
  simp at hlt
  exact h hlt

theorem bitLength_le_of_lt (n k : Nat) (h : n < 2 ^ k) : bitLength n ≤ k := by
  by_cases h0 : n = 0
  · subst h0
    simp [bitLength_zero]
  · have hge := two_pow_bitLength_le n h0
    have hlt : 2 ^ (bitLength n - 1) < 2 ^ k := Nat.lt_of_le_of_lt hge h
    have := (Nat.pow_lt_pow_iff_right (by decide : 1 < 2)).1 hlt
    omega

theorem lt_bitLength_of_le (n k : Nat) (h : 2 ^ k ≤ n) : k < bitLength n := by
  have hlt : 2 ^ k < 2 ^ bitLength n := Nat.lt_of_le_of_lt h (lt_two_pow_bitLength n)
  exact (Nat.pow_lt_pow_iff_right (by decide : 1 < 2)).1 hlt

theorem trailingZeros_dvd : ∀ (fuel n : Nat), 2 ^ trailingZeros fuel n ∣ n := by
  intro fuel
  induction fuel with
  | zero =>
      intro n
      simp [trailingZeros]
  | succ fuel ih =>
      intro n
      simp only [trailingZeros]
      split
      · rename_i h
        obtain ⟨c, hc⟩ := ih (n / 2)
        refine ⟨c, ?_⟩
        have h2 : n = 2 * (n / 2) := by omega
        rw [pow_succ, mul_comm _ 2, mul_assoc, ← hc]
        exact h2
      · simp

theorem trailingZeros_odd_mul (a : Nat) (ha : a % 2 = 1) :
    ∀ (j fuel : Nat), j < fuel → trailingZeros fuel (a * 2 ^ j) = j := by
  intro j
  induction j with
  | zero =>
      intro fuel hf
      cases fuel with
      | zero => omega
      | succ fuel =>
          simp only [trailingZeros, pow_zero, mul_one]
          rw [if_neg]
          omega
  | succ j ih =>
      intro fuel hf
      cases fuel with
      | zero => omega
      | succ fuel =>
          have hpos : 0 < 2 ^ j := Nat.pow_pos (by decide)
          have hapos : 0 < a := by omega
          have hn : a * 2 ^ (j + 1) = 2 * (a * 2 ^ j) := by ring
          have hne : a * 2 ^ (j + 1) ≠ 0 := by
            rw [hn]
            have := Nat.mul_pos hapos hpos
            omega
          have hev : a * 2 ^ (j + 1) % 2 = 0 := by
            rw [hn]
            omega
          have hdiv : a * 2 ^ (j + 1) / 2 = a * 2 ^ j := by
            rw [hn]
            omega
          simp only [trailingZeros]
          rw [if_pos ⟨hne, hev⟩, hdiv, ih fuel (by omega)]

theorem exists_odd_mul_two_pow (n : Nat) (h : n ≠ 0) :
    ∃ a j, a % 2 = 1 ∧ n = a * 2 ^ j := by
  obtain ⟨j, a, ha, hn⟩ := Nat.exists_eq_two_pow_mul_odd h
  refine ⟨a, j, Nat.odd_iff.1 ha, ?_⟩
  rw [hn, mul_comm]

namespace Float64

theorem normalize_odd_mul (a : Int) (ha : a.natAbs % 2 = 1) (j : Nat) (e : Int) :
    normalize (a * 2 ^ j) e = finite a (e + j) := by
  have ha0 : a ≠ 0 := by
    intro h
    rw [h] at ha
    simp at ha
  have hpow : ((2 : Int) ^ j) ≠ 0 := pow_ne_zero _ (by decide)
  have hne : a * 2 ^ j ≠ 0 := mul_ne_zero ha0 hpow
  have habs : (a * 2 ^ j).natAbs = a.natAbs * 2 ^ j := by
    rw [Int.natAbs_mul, Int.natAbs_pow]
    rfl
  have hfuel : j < bitLength (a.natAbs * 2 ^ j) := by
    apply lt_bitLength_of_le
    have : 0 < a.natAbs := by omega
    exact Nat.le_mul_of_pos_left _ this
  simp only [normalize, hne, if_false, habs,
    trailingZeros_odd_mul a.natAbs ha j _ hfuel]
  rw [Int.mul_ediv_cancel _ hpow]

theorem normalize_zero (e : Int) : normalize 0 e = finite 0 0 := by
  simp [normalize]

theorem exists_odd_mul_two_pow_int (m : Int) (h : m ≠ 0) :
    ∃ (a : Int) (j : Nat), a.natAbs % 2 = 1 ∧ m = a * 2 ^ j := by
  obtain ⟨a, j, ha, hn⟩ := exists_odd_mul_two_pow m.natAbs (by simpa using h)
  rcases Int.natAbs_eq m with hm | hm
  · refine ⟨a, j, by simpa using ha, ?_⟩
    rw [hm, hn]
    push_cast
    ring
  · refine ⟨-a, j, by simpa using ha, ?_⟩
    rw [hm, hn]
    push_cast
    ring

theorem normalize_shift (m : Int) (j : Nat) (e : Int) :
    normalize (m * 2 ^ j) e = normalize m (e + j) := by
  by_cases h : m = 0
  · subst h
    simp [normalize_zero]
  · obtain ⟨a, i, ha, hm⟩ := exists_odd_mul_two_pow_int m h
    have h1 : m * 2 ^ j = a * 2 ^ (i + j) := by
      rw [hm, pow_add]
      ring
    rw [h1, normalize_odd_mul a ha, hm, normalize_odd_mul a ha]
    congr 1
    push_cast
    ring

end Float64

end FloatProps

section FloatExact

namespace Float64

theorem round_exact (m e : Int) (hbl : bitLength m.natAbs ≤ 53) (he : -1074 ≤ e)
    (hov : e + (bitLength m.natAbs : Int) ≤ 1024) : round m e = normalize m e := by
  by_cases hm : m = 0
  · subst hm
    simp [round, normalize]
  · have hq : max (e + (bitLength m.natAbs : Int) - 1 - 52) (-1074) ≤ e := by
      apply max_le
      · omega
      · exact he
    have hsign : (if m < 0 then -((m.natAbs : Nat) : Int) else ((m.natAbs : Nat) : Int)) = m := by
      split
      · omega
      · omega
    simp only [round, hm, if_false, if_pos hq, hsign]
    rw [if_neg (by omega)]

theorem bitLength_natAbs_le (m : Int) (k : Nat) (h0 : 0 ≤ m) (h : m < 2 ^ k) :
    bitLength m.natAbs ≤ k := by
  apply bitLength_le_of_lt
  have h1 : ((m.natAbs : Nat) : Int) < ((2 ^ k : Nat) : Int) := by
    rw [Int.natAbs_of_nonneg h0]
    push_cast
    exact h
  exact_mod_cast h1

theorem quarters_eq (k : Int) (h0 : 0 ≤ k) (hk : k < 2 ^ 53) :
    ∃ m e, quarters k = finite m e ∧ 0 ≤ m ∧ -2 ≤ e ∧ e ≤ 51 ∧ m * 2 ^ (e + 2).toNat = k := by
  by_cases hz : k = 0
  · subst hz
    exact ⟨0, 0, by simp [quarters, normalize], le_refl _, by omega, by omega, by simp⟩
  · obtain ⟨a, j, ha, hkj⟩ := exists_odd_mul_two_pow_int k hz
    have hpos : (0 : Int) < 2 ^ j := pow_pos (by decide) j
    have ha0 : 0 < a := by
      by_contra hneg
      have hle : a ≤ 0 := by omega
      have : a * 2 ^ j ≤ 0 := Int.mul_nonpos_of_nonpos_of_nonneg hle (le_of_lt hpos)
      rw [← hkj] at this
      have hne : a ≠ 0 := by
        intro h
        rw [h] at ha
        simp at ha
      omega
    have hj : j < 53 := by
      have h1 : (2 : Int) ^ j ≤ a * 2 ^ j := by
        have : 1 * (2 : Int) ^ j ≤ a * 2 ^ j :=
          Int.mul_le_mul_of_nonneg_right (by omega) (le_of_lt hpos)
        simpa using this
      have h2 : (2 : Int) ^ j < 2 ^ 53 := by
        rw [hkj] at hk
        exact lt_of_le_of_lt h1 hk
      by_contra hge
      have h3 : (2 : Int) ^ 53 ≤ 2 ^ j := pow_le_pow_right₀ (by decide) (by omega)
      omega
    refine ⟨a, -2 + j, ?_, le_of_lt ha0, by omega, by omega, ?_⟩
    · rw [quarters, hkj, normalize_odd_mul a ha]
    · have : (-2 + (j : Int) + 2).toNat = j := by omega
      rw [this, hkj]

theorem quarters_of_scaled (m e : Int) (he : -2 ≤ e) :
    normalize m e = quarters (m * 2 ^ (e + 2).toNat) := by
  rw [quarters, normalize_shift]
  congr 1
  omega

theorem ofInt_exact (q : Int) (h0 : 0 ≤ q) (hq : q < 2 ^ 53) : ofInt q = normalize q 0 := by
  have hbl := bitLength_natAbs_le q 53 h0 hq
  exact round_exact q 0 hbl (by decide) (by omega)

theorem mul_quarters (k q : Int) (hk : 0 ≤ k) (hq0 : 0 < q) (hq : q < 2 ^ 53)
    (hkq : k * q < 2 ^ 53) : mul (quarters k) (ofInt q) = quarters (k * q) := by
  obtain ⟨c, j, hc, hqj⟩ := exists_odd_mul_two_pow_int q (by omega)
  have hofInt : ofInt q = finite c (0 + j) := by
    rw [ofInt_exact q (le_of_lt hq0) hq, hqj, normalize_odd_mul c hc]
  by_cases hz : k = 0
  · subst hz
    simp [quarters, normalize, hofInt, mul, round]
  · have hk53 : k < 2 ^ 53 := by
      have : k * 1 ≤ k * q := Int.mul_le_mul_of_nonneg_left (by omega) hk
      omega
    obtain ⟨m, e, hqk, hm0, he2, he51, hval⟩ := quarters_eq k hk hk53
    have hprod : m * c * 2 ^ ((e + 2).toNat + j) = k * q := by
      rw [← hval, hqj, pow_add]
      ring
    have hpos : (0 : Int) < 2 ^ ((e + 2).toNat + j) := pow_pos (by decide) _
    have hc0 : 0 < c := by
      by_contra hneg
      have hle : c ≤ 0 := by omega
      have hpj : (0 : Int) < 2 ^ j := pow_pos (by decide) j
      have : c * 2 ^ j ≤ 0 := Int.mul_nonpos_of_nonpos_of_nonneg hle (le_of_lt hpj)
      omega
    have hmc0 : 0 ≤ m * c := Int.mul_nonneg hm0 (le_of_lt hc0)
    have hmc : m * c < 2 ^ 53 := by
      have h1 : m * c * 1 ≤ m * c * 2 ^ ((e + 2).toNat + j) :=
        Int.mul_le_mul_of_nonneg_left (by omega) hmc0
      omega
    have hm_ne : m ≠ 0 := by
      intro h
      rw [h] at hval
      simp at hval
      exact hz hval.symm
    have hmpos : 0 < m * c := Int.mul_pos (by omega) hc0
    have hexp : (e + 2).toNat + j < 53 := by
      have h1 : (2 : Int) ^ ((e + 2).toNat + j) ≤ m * c * 2 ^ ((e + 2).toNat + j) := by
        have : 1 * (2 : Int) ^ ((e + 2).toNat + j) ≤ m * c * 2 ^ ((e + 2).toNat + j) :=
          Int.mul_le_mul_of_nonneg_right (by omega) (le_of_lt hpos)
        simpa using this
      by_contra hge
      have h3 : (2 : Int) ^ 53 ≤ 2 ^ ((e + 2).toNat + j) :=
        pow_le_pow_right₀ (by decide) (by omega)
      omega
    have hbl := bitLength_natAbs_le (m * c) 53 hmc0 hmc
    rw [hqk, hofInt]
    simp only [mul]
    rw [round_exact (m * c) (e + (0 + j)) hbl (by omega) (by omega)]
    rw [quarters_of_scaled (m * c) (e + (0 + j)) (by omega), ← hprod]
    congr 2
    congr 1
    omega

theorem add_quarters (s t : Int) (hs : 0 ≤ s) (ht : 0 ≤ t) (hst : s + t < 2 ^ 53) :
    add (quarters s) (quarters t) = quarters (s + t) := by
  obtain ⟨m1, e1, h1, hm1, he1, he1', hv1⟩ := quarters_eq s hs (by omega)
  obtain ⟨m2, e2, h2, hm2, he2, he2', hv2⟩ := quarters_eq t ht (by omega)
  rw [h1, h2]
  simp only [add, alignAdd]
  have hmin : -2 ≤ min e1 e2 := le_min he1 he2
  have hmin1 : min e1 e2 ≤ e1 := min_le_left _ _
  have hmin2 : min e1 e2 ≤ e2 := min_le_right _ _
  have hsum : (m1 * 2 ^ (e1 - min e1 e2).toNat + m2 * 2 ^ (e2 - min e1 e2).toNat) *
      2 ^ (min e1 e2 + 2).toNat = s + t := by
    rw [add_mul, mul_assoc, mul_assoc, ← pow_add, ← pow_add, ← hv1, ← hv2]
    congr 3 <;> omega
  have hM0 : 0 ≤ m1 * 2 ^ (e1 - min e1 e2).toNat + m2 * 2 ^ (e2 - min e1 e2).toNat :=
    Int.add_nonneg (Int.mul_nonneg hm1 (le_of_lt (pow_pos (by decide) _)))
      (Int.mul_nonneg hm2 (le_of_lt (pow_pos (by decide) _)))
  have hM : m1 * 2 ^ (e1 - min e1 e2).toNat + m2 * 2 ^ (e2 - min e1 e2).toNat < 2 ^ 53 := by
    have hpos : (0 : Int) < 2 ^ (min e1 e2 + 2).toNat := pow_pos (by decide) _
    have h1 : (m1 * 2 ^ (e1 - min e1 e2).toNat + m2 * 2 ^ (e2 - min e1 e2).toNat) * 1 ≤
        (m1 * 2 ^ (e1 - min e1 e2).toNat + m2 * 2 ^ (e2 - min e1 e2).toNat) *
          2 ^ (min e1 e2 + 2).toNat :=
      Int.mul_le_mul_of_nonneg_left (by omega) hM0
    omega
  have hbl := bitLength_natAbs_le _ 53 hM0 hM
  rw [round_exact _ (min e1 e2) hbl (by omega) (by omega)]
  rw [quarters_of_scaled _ (min e1 e2) hmin, hsum]

end Float64

end FloatExact

/-! ## The total in binary floating point -/

section TotalArithmetic

theorem lineTotal_quarters :
    ∀ (lines : List (Int × Int)) (s : Int), 0 ≤ s →
      (∀ l ∈ lines, 0 ≤ l.1 ∧ 0 < l.2 ∧ l.2 < 2 ^ 53) →
      s + (lines.map (fun l => l.1 * l.2)).sum < 2 ^ 53 →
      lineTotal (Float64.quarters s) (lines.map (fun l => (Float64.quarters l.1, l.2))) =
        Float64.quarters (s + (lines.map (fun l => l.1 * l.2)).sum) := by
  intro lines
  induction lines with
  | nil =>
      intro s _ _ _
      simp [lineTotal]
  | cons l rest ih =>
      intro s hs hl hsum
      obtain ⟨hk, hq0, hq⟩ := hl l (List.mem_cons_self _ _)
      have hrest : ∀ x ∈ rest, 0 ≤ x.1 ∧ 0 < x.2 ∧ x.2 < 2 ^ 53 :=
        fun x hx => hl x (List.mem_cons_of_mem _ hx)
      have hrest0 : 0 ≤ (rest.map (fun l => l.1 * l.2)).sum := by
        apply List.sum_nonneg
        intro x hx
        obtain ⟨y, hy, rfl⟩ := List.mem_map.1 hx
        obtain ⟨h1, h2, _⟩ := hrest y hy
        exact Int.mul_nonneg h1 (le_of_lt h2)
      have hkq0 : 0 ≤ l.1 * l.2 := Int.mul_nonneg hk (le_of_lt hq0)
      simp only [List.map_cons, List.sum_cons] at hsum ⊢
      have hstep : Amount.add (Float64.quarters s)
          (Amount.mul (Float64.quarters l.1) (Amount.ofInt l.2)) =
          Float64.quarters (s + l.1 * l.2) := by
        show Float64.add (Float64.quarters s)
          (Float64.mul (Float64.quarters l.1) (Float64.ofInt l.2)) = _
        rw [Float64.mul_quarters l.1 l.2 hk hq0 hq (by omega),
          Float64.add_quarters s (l.1 * l.2) hs hkq0 (by omega)]
      have hfold : lineTotal (Float64.quarters s)
          ((Float64.quarters l.1, l.2) :: rest.map (fun l => (Float64.quarters l.1, l.2))) =
          lineTotal (Float64.quarters (s + l.1 * l.2))
            (rest.map (fun l => (Float64.quarters l.1, l.2))) := by
        simp only [lineTotal, List.foldl_cons]
        rw [hstep]
      rw [hfold, ih (s + l.1 * l.2) (by omega) hrest (by omega)]
      congr 1
      ring

/-- C24, as stated, fails: the amounts are binary64 values.  With `tenCents` and
`thirtyCents` the binary64 values nearest to 0.10 and 0.30 (each within half a unit in the
last place), three units at 0.10 total `0x3FD3333333333334`, the binary64 next above
0.30, so the guardian who holds 0.30 is refused with 402. -/
theorem three_dimes_exceed_thirty_cents :
    4 * (10 * 3602879701896397 - 2 ^ 55 : Int).natAbs < 10 ∧
      2 * (10 * 5404319552844595 - 3 * 2 ^ 54 : Int).natAbs < 10 ∧
      lineTotal (Amount.zero : Float64) [(tenCents, 3)] =
        Float64.finite 1351079888211149 (-52) ∧
      resolveLines envOK { work := dimeStore, committed := false } 0 requestA3.items
          (Amount.zero : Float64) [] =
        Resolution.resolved (Float64.finite 1351079888211149 (-52))
          [{ id := "", orderID := "", menuItemID := "A", menuItemName := "A", quantity := 3,
             priceAtPurchase := tenCents, createdAt := 0 }] ∧
      Float64.finite 1351079888211149 (-52) ≠ thirtyCents ∧
      Float64.lt thirtyCents (Float64.finite 1351079888211149 (-52)) = true ∧
      handleCreateOrder envOK dimeStore "G" (Except.ok requestA3) =
        (httpError "Créditos insuficientes" 402, dimeStore) := by
  decide

/-- C24, amended: the total is accumulated in binary64.  When every resolved line has a
price of `k` quarters of the currency unit (`k * 0.25`, with `k` not negative) and a
quantity below `2 ^ 53`, and the exact sum of the lines is below `2 ^ 53` quarters, the
computed total is exactly that sum. -/
theorem quarter_priced_total_exact (env : Env) (tx : Tx Float64)
    (items : List OrderItemRequest) (total : Float64) (its : List (OrderItem Float64))
    (lines : List (Int × Int))
    (hres : resolveLines env tx 0 items Amount.zero [] = Resolution.resolved total its)
    (hlines : its.map (fun it => (it.priceAtPurchase, it.quantity)) =
      lines.map (fun l => (Float64.quarters l.1, l.2)))
    (hpos : ∀ l ∈ lines, 0 ≤ l.1 ∧ 0 < l.2 ∧ l.2 < 2 ^ 53)
    (hsum : (lines.map (fun l => l.1 * l.2)).sum < 2 ^ 53) :
    total = Float64.quarters (lines.map (fun l => l.1 * l.2)).sum := by
  obtain ⟨suffix, hs, _, ht⟩ := resolveLines_resolved env tx items 0 Amount.zero [] total its
    hres
  simp only [List.nil_append] at hs
  subst hs
  rw [ht, hlines]
  have h := lineTotal_quarters lines 0 (le_refl _) hpos (by simpa using hsum)
  simp only [zero_add] at h
  exact h

/-- Witness of C24 as amended: `A x2` at 5.00 (20 quarters) and `B x1` at 3.50 (14 quarters)
total 54 quarters, 13.50. -/
theorem quarter_priced_total_exact_witness :
    Float64.quarters 54 = Float64.finite 27 (-1) ∧
      Float64.finite 27 (-1) = Float64.quarters ([(20, 2), (14, 1)].map
        (fun l : Int × Int => l.1 * l.2)).sum :=
  ⟨by decide,
   quarter_priced_total_exact envOK { work := scenarioStore true, committed := false }
     requestAB.items (Float64.finite 27 (-1))
     [{ id := "", orderID := "", menuItemID := "A", menuItemName := "A", quantity := 2,
        priceAtPurchase := Float64.finite 5 0, createdAt := 0 },
      { id := "", orderID := "", menuItemID := "B", menuItemName := "B", quantity := 1,
        priceAtPurchase := Float64.finite 7 (-1), createdAt := 0 }]
     [(20, 2), (14, 1)] (by decide) (by decide) (by decide) (by decide)⟩

end TotalArithmetic

section FloatOrder

namespace Float64

theorem cast_scaled (m e c : Int) (h : c ≤ e) :
    (((m * 2 ^ (e - c).toNat : Int) : ℚ)) = (m : ℚ) * 2 ^ e / 2 ^ c := by
  have hk : (((e - c).toNat : Nat) : Int) = e - c := Int.toNat_of_nonneg (by omega)
  push_cast
  rw [← zpow_natCast, hk, zpow_sub₀ (by norm_num : (2 : ℚ) ≠ 0)]
  ring

theorem lt_finite_iff (m1 e1 m2 e2 : Int) :
    lt (finite m1 e1) (finite m2 e2) = true ↔
      (m1 : ℚ) * 2 ^ e1 < (m2 : ℚ) * 2 ^ e2 := by
  have hpos : (0 : ℚ) < 2 ^ (min e1 e2) := zpow_pos (by norm_num) _
  simp only [lt, decide_eq_true_eq]
  rw [← @Int.cast_lt ℚ, cast_scaled m1 e1 _ (min_le_left _ _),
    cast_scaled m2 e2 _ (min_le_right _ _)]
  exact div_lt_div_iff_of_pos_right hpos

theorem normalize_val (m e : Int) :
    ∃ m' e', normalize m e = finite m' e' ∧ (m' : ℚ) * 2 ^ e' = (m : ℚ) * 2 ^ e ∧
      (0 ≤ m → 0 ≤ m') := by
  by_cases hm : m = 0
  · subst hm
    exact ⟨0, 0, by simp [normalize], by simp, fun _ => le_refl _⟩
  · have hdvd : ((2 : Int) ^ trailingZeros (bitLength m.natAbs) m.natAbs) ∣ m := by
      have h := trailingZeros_dvd (bitLength m.natAbs) m.natAbs
      have h2 : (((2 ^ trailingZeros (bitLength m.natAbs) m.natAbs : Nat) : Int)) ∣
          ((m.natAbs : Nat) : Int) := Int.natCast_dvd_natCast.2 h
      rw [Int.dvd_natAbs] at h2
      simpa using h2
    refine ⟨m / 2 ^ trailingZeros (bitLength m.natAbs) m.natAbs,
      e + trailingZeros (bitLength m.natAbs) m.natAbs, by simp [normalize, hm], ?_, ?_⟩
    · have hcancel := Int.ediv_mul_cancel hdvd
      rw [zpow_add₀ (by norm_num : (2 : ℚ) ≠ 0), zpow_natCast]
      have hc : ((m / 2 ^ trailingZeros (bitLength m.natAbs) m.natAbs : Int) : ℚ) *
          2 ^ trailingZeros (bitLength m.natAbs) m.natAbs = (m : ℚ) := by
        exact_mod_cast hcancel
      rw [← hc]
      ring
    · intro h0
      exact Int.ediv_nonneg h0 (le_of_lt (pow_pos (by decide) _))

theorem two_zpow_le_val (n : Nat) (e : Int) (hn : n ≠ 0) :
    (2 : ℚ) ^ (e + (bitLength n : Int) - 1) ≤ (n : ℚ) * 2 ^ e := by
  have h := two_pow_bitLength_le n hn
  have hL := bitLength_pos n hn
  have hcast : ((2 : ℚ)) ^ (bitLength n - 1) ≤ (n : ℚ) := by exact_mod_cast h
  have hpos : (0 : ℚ) < 2 ^ e := zpow_pos (by norm_num) _
  have hexp : e + (bitLength n : Int) - 1 = ((bitLength n - 1 : Nat) : Int) + e := by omega
  rw [hexp, zpow_add₀ (by norm_num : (2 : ℚ) ≠ 0), zpow_natCast]
  exact mul_le_mul_of_nonneg_right hcast (le_of_lt hpos)

theorem val_lt_two_zpow (n : Nat) (e : Int) :
    (n : ℚ) * 2 ^ e < (2 : ℚ) ^ (e + (bitLength n : Int)) := by
  have h := lt_two_pow_bitLength n
  have hcast : (n : ℚ) < (2 : ℚ) ^ (bitLength n) := by exact_mod_cast h
  have hpos : (0 : ℚ) < 2 ^ e := zpow_pos (by norm_num) _
  rw [add_comm, zpow_add₀ (by norm_num : (2 : ℚ) ≠ 0), zpow_natCast]
  exact mul_lt_mul_of_pos_right hcast hpos

theorem zpow_two_lt_imp (a b : Int) (h : (2 : ℚ) ^ a < 2 ^ b) : a < b := by
  by_contra hge
  have hle : b ≤ a := by omega
  have : (2 : ℚ) ^ b ≤ 2 ^ a := zpow_le_zpow_right₀ (by norm_num) hle
  exact absurd h (not_lt.2 this)

end Float64

end FloatOrder

section FloatRound

namespace Float64

theorem round_le (m e mb eb : Int) (hm : 0 ≤ m) (hmb : 0 ≤ mb)
    (hbl : bitLength mb.natAbs ≤ 53) (heb : -1074 ≤ eb)
    (hov : eb + (bitLength mb.natAbs : Int) ≤ 1024)
    (hle : (m : ℚ) * 2 ^ e ≤ (mb : ℚ) * 2 ^ eb) :
    ∃ m' e', round m e = finite m' e' ∧ 0 ≤ m' ∧
      (m' : ℚ) * 2 ^ e' ≤ (mb : ℚ) * 2 ^ eb := by
  have hbnonneg : (0 : ℚ) ≤ (mb : ℚ) * 2 ^ eb :=
    mul_nonneg (by exact_mod_cast hmb) (le_of_lt (zpow_pos (by norm_num) _))
  by_cases hm0 : m = 0
  · subst hm0
    exact ⟨0, 0, by simp [round], le_refl _, by simpa using hbnonneg⟩
  have hn : ((m.natAbs : Nat) : Int) = m := Int.natAbs_of_nonneg hm
  have hnb : ((mb.natAbs : Nat) : Int) = mb := Int.natAbs_of_nonneg hmb
  have hn0 : m.natAbs ≠ 0 := by omega
  have hnq : ((m.natAbs : Nat) : ℚ) = (m : ℚ) := by
    rw [Nat.cast_natAbs, abs_of_nonneg hm]
  have hnbq : ((mb.natAbs : Nat) : ℚ) = (mb : ℚ) := by
    rw [Nat.cast_natAbs, abs_of_nonneg hmb]
  have hlow := two_zpow_le_val m.natAbs e hn0
  have hupb := val_lt_two_zpow mb.natAbs eb
  rw [hnq] at hlow
  rw [hnbq] at hupb
  have htop : e + (bitLength m.natAbs : Int) - 1 < eb + (bitLength mb.natAbs : Int) :=
    zpow_two_lt_imp _ _ (lt_of_le_of_lt (le_trans hlow hle) hupb)
  have hq_eb : max (e + (bitLength m.natAbs : Int) - 1 - 52) (-1074) ≤ eb :=
    max_le (by omega) heb
  have hnotneg : ¬ m < 0 := by omega
  by_cases hqe : max (e + (bitLength m.natAbs : Int) - 1 - 52) (-1074) ≤ e
  · obtain ⟨m', e', hnorm, hval, hnn⟩ := normalize_val m e
    refine ⟨m', e', ?_, hnn hm, by rw [hval]; exact hle⟩
    simp only [round, hm0, if_false, if_pos hqe, hnotneg, hn]
    rw [if_neg (by omega), hnorm]
  · have hqgt : e < max (e + (bitLength m.natAbs : Int) - 1 - 52) (-1074) := by omega
    have hk : (((max (e + (bitLength m.natAbs : Int) - 1 - 52) (-1074) - e).toNat : Nat) : Int)
        = max (e + (bitLength m.natAbs : Int) - 1 - 52) (-1074) - e :=
      Int.toNat_of_nonneg (by omega)
    simp only [round, hm0, if_false, if_neg hqe, hnotneg]
    generalize hqdef : max (e + (bitLength m.natAbs : Int) - 1 - 52) (-1074) = q at *
    generalize hkdef : (q - e).toNat = k at *
    have h2e : (0 : ℚ) < 2 ^ e := zpow_pos (by norm_num) _
    have h2q : (2 : ℚ) ^ q = 2 ^ k * 2 ^ e := by
      have : q = (k : Int) + e := by omega
      rw [this, zpow_add₀ (by norm_num : (2 : ℚ) ≠ 0), zpow_natCast]
    have hkpos : 0 < 2 ^ k := Nat.pow_pos (by decide)
    have hdm := Nat.div_add_mod m.natAbs (2 ^ k)
    -- the value of `b` on the grid of step `2 ^ q`
    have hbgrid : (mb : ℚ) * 2 ^ eb =
        ((mb.natAbs * 2 ^ (eb - q).toNat : Nat) : ℚ) * 2 ^ q := by
      have hj : (((eb - q).toNat : Nat) : Int) = eb - q := Int.toNat_of_nonneg (by omega)
      have heq : eb = ((eb - q).toNat : Int) + q := by omega
      push_cast
      rw [hnbq]
      conv_lhs => rw [heq, zpow_add₀ (by norm_num : (2 : ℚ) ≠ 0), zpow_natCast]
      ring
    have hnle : m.natAbs ≤ mb.natAbs * 2 ^ (eb - q).toNat * 2 ^ k := by
      have h1 : ((m.natAbs : Nat) : ℚ) * 2 ^ e ≤
          ((mb.natAbs * 2 ^ (eb - q).toNat : Nat) : ℚ) * (2 ^ k * 2 ^ e) := by
        rw [hnq, ← h2q, ← hbgrid]
        exact hle
      have h2 : ((m.natAbs : Nat) : ℚ) ≤
          ((mb.natAbs * 2 ^ (eb - q).toNat : Nat) : ℚ) * 2 ^ k := by
        rw [← mul_assoc] at h1
        exact le_of_mul_le_mul_right h1 h2e
      exact_mod_cast h2
    have key : ∀ n1 : Nat,
        (n1 = m.natAbs / 2 ^ k ∨ (n1 = m.natAbs / 2 ^ k + 1 ∧ 0 < m.natAbs % 2 ^ k)) →
        ((n1 : Nat) : ℚ) * 2 ^ q ≤ (mb : ℚ) * 2 ^ eb := by
      intro n1 hn1
      have hn1le : n1 ≤ mb.natAbs * 2 ^ (eb - q).toNat := by
        have hlt : m.natAbs / 2 ^ k * 2 ^ k ≤ mb.natAbs * 2 ^ (eb - q).toNat * 2 ^ k := by
          have := Nat.div_mul_le_self m.natAbs (2 ^ k)
          omega
        have hlower : m.natAbs / 2 ^ k ≤ mb.natAbs * 2 ^ (eb - q).toNat :=
          Nat.le_of_mul_le_mul_right hlt hkpos
        rcases hn1 with h | ⟨h, hrest⟩
        · rw [h]
          exact hlower
        · rw [h]
          have hstrict : m.natAbs / 2 ^ k * 2 ^ k < mb.natAbs * 2 ^ (eb - q).toNat * 2 ^ k := by
            have hdm' : 2 ^ k * (m.natAbs / 2 ^ k) + m.natAbs % 2 ^ k = m.natAbs := hdm
            have hcomm : m.natAbs / 2 ^ k * 2 ^ k = 2 ^ k * (m.natAbs / 2 ^ k) :=
              Nat.mul_comm _ _
            omega
          exact Nat.lt_of_mul_lt_mul_right hstrict
      rw [hbgrid]
      have hcast : ((n1 : Nat) : ℚ) ≤ ((mb.natAbs * 2 ^ (eb - q).toNat : Nat) : ℚ) := by
        exact_mod_cast hn1le
      exact mul_le_mul_of_nonneg_right hcast (le_of_lt (zpow_pos (by norm_num) _))
    generalize hn1def :
      (if (decide (2 ^ k < 2 * (m.natAbs % 2 ^ k)) ||
            decide (2 * (m.natAbs % 2 ^ k) = 2 ^ k) &&
              decide (m.natAbs / 2 ^ k % 2 = 1)) = true
        then m.natAbs / 2 ^ k + 1 else m.natAbs / 2 ^ k) = n1
    have hn1 : n1 = m.natAbs / 2 ^ k ∨
        (n1 = m.natAbs / 2 ^ k + 1 ∧ 0 < m.natAbs % 2 ^ k) := by
      rw [← hn1def]
      split
      · rename_i hup
        right
        refine ⟨rfl, ?_⟩
        by_contra hz
        have hr0 : m.natAbs % 2 ^ k = 0 := by omega
        rw [hr0] at hup
        simp at hup
        omega
      · left
        rfl
    have hval1 := key n1 hn1
    have hnoflow : ¬ (1024 < q + (bitLength n1 : Int)) := by
      by_cases hz : n1 = 0
      · subst hz
        rw [bitLength_zero]
        have : 0 ≤ (bitLength mb.natAbs : Int) := Int.natCast_nonneg _
        omega
      · have h1 := two_zpow_le_val n1 q hz
        have h2 : (2 : ℚ) ^ (q + (bitLength n1 : Int) - 1) <
            2 ^ (eb + (bitLength mb.natAbs : Int)) :=
          lt_of_le_of_lt (le_trans h1 hval1) hupb
        have := zpow_two_lt_imp _ _ h2
        omega
    rw [if_neg hnoflow]
    obtain ⟨m', e', hnorm, hval, hnn⟩ := normalize_val (n1 : Int) q
    refine ⟨m', e', hnorm, hnn (Int.natCast_nonneg _), ?_⟩
    rw [hval]
    exact_mod_cast hval1

end Float64

end FloatRound

/-! ## The balance never grows and never goes below zero -/

section Overdraft

namespace Float64

theorem isNonNeg_iff (x : Float64) : x.isNonNeg = true ↔ ∃ m e, x = finite m e ∧ 0 ≤ m := by
  cases x with
  | finite m e => simp [isNonNeg]
  | inf s => simp [isNonNeg]
  | nan => simp [isNonNeg]

theorem round_shape (m e : Int) (hm0 : m ≠ 0) :
    ∃ (n1 : Nat) (e1 : Int),
      round m e =
        if 1024 < e1 + (bitLength n1 : Int) then inf (decide (m < 0))
        else normalize (if m < 0 then -(n1 : Int) else (n1 : Int)) e1 := by
  refine ⟨?n1, ?e1, ?h⟩
  case h =>
    unfold round
    rw [if_neg hm0]
    exact rfl

theorem round_nonneg (m e : Int) (hm : 0 ≤ m) :
    round m e = inf false ∨ (round m e).isNonNeg = true := by
  by_cases hm0 : m = 0
  · subst hm0
    right
    simp [round, isNonNeg]
  · have hnotneg : ¬ m < 0 := by omega
    obtain ⟨n1, e1, h⟩ := round_shape m e hm0
    rw [h]
    simp only [hnotneg, if_false, decide_False]
    split
    · left
      rfl
    · right
      obtain ⟨m', e', hnorm, _, hnn⟩ := normalize_val (n1 : Int) e1
      rw [hnorm]
      simpa [isNonNeg] using hnn (Int.natCast_nonneg _)

theorem ofInt_nonneg (q : Int) (h0 : 0 ≤ q) (hq : q < 2 ^ 63) :
    (ofInt q).isNonNeg = true := by
  have hle : (q : ℚ) * 2 ^ (0 : Int) ≤ ((1 : Int) : ℚ) * 2 ^ (63 : Int) := by
    have h : (q : ℚ) ≤ 2 ^ 63 := by exact_mod_cast le_of_lt hq
    have h63 : (2 : ℚ) ^ (63 : Int) = 2 ^ 63 := by norm_num
    rw [zpow_zero, mul_one, Int.cast_one, one_mul, h63]
    exact h
  obtain ⟨m', e', hr, hm', _⟩ := round_le q 0 1 63 h0 (by decide) (by decide) (by decide)
    (by decide) hle
  rw [ofInt, hr]
  simpa [isNonNeg] using hm'

theorem mul_nonneg_finite (x y : Float64) (hx : x.isNonNeg = true) (hy : y.isNonNeg = true) :
    mul x y = inf false ∨ (mul x y).isNonNeg = true := by
  obtain ⟨m1, e1, rfl, h1⟩ := (isNonNeg_iff x).1 hx
  obtain ⟨m2, e2, rfl, h2⟩ := (isNonNeg_iff y).1 hy
  exact round_nonneg _ _ (Int.mul_nonneg h1 h2)

theorem add_nonneg_or_inf (x y : Float64)
    (hx : x = inf false ∨ x.isNonNeg = true) (hy : y = inf false ∨ y.isNonNeg = true) :
    add x y = inf false ∨ (add x y).isNonNeg = true := by
  rcases hx with rfl | hx
  · rcases hy with rfl | hy
    · left
      rfl
    · obtain ⟨m2, e2, rfl, _⟩ := (isNonNeg_iff y).1 hy
      left
      rfl
  · obtain ⟨m1, e1, rfl, h1⟩ := (isNonNeg_iff x).1 hx
    rcases hy with rfl | hy
    · left
      rfl
    · obtain ⟨m2, e2, rfl, h2⟩ := (isNonNeg_iff y).1 hy
      apply round_nonneg
      simp only [alignAdd]
      exact Int.add_nonneg (Int.mul_nonneg h1 (le_of_lt (pow_pos (by decide) _)))
        (Int.mul_nonneg h2 (le_of_lt (pow_pos (by decide) _)))

theorem sub_bounds (b t : Float64) (hb : b.isNonNeg = true) (hrep : b.isBinary64 = true)
    (ht : t = inf false ∨ t.isNonNeg = true) (hlt : lt b t = false) :
    (sub b t).isNonNeg = true ∧ lt b (sub b t) = false := by
  obtain ⟨mb, eb, rfl, hmb⟩ := (isNonNeg_iff b).1 hb
  rcases ht with rfl | ht
  · simp [lt] at hlt
  obtain ⟨mt, et, rfl, hmt⟩ := (isNonNeg_iff t).1 ht
  simp only [isBinary64, Bool.and_eq_true, decide_eq_true_eq] at hrep
  obtain ⟨⟨hbl, heb⟩, hov⟩ := hrep
  have hnot : ¬ ((mb : ℚ) * 2 ^ eb < (mt : ℚ) * 2 ^ et) := by
    intro h
    have := (lt_finite_iff mb eb mt et).2 h
    rw [hlt] at this
    cases this
  have hval : (((mb * 2 ^ (eb - min eb et).toNat + -mt * 2 ^ (et - min eb et).toNat : Int)) : ℚ) *
      2 ^ (min eb et) = (mb : ℚ) * 2 ^ eb - (mt : ℚ) * 2 ^ et := by
    have hpos : (2 : ℚ) ^ (min eb et) ≠ 0 := ne_of_gt (zpow_pos (by norm_num) _)
    rw [Int.cast_add, cast_scaled mb eb _ (min_le_left _ _),
      cast_scaled (-mt) et _ (min_le_right _ _)]
    push_cast
    field_simp
    ring
  have hM0 : 0 ≤ mb * 2 ^ (eb - min eb et).toNat + -mt * 2 ^ (et - min eb et).toNat := by
    simp only [lt, decide_eq_false_iff_not, not_lt] at hlt
    have : -mt * 2 ^ (et - min eb et).toNat = -(mt * 2 ^ (et - min eb et).toNat) := by ring
    omega
  have htnonneg : (0 : ℚ) ≤ (mt : ℚ) * 2 ^ et :=
    mul_nonneg (by exact_mod_cast hmt) (le_of_lt (zpow_pos (by norm_num) _))
  have hle : (((mb * 2 ^ (eb - min eb et).toNat + -mt * 2 ^ (et - min eb et).toNat : Int)) : ℚ) *
      2 ^ (min eb et) ≤ (mb : ℚ) * 2 ^ eb := by
    rw [hval]
    linarith
  obtain ⟨m', e', hr, hm', hle'⟩ := round_le _ (min eb et) mb eb hM0 hmb hbl heb hov hle
  have hsub : sub (finite mb eb) (finite mt et) = finite m' e' := by
    simp only [sub, neg, add, alignAdd]
    exact hr
  rw [hsub]
  refine ⟨by simpa [isNonNeg] using hm', ?_⟩
  cases hcmp : lt (finite mb eb) (finite m' e') with
  | false => rfl
  | true =>
      have := (lt_finite_iff mb eb m' e').1 hcmp
      exact absurd this (not_lt.2 hle')

end Float64

theorem lineTotal_nonneg_or_inf :
    ∀ (lines : List (Float64 × Int)) (start : Float64),
      (start = Float64.inf false ∨ start.isNonNeg = true) →
      (∀ l ∈ lines, l.1.isNonNeg = true ∧ 0 < l.2 ∧ l.2 < 2 ^ 63) →
      lineTotal start lines = Float64.inf false ∨ (lineTotal start lines).isNonNeg = true := by
  intro lines
  induction lines with
  | nil =>
      intro start hs _
      simpa [lineTotal] using hs
  | cons l rest ih =>
      intro start hs hl
      obtain ⟨h1, h2, h3⟩ := hl l (List.mem_cons_self _ _)
      have hstep : Float64.add start (Float64.mul l.1 (Float64.ofInt l.2)) = Float64.inf false ∨
          (Float64.add start (Float64.mul l.1 (Float64.ofInt l.2))).isNonNeg = true :=
        Float64.add_nonneg_or_inf _ _ hs
          (Float64.mul_nonneg_finite _ _ h1 (Float64.ofInt_nonneg l.2 (le_of_lt h2) h3))
      have := ih (Float64.add start (Float64.mul l.1 (Float64.ofInt l.2))) hstep
        (fun x hx => hl x (List.mem_cons_of_mem _ hx))
      simpa [lineTotal] using this

theorem handleCreateOrder_not_created {α : Type} [Amount α] (env : Env) (db : Store α)
    (userID : String) (payload : Except String CreateOrderRequest)
    (h : (handleCreateOrder env db userID payload).1.status ≠ 201) :
    (handleCreateOrder env db userID payload).2 = db := by
  cases payload with
  | error e => simp [handleCreateOrder]
  | ok req =>
    by_cases c1 : req.items.length = 0
    · simp [handleCreateOrder, c1]
    by_cases c2 : req.studentID = ""
    · simp [handleCreateOrder, c1, c2]
    by_cases c3 : hasInvalidItem req.items = true
    · simp [handleCreateOrder, c1, c2, c3]
    exact handleCreateOrder_valid_rollback env db userID req (validRequest_of_checks c1 c2 c3) h

/-- C30: over binary64 amounts, if every menu price in the store is finite and not negative,
the quantities fit the 64-bit `int` of the request, and the balance of the user before a
call of `handleCreateOrder` is a binary64 value that is finite and not negative, then
after the call, whatever its outcome, the balance of that user is again finite and not
negative, and the balance before is not less than it. -/
theorem placement_never_overdraws (env : Env) (db : Store Float64) (userID : String)
    (payload : Except String CreateOrderRequest) (b : Float64)
    (hprice : ∀ mi ∈ db.menuItems, mi.price.isNonNeg = true)
    (hqty : ∀ req, payload = Except.ok req →
      ∀ itemReq ∈ req.items, itemReq.quantity < 2 ^ 63)
    (hbal : db.balance? userID = some b)
    (hb : b.isNonNeg = true) (hrep : b.isBinary64 = true) :
    ∃ b', (handleCreateOrder env db userID payload).2.balance? userID = some b' ∧
      b'.isNonNeg = true ∧ Float64.lt b b' = false := by
  by_cases h : (handleCreateOrder env db userID payload).1.status = 201
  · obtain ⟨req, st, total, items, credits, inserted, hpay, hv, -, -, -, -, hsnap, htotal,
      hcred, hlt, -, heq⟩ := handleCreateOrder_created env db userID payload h
    have hcb : credits = b := by
      unfold queryCredits at hcred
      split at hcred
      · exact absurd hcred (by simp)
      · have : db.balance? userID = some credits := hcred
        rw [hbal] at this
        exact (Option.some.inj this).symm
    subst hcb
    have hgood : total = Float64.inf false ∨ total.isNonNeg = true := by
      rw [htotal]
      apply lineTotal_nonneg_or_inf
      · right
        rfl
      · intro l hl
        obtain ⟨it, hit, rfl⟩ := List.mem_map.1 hl
        obtain ⟨itemReq, hreq, mi, hfind, -, hitem⟩ := forall₂_exists_left hsnap it hit
        have hmem : mi ∈ db.menuItems := List.mem_of_find?_eq_some hfind
        subst hitem
        exact ⟨hprice mi hmem, (hv.2.2 itemReq hreq).2, hqty req hpay itemReq hreq⟩
    obtain ⟨hnn, hle⟩ := Float64.sub_bounds credits total hb hrep hgood hlt
    refine ⟨Float64.sub credits total, ?_, hnn, hle⟩
    rw [heq]
    unfold Store.balance? at hbal ⊢
    simp only
    rw [balance_debitCredits_self, hbal]
    rfl
  · rw [handleCreateOrder_not_created env db userID payload h]
    refine ⟨b, hbal, hb, ?_⟩
    exact Amount.lt_irrefl b

/-- Witness of C30: guardian `G` holds 20.00 and places `A x2` and `B x1` (13.50): the
balance after is 6.50; guardian `H` holds 10.00 and is refused two lines of 6.00: the
balance stays 10.00. -/
theorem placement_never_overdraws_witness :
    (handleCreateOrder envOK (scenarioStore true) "G" (Except.ok requestAB)).2.balance? "G" =
        some (Float64.finite 13 (-1)) ∧
      (handleCreateOrder envOK (scenarioStore true) "H" (Except.ok requestCC)).2.balance? "H" =
        some (Float64.finite 5 1) ∧
      ∃ b', (handleCreateOrder envOK (scenarioStore true) "G"
          (Except.ok requestAB)).2.balance? "G" = some b' ∧
        b'.isNonNeg = true ∧ Float64.lt (Float64.finite 5 2) b' = false :=
  ⟨by decide, by decide,
   placement_never_overdraws envOK (scenarioStore true) "G" (Except.ok requestAB)
     (Float64.finite 5 2) (by decide)
     (fun req hreq => by
       cases hreq
       decide)
     (by decide) (by decide) (by decide)⟩

end Overdraft

/-! ## The total and the exact sum of the lines -/

section TotalExact

namespace Float64

theorem ofScaled_eq (s : Nat) (k : Int) (h0 : 0 ≤ k) (hk : k < 2 ^ 53) :
    ∃ m e, ofScaled s k = finite m e ∧ 0 ≤ m ∧ -(s : Int) ≤ e ∧ e ≤ 52 ∧
      m * 2 ^ (e + s).toNat = k := by
  by_cases hz : k = 0
  · subst hz
    exact ⟨0, 0, by simp [ofScaled, normalize], le_refl _, by omega, by omega, by simp⟩
  · obtain ⟨a, j, ha, hkj⟩ := exists_odd_mul_two_pow_int k hz
    have hpos : (0 : Int) < 2 ^ j := pow_pos (by decide) j
    have ha0 : 0 < a := by
      by_contra hneg
      have hle : a ≤ 0 := by omega
      have : a * 2 ^ j ≤ 0 := Int.mul_nonpos_of_nonpos_of_nonneg hle (le_of_lt hpos)
      rw [← hkj] at this
      omega
    have hj : j < 53 := by
      have h1 : (2 : Int) ^ j ≤ a * 2 ^ j := by
        have : 1 * (2 : Int) ^ j ≤ a * 2 ^ j :=
          Int.mul_le_mul_of_nonneg_right (by omega) (le_of_lt hpos)
        simpa using this
      have h2 : (2 : Int) ^ j < 2 ^ 53 := by
        rw [hkj] at hk
        exact lt_of_le_of_lt h1 hk
      by_contra hge
      have h3 : (2 : Int) ^ 53 ≤ 2 ^ j := pow_le_pow_right₀ (by decide) (by omega)
      omega
    refine ⟨a, -(s : Int) + j, ?_, le_of_lt ha0, by omega, by omega, ?_⟩
    · rw [ofScaled, hkj, normalize_odd_mul a ha]
    · have : (-(s : Int) + (j : Int) + s).toNat = j := by omega
      rw [this, hkj]

theorem normalize_eq_ofScaled (s : Nat) (m e : Int) (he : -(s : Int) ≤ e) :
    normalize m e = ofScaled s (m * 2 ^ (e + s).toNat) := by
  rw [ofScaled, normalize_shift]
  congr 1
  omega

theorem mul_ofScaled (s : Nat) (hs : s ≤ 1074) (k q : Int) (hk : 0 ≤ k) (hq0 : 0 < q)
    (hq : q < 2 ^ 53) (hkq : k * q < 2 ^ 53) :
    mul (ofScaled s k) (ofInt q) = ofScaled s (k * q) := by
  obtain ⟨c, j, hc, hqj⟩ := exists_odd_mul_two_pow_int q (by omega)
  have hofInt : ofInt q = finite c (0 + j) := by
    rw [ofInt_exact q (le_of_lt hq0) hq, hqj, normalize_odd_mul c hc]
  by_cases hz : k = 0
  · subst hz
    simp [ofScaled, normalize, hofInt, mul, round]
  · have hk53 : k < 2 ^ 53 := by
      have : k * 1 ≤ k * q := Int.mul_le_mul_of_nonneg_left (by omega) hk
      omega
    obtain ⟨m, e, hqk, hm0, he2, he52, hval⟩ := ofScaled_eq s k hk hk53
    have hprod : m * c * 2 ^ ((e + s).toNat + j) = k * q := by
      rw [← hval, hqj, pow_add]
      ring
    have hpos : (0 : Int) < 2 ^ ((e + s).toNat + j) := pow_pos (by decide) _
    have hc0 : 0 < c := by
      by_contra hneg
      have hle : c ≤ 0 := by omega
      have hpj : (0 : Int) < 2 ^ j := pow_pos (by decide) j
      have : c * 2 ^ j ≤ 0 := Int.mul_nonpos_of_nonpos_of_nonneg hle (le_of_lt hpj)
      omega
    have hmc0 : 0 ≤ m * c := Int.mul_nonneg hm0 (le_of_lt hc0)
    have hmc : m * c < 2 ^ 53 := by
      have h1 : m * c * 1 ≤ m * c * 2 ^ ((e + s).toNat + j) :=
        Int.mul_le_mul_of_nonneg_left (by omega) hmc0
      omega
    have hm_ne : m ≠ 0 := by
      intro h
      rw [h] at hval
      simp at hval
      exact hz hval.symm
    have hmpos : 0 < m * c := Int.mul_pos (by omega) hc0
    have hexp : (e + s).toNat + j < 53 := by
      have h1 : (2 : Int) ^ ((e + s).toNat + j) ≤ m * c * 2 ^ ((e + s).toNat + j) := by
        have : 1 * (2 : Int) ^ ((e + s).toNat + j) ≤ m * c * 2 ^ ((e + s).toNat + j) :=
          Int.mul_le_mul_of_nonneg_right (by omega) (le_of_lt hpos)
        simpa using this
      by_contra hge
      have h3 : (2 : Int) ^ 53 ≤ 2 ^ ((e + s).toNat + j) :=
        pow_le_pow_right₀ (by decide) (by omega)
      omega
    have hbl := bitLength_natAbs_le (m * c) 53 hmc0 hmc
    rw [hqk, hofInt]
    simp only [mul]
    rw [round_exact (m * c) (e + (0 + j)) hbl (by omega) (by omega)]
    rw [normalize_eq_ofScaled s (m * c) (e + (0 + j)) (by omega), ← hprod]
    congr 2
    congr 1
    omega

theorem add_ofScaled (s : Nat) (hs : s ≤ 1074) (a b : Int) (ha : 0 ≤ a) (hb : 0 ≤ b)
    (hab : a + b < 2 ^ 53) : add (ofScaled s a) (ofScaled s b) = ofScaled s (a + b) := by
  obtain ⟨m1, e1, h1, hm1, he1, he1', hv1⟩ := ofScaled_eq s a ha (by omega)
  obtain ⟨m2, e2, h2, hm2, he2, he2', hv2⟩ := ofScaled_eq s b hb (by omega)
  rw [h1, h2]
  simp only [add, alignAdd]
  have hmin : -(s : Int) ≤ min e1 e2 := le_min he1 he2
  have hmin1 : min e1 e2 ≤ e1 := min_le_left _ _
  have hmin2 : min e1 e2 ≤ e2 := min_le_right _ _
  have hsum : (m1 * 2 ^ (e1 - min e1 e2).toNat + m2 * 2 ^ (e2 - min e1 e2).toNat) *
      2 ^ (min e1 e2 + s).toNat = a + b := by
    rw [add_mul, mul_assoc, mul_assoc, ← pow_add, ← pow_add, ← hv1, ← hv2]
    congr 3 <;> omega
  have hM0 : 0 ≤ m1 * 2 ^ (e1 - min e1 e2).toNat + m2 * 2 ^ (e2 - min e1 e2).toNat :=
    Int.add_nonneg (Int.mul_nonneg hm1 (le_of_lt (pow_pos (by decide) _)))
      (Int.mul_nonneg hm2 (le_of_lt (pow_pos (by decide) _)))
  have hM : m1 * 2 ^ (e1 - min e1 e2).toNat + m2 * 2 ^ (e2 - min e1 e2).toNat < 2 ^ 53 := by
    have hpos : (0 : Int) < 2 ^ (min e1 e2 + s).toNat := pow_pos (by decide) _
    have h1 : (m1 * 2 ^ (e1 - min e1 e2).toNat + m2 * 2 ^ (e2 - min e1 e2).toNat) * 1 ≤
        (m1 * 2 ^ (e1 - min e1 e2).toNat + m2 * 2 ^ (e2 - min e1 e2).toNat) *
          2 ^ (min e1 e2 + s).toNat :=
      Int.mul_le_mul_of_nonneg_left (by omega) hM0
    omega
  have hbl := bitLength_natAbs_le _ 53 hM0 hM
  rw [round_exact _ (min e1 e2) hbl (by omega) (by omega)]
  rw [normalize_eq_ofScaled s _ (min e1 e2) hmin, hsum]

end Float64

theorem lineTotal_ofScaled (s : Nat) (hs : s ≤ 1074) :
    ∀ (units : List (Int × Int)) (t : Int), 0 ≤ t →
      (∀ u ∈ units, 0 ≤ u.1 ∧ 0 < u.2 ∧ u.2 < 2 ^ 53) →
      t + (units.map (fun u => u.1 * u.2)).sum < 2 ^ 53 →
      lineTotal (Float64.ofScaled s t) (units.map (fun u => (Float64.ofScaled s u.1, u.2))) =
        Float64.ofScaled s (t + (units.map (fun u => u.1 * u.2)).sum) := by
  intro units
  induction units with
  | nil =>
      intro t _ _ _
      simp [lineTotal]
  | cons u rest ih =>
      intro t ht hu hsum
      obtain ⟨hk, hq0, hq⟩ := hu u (List.mem_cons_self _ _)
      have hrest : ∀ x ∈ rest, 0 ≤ x.1 ∧ 0 < x.2 ∧ x.2 < 2 ^ 53 :=
        fun x hx => hu x (List.mem_cons_of_mem _ hx)
      have hrest0 : 0 ≤ (rest.map (fun u => u.1 * u.2)).sum := by
        apply List.sum_nonneg
        intro x hx
        obtain ⟨y, hy, rfl⟩ := List.mem_map.1 hx
        obtain ⟨h1, h2, _⟩ := hrest y hy
        exact Int.mul_nonneg h1 (le_of_lt h2)
      have hkq0 : 0 ≤ u.1 * u.2 := Int.mul_nonneg hk (le_of_lt hq0)
      simp only [List.map_cons, List.sum_cons] at hsum ⊢
      have hstep : Amount.add (Float64.ofScaled s t)
          (Amount.mul (Float64.ofScaled s u.1) (Amount.ofInt u.2)) =
          Float64.ofScaled s (t + u.1 * u.2) := by
        show Float64.add (Float64.ofScaled s t)
          (Float64.mul (Float64.ofScaled s u.1) (Float64.ofInt u.2)) = _
        rw [Float64.mul_ofScaled s hs u.1 u.2 hk hq0 hq (by omega),
          Float64.add_ofScaled s hs t (u.1 * u.2) ht hkq0 (by omega)]
      have hfold : lineTotal (Float64.ofScaled s t)
          ((Float64.ofScaled s u.1, u.2) ::
            rest.map (fun u => (Float64.ofScaled s u.1, u.2))) =
          lineTotal (Float64.ofScaled s (t + u.1 * u.2))
            (rest.map (fun u => (Float64.ofScaled s u.1, u.2))) := by
        simp only [lineTotal, List.foldl_cons]
        rw [hstep]
      rw [hfold, ih (t + u.1 * u.2) (by omega) hrest (by omega)]
      congr 1
      ring

theorem forall₂_forall₂_map_eq {β γ δ ε : Type} {R1 : β → γ → Prop} {R2 : β → δ → Prop}
    (f : γ → ε) (g : δ → ε) (h : ∀ x y z, R1 x y → R2 x z → f y = g z) :
    ∀ {l1 : List β} {l2 : List γ} {l3 : List δ},
      List.Forall₂ R1 l1 l2 → List.Forall₂ R2 l1 l3 → l2.map f = l3.map g := by
  intro l1 l2 l3 h1
  induction h1 generalizing l3 with
  | nil =>
      intro h2
      cases h2
      rfl
  | cons hr _ ih =>
      intro h2
      cases h2 with
      | cons hr2 ht2 =>
          simp only [List.map_cons]
          rw [h _ _ _ hr hr2, ih ht2]

theorem forall₂_of_common_left {β γ δ : Type} {R1 : β → γ → Prop} {R2 : β → δ → Prop}
    {R3 : γ → δ → Prop} (h : ∀ x y z, R1 x y → R2 x z → R3 y z) :
    ∀ {l1 : List β} {l2 : List γ} {l3 : List δ},
      List.Forall₂ R1 l1 l2 → List.Forall₂ R2 l1 l3 → List.Forall₂ R3 l2 l3 := by
  intro l1 l2 l3 h1
  induction h1 generalizing l3 with
  | nil =>
      intro h2
      cases h2
      exact List.Forall₂.nil
  | cons hr _ ih =>
      intro h2
      cases h2 with
      | cons hr2 ht2 => exact List.Forall₂.cons (h _ _ _ hr hr2) (ih ht2)

/-- C2, as stated, fails: item `A` costs 0.10 (the binary64 `tenCents`) and `G`, who holds
1.00, places three units.  The placement succeeds, the inserted line holds the price
`tenCents` and the quantity 3, and the stored total is `1351079888211149 * 2 ^ (-52)`,
which is above three times the stored price, `10808639105689191 * 2 ^ (-55)`. -/
theorem three_dimes_total_above_exact_sum :
    (handleCreateOrder envOK dimeStoreFunded "G" (Except.ok requestA3)).1.status = 201 ∧
      (handleCreateOrder envOK dimeStoreFunded "G" (Except.ok requestA3)).2.orders.map
          (fun row => row.totalAmount) = [Float64.finite 1351079888211149 (-52)] ∧
      (handleCreateOrder envOK dimeStoreFunded "G" (Except.ok requestA3)).2.orderItems.map
          (fun l => (l.priceAtPurchase, l.quantity)) =
        [(Float64.finite 3602879701896397 (-55), 3)] ∧
      (3602879701896397 : Int) * 3 = 10808639105689191 ∧
      (1351079888211149 : Int) * 2 ^ 3 = 10808639105689192 ∧
      Float64.finite 1351079888211149 (-52) ≠ Float64.finite 10808639105689191 (-55) ∧
      Float64.lt (Float64.finite 10808639105689191 (-55))
        (Float64.finite 1351079888211149 (-52)) = true := by
  decide

/-- C2, amended: the total is accumulated in binary64, each product and each sum rounded.
After a successful placement the `total_amount` of the inserted order row and of the
response are the same value, each inserted line carries the requested quantity and the
menu price; and when, for some `s` up to 1074, every requested line has a menu price of
`k` units of `2 ^ (-s)` with `k` not negative and a quantity below `2 ^ 53`, and the
exact sum of price times quantity is below `2 ^ 53` such units, the total is exactly that
sum. -/
theorem placement_total_exact_on_grid (env : Env) (db : Store Float64) (userID : String)
    (req : CreateOrderRequest) (s : Nat) (units : List (Int × Int))
    (h : (handleCreateOrder env db userID (Except.ok req)).1.status = 201)
    (hs : s ≤ 1074)
    (hunits : List.Forall₂
      (fun itemReq u =>
        u.2 = itemReq.quantity ∧
          ∃ mi, db.menuItem? itemReq.menuItemID = some mi ∧ mi.price = Float64.ofScaled s u.1)
      req.items units)
    (hpos : ∀ u ∈ units, 0 ≤ u.1 ∧ u.2 < 2 ^ 53)
    (hsum : (units.map (fun u => u.1 * u.2)).sum < 2 ^ 53) :
    ∃ o row lines,
      (handleCreateOrder env db userID (Except.ok req)).1.body = Body.order o ∧
      (handleCreateOrder env db userID (Except.ok req)).2.orders = db.orders ++ [row] ∧
      (handleCreateOrder env db userID (Except.ok req)).2.orderItems =
        db.orderItems ++ lines ∧
      row.totalAmount = o.totalAmount ∧
      List.Forall₂
        (fun l u => l.priceAtPurchase = Float64.ofScaled s u.1 ∧ l.quantity = u.2)
        lines units ∧
      o.totalAmount = Float64.ofScaled s (units.map (fun u => u.1 * u.2)).sum := by
  obtain ⟨req', o, row, lines, hpay, hbody, horders, hitems, hrow, htot, -, hlines⟩ :=
    handleCreateOrder_total_fold env db userID (Except.ok req) h
  cases hpay
  obtain ⟨req2, -, -, -, -, -, hpay2, hv, -⟩ :=
    handleCreateOrder_created env db userID (Except.ok req) h
  cases hpay2
  have hmap : lines.map (fun l => (l.priceAtPurchase, l.quantity)) =
      units.map (fun u => (Float64.ofScaled s u.1, u.2)) := by
    refine forall₂_forall₂_map_eq _ _ ?_ hlines hunits
    intro itemReq l u hl hu
    obtain ⟨hq, mi, hfind, hprice⟩ := hl
    obtain ⟨hq', mi', hfind', hprice'⟩ := hu
    rw [hfind] at hfind'
    cases hfind'
    rw [hprice, hprice', hq, hq']
  have hpos' : ∀ u ∈ units, 0 ≤ u.1 ∧ 0 < u.2 ∧ u.2 < 2 ^ 53 := by
    intro u hu
    obtain ⟨itemReq, hmem, hq, -⟩ := forall₂_exists_left hunits u hu
    have := (hv.2.2 itemReq hmem).2
    exact ⟨(hpos u hu).1, by omega, (hpos u hu).2⟩
  have hfold := lineTotal_ofScaled s hs units 0 (le_refl _) hpos' (by simpa using hsum)
  simp only [zero_add] at hfold
  refine ⟨o, row, lines, hbody, horders, hitems, hrow, ?_, ?_⟩
  · refine forall₂_of_common_left ?_ hlines hunits
    intro itemReq l u hl hu
    obtain ⟨hq, mi, hfind, hprice⟩ := hl
    obtain ⟨hq', mi', hfind', hprice'⟩ := hu
    rw [hfind] at hfind'
    cases hfind'
    exact ⟨by rw [hprice, hprice'], by rw [hq, hq']⟩
  · rw [htot, hmap]
    exact hfold

/-- Witness of C2 as amended: prices in quarters (`s = 2`), `A x2` at 5.00 (20 quarters) and
`B x1` at 3.50 (14 quarters): the stored total is 54 quarters, 13.50. -/
theorem placement_total_exact_on_grid_witness :
    (handleCreateOrder envOK (scenarioStore true) "G" (Except.ok requestAB)).2.orders.map
        (fun row => row.totalAmount) = [Float64.finite 27 (-1)] ∧
      (handleCreateOrder envOK (scenarioStore true) "G" (Except.ok requestAB)).2.orderItems.map
          (fun l => (l.menuItemID, l.priceAtPurchase, l.quantity)) =
        [("A", Float64.finite 5 0, 2), ("B", Float64.finite 7 (-1), 1)] ∧
      Float64.ofScaled 2 ([(20, 2), (14, 1)].map (fun u : Int × Int => u.1 * u.2)).sum =
        Float64.finite 27 (-1) ∧
      ∃ o row lines,
        (handleCreateOrder envOK (scenarioStore true) "G" (Except.ok requestAB)).1.body =
          Body.order o ∧
        (handleCreateOrder envOK (scenarioStore true) "G" (Except.ok requestAB)).2.orders =
          (scenarioStore true).orders ++ [row] ∧
        (handleCreateOrder envOK (scenarioStore true) "G" (Except.ok requestAB)).2.orderItems =
          (scenarioStore true).orderItems ++ lines ∧
        row.totalAmount = o.totalAmount ∧
        List.Forall₂
          (fun l u => l.priceAtPurchase = Float64.ofScaled 2 u.1 ∧ l.quantity = u.2)
          lines [(20, 2), (14, 1)] ∧
        o.totalAmount =
          Float64.ofScaled 2 ([(20, 2), (14, 1)].map (fun u : Int × Int => u.1 * u.2)).sum :=
  ⟨by decide, by decide, by decide,
   placement_total_exact_on_grid envOK (scenarioStore true) "G" requestAB 2 [(20, 2), (14, 1)]
     (by decide) (by decide)
     (List.Forall₂.cons ⟨rfl, scenarioMenuItem "A" (Float64.finite 5 0) true, rfl, by decide⟩
       (List.Forall₂.cons ⟨rfl, scenarioMenuItem "B" (Float64.finite 7 (-1)) true, rfl,
         by decide⟩ List.Forall₂.nil))
     (by decide) (by decide)⟩

end TotalExact

end Cantina
